import Mathlib

/-!
# Binding kinetics of simcore crosslinks

A shallow embedding of `simcore/simulation/library/crosslink.cpp` (the
`Crosslink` state machine and its tether force), of `src/xlink_kmc.cpp`
(the `XlinkKMC` engine), of the anchoring and walking of
`simcore/simulation/library/motor.cpp` and of the progress report of
`simulation.cpp`, with the properties of the specification proved about the
embedded code.

Conventions of the embedding.
* A C++ `double` is a rational number: arithmetic is exact, there is no
  rounding, no NaN and no infinity. `exp`, `sqrt` and the other library
  routines are parameters of the functions that call them. The one
  exception is the loop variable of `XlinkKMC::BuildTables`, whose additions
  `a += bin_size` are binary64 additions, rounded to 53 significant bits.
* A `double[3]` is a function `Fin 3 → ℚ`.
* A random number generator is the infinite sequence of its draws together
  with the number of draws already consumed.
* A fatal error (`Logger::Error` or `exit(1)`, which end the process) is
  `Except.error`.
* A loop without a bound on its number of turns takes a number of turns it
  may use and returns `none` when it has used them all.
* An `int` is an integer; `/` and `%` truncate, and a remainder by zero has
  no result.
-/

namespace Simcore

/-! ## Basic data -/

/-- Array `double v[3]`. -/
abbrev Vec3 := Fin 3 → ℚ

/-- Macro `SQR(x) ((x) * (x))` of macros.hpp. -/
def SQR (x : ℚ) : ℚ := x * x

/-- Generator `rng_properties`: the sequence of uniform draws it will
return and the number of draws consumed so far. -/
structure Rng where
  stream : Nat → ℚ
  pos : Nat

/-- Calls `gsl_rng_uniform` and `gsl_rng_uniform_pos`: the next draw and the
advanced generator. -/
def Rng.uniform (r : Rng) : ℚ × Rng :=
  (r.stream r.pos, { r with pos := r.pos + 1 })

/-- Enumeration `bind_state` of a crosslink. -/
inductive bind_state where
  | unbound
  | singly
  | doubly
  deriving DecidableEq, Repr

/-- Object an anchor can bind to (a bond): its object id and its length. -/
structure Obj where
  oid : Nat
  length_ : ℚ
  deriving DecidableEq

/-- Modelled from the spec: class `Anchor` (anchor.hpp and anchor.cpp are
not among the sources). Following section 3 of the specification an anchor
has a bound flag, a reference to the attached object, the arc-length
position `lambda` on that object and a cached position; `force_` is the
force accumulator every `Object` has (object.h) and `neighbors_` the
neighbour list the crosslink queries. -/
structure Anchor where
  bound_ : Bool
  attached : Option Nat
  lambda_ : ℚ
  position_ : Vec3
  force_ : Vec3
  neighbors_ : List Obj

/-- Modelled from the spec: `Anchor::IsBound`, the bound flag. -/
def Anchor.IsBound (a : Anchor) : Bool := a.bound_

/-- Modelled from the spec: `Anchor::Unbind` (anchor.cpp is missing): the
anchor becomes unbound and drops its reference to the attached object. -/
def Anchor.Unbind (a : Anchor) : Anchor :=
  { a with bound_ := false, attached := none }

/-- Modelled from the spec: `Anchor::AttachObjLambda` (anchor.cpp is
missing): the anchor becomes bound to the object at arc-length `lambda`. -/
def Anchor.AttachObjLambda (a : Anchor) (o : Obj) (lambda : ℚ) : Anchor :=
  { a with bound_ := true, attached := some o.oid, lambda_ := lambda }

/-- Member `Object::ZeroForce` (object.h): `std::fill(force_, force_+3, 0.0)`. -/
def Anchor.ZeroForce (a : Anchor) : Anchor :=
  { a with force_ := fun _ => 0 }

/-- Member `Object::AddForce` (object.h): `force_[i] += f[i]` for `i < 3`. -/
def Anchor.AddForce (a : Anchor) (f : Vec3) : Anchor :=
  { a with force_ := fun i => a.force_ i + f i }

/-- Member `Object::SubForce` (object.h): `force_[i] -= f[i]` for `i < 3`. -/
def Anchor.SubForce (a : Anchor) (f : Vec3) : Anchor :=
  { a with force_ := fun i => a.force_ i - f i }

/-- Modelled from the spec: `Anchor::ClearNeighbors` empties the neighbour
list. -/
def Anchor.ClearNeighbors (a : Anchor) : Anchor :=
  { a with neighbors_ := [] }

/-- Modelled from the spec: `Anchor::GetNNeighbors`, the length of the
neighbour list. -/
def Anchor.GetNNeighbors (a : Anchor) : Nat := a.neighbors_.length

/-- Modelled from the spec: `Anchor::GetNeighbor` (anchor.cpp is missing).
Section 4.1: selecting a candidate index that exceeds the neighbour list
length is a fatal fault. -/
def Anchor.GetNeighbor (a : Anchor) (i : Int) : Except String Obj :=
  if i < 0 then .error "Invalid index received in neighbor list"
  else match a.neighbors_.get? i.toNat with
    | some o => .ok o
    | none => .error "Invalid index received in neighbor list"

/-- Class `Interaction` (interaction.h), the fields the crosslink reads. -/
structure Interaction where
  dr : Vec3
  midpoint : Vec3
  dr_mag2 : ℚ

/-- Class `Crosslink`: the members crosslink.cpp reads or writes.
`anchors0` and `anchors1` are `anchors_[0]` and `anchors_[1]`. -/
structure Crosslink where
  state_ : bind_state
  anchors0 : Anchor
  anchors1 : Anchor
  n_dim : Nat
  delta_ : ℚ
  length_ : ℚ
  diameter_ : ℚ
  rest_length_ : ℚ
  k_on_ : ℚ
  k_off_ : ℚ
  k_on_d_ : ℚ
  k_off_d_ : ℚ
  k_spring_ : ℚ
  f_spring_max_ : ℚ
  rcapture_ : ℚ
  fdep_factor_ : ℚ
  tether_force_ : ℚ
  force_ : Vec3
  position_ : Vec3
  orientation_ : Vec3
  rng_ : Rng

/-- Library routines crosslink.cpp calls and that are not part of it: libm,
the KMC helper library and the minimum-distance module. -/
structure KmcLib where
  exp : ℚ → ℚ
  sqrt : ℚ → ℚ
  choose_kmc_double : ℚ → ℚ → ℚ → Int
  CalcTotProbsSD : Crosslink → ℚ
  whichRodBindSD : Crosslink → ℚ → Int × ℚ
  ObjectObject : Anchor → Anchor → Interaction

namespace Crosslink

def SetDoubly (x : Crosslink) : Crosslink := { x with state_ := .doubly }

def SetSingly (x : Crosslink) : Crosslink := { x with state_ := .singly }

def SetUnbound (x : Crosslink) : Crosslink := { x with state_ := .unbound }

def IsDoubly (x : Crosslink) : Bool := x.state_ = .doubly

def IsSingly (x : Crosslink) : Bool := x.state_ = .singly

def IsUnbound (x : Crosslink) : Bool := x.state_ = .unbound

/-- Lines 98-104 of `Crosslink::SinglyKMC`: the lambda returned by the KMC
library, moved to the tail of the rod and bound to the rod ends. -/
def SinglyKMC_lambda (bind_lambda obj_length : ℚ) : ℚ :=
  let bind_lambda := bind_lambda + (1/2) * obj_length
  if bind_lambda > obj_length then obj_length
  else if bind_lambda < 0 then 0
  else bind_lambda

/-- Method `Crosslink::SinglyKMC`. -/
def SinglyKMC (L : KmcLib) (x : Crosslink) : Except String Crosslink :=
  let (roll, rng) := x.rng_.uniform
  let x := { x with rng_ := rng }
  let unbind_prob := x.k_off_ * x.delta_
  let n_neighbors := x.anchors0.GetNNeighbors
  let kmc_bind_prob := if n_neighbors > 0 then L.CalcTotProbsSD x else 0
  let head_activate := L.choose_kmc_double unbind_prob kmc_bind_prob roll
  if head_activate = 0 then
    .ok { x with anchors0 := x.anchors0.Unbind, state_ := .unbound }
  else if head_activate = 1 then
    let (i_bind, bind_lambda) := L.whichRodBindSD x roll
    if i_bind < 0 then
      .error "kmc_bind.whichRodBindSD in Crosslink::SinglyKMC returned an invalid result!"
    else
      match x.anchors0.GetNeighbor i_bind with
      | .error e => .error e
      | .ok bind_obj =>
        let obj_length := bind_obj.length_
        let bind_lambda := SinglyKMC_lambda bind_lambda obj_length
        .ok { x with anchors1 := x.anchors1.AttachObjLambda bind_obj bind_lambda,
                     state_ := .doubly }
  else .ok x

/-- Lines 117-120 of `Crosslink::DoublyKMC`: the force-dependent
`unbind_prob`. -/
def unbind_prob (L : KmcLib) (x : Crosslink) : ℚ :=
  let tether_stretch := x.length_ - x.rest_length_
  let tether_stretch := if tether_stretch > 0 then tether_stretch else 0
  let fdep := x.fdep_factor_ * (1/2) * x.k_spring_ * SQR tether_stretch
  x.k_off_d_ * x.delta_ * L.exp fdep

/-- Line 124 of `Crosslink::DoublyKMC`: the two probabilities handed to
`choose_kmc_double`, for head 0 and for head 1. -/
def DoublyKMC_probs (L : KmcLib) (x : Crosslink) : ℚ × ℚ :=
  ((1/2) * x.unbind_prob L, (1/2) * x.unbind_prob L)

/-- Line 123 of `Crosslink::DoublyKMC`: the head selected by the roll. -/
def DoublyKMC_choice (L : KmcLib) (x : Crosslink) : Int :=
  L.choose_kmc_double (x.DoublyKMC_probs L).1 (x.DoublyKMC_probs L).2 x.rng_.uniform.1

/-- Method `Crosslink::DoublyKMC`. -/
def DoublyKMC (L : KmcLib) (x : Crosslink) : Crosslink :=
  let head_activate := x.DoublyKMC_choice L
  let x := { x with rng_ := x.rng_.uniform.2 }
  if head_activate = 0 then
    let x := { x with anchors0 := x.anchors1 }
    let x := { x with anchors1 := x.anchors1.Unbind }
    x.SetSingly
  else if head_activate = 1 then
    let x := { x with anchors1 := x.anchors1.Unbind }
    x.SetSingly
  else x

/-- Method `Crosslink::ClearNeighbors`. -/
def ClearNeighbors (x : Crosslink) : Crosslink :=
  { x with anchors0 := x.anchors0.ClearNeighbors }

/-- Method `Crosslink::CalculateBinding`. -/
def CalculateBinding (L : KmcLib) (x : Crosslink) : Except String Crosslink :=
  if x.IsSingly then
    match x.SinglyKMC L with
    | .error e => .error e
    | .ok x => .ok x.ClearNeighbors
  else if x.IsDoubly then
    .ok (x.DoublyKMC L).ClearNeighbors
  else .ok x.ClearNeighbors

/-- Method `Crosslink::UpdateXlinkState`. -/
def UpdateXlinkState (x : Crosslink) : Crosslink :=
  if !x.anchors0.IsBound && !x.anchors1.IsBound then
    x.SetUnbound
  else
    let x :=
      if x.IsDoubly && !x.anchors1.IsBound then
        x.SetSingly
      else if x.IsDoubly && !x.anchors0.IsBound then
        let x := { x with anchors0 := x.anchors1 }
        x.SetSingly
      else x
    if x.IsSingly && x.anchors1.IsBound then
      x.SetDoubly
    else x

/-- Method `Crosslink::ZeroForce`. -/
def ZeroForce (x : Crosslink) : Crosslink :=
  { x with force_ := fun _ => 0,
           anchors0 := x.anchors0.ZeroForce,
           anchors1 := x.anchors1.ZeroForce }

/-- Method `Crosslink::CalculateTetherForces`. `UpdatePeriodic` only
refreshes the scaled position used for drawing, which is not a member of
the model. -/
def CalculateTetherForces (L : KmcLib) (x : Crosslink) : Crosslink :=
  let x := x.ZeroForce
  if !x.IsDoubly then x
  else
    let ix := L.ObjectObject x.anchors0 x.anchors1
    let length := L.sqrt ix.dr_mag2
    let stretch := length - x.rest_length_
    let orientation : Vec3 := fun i =>
      if i.val < x.n_dim then ix.dr i / length else x.orientation_ i
    let position : Vec3 := fun i =>
      if i.val < x.n_dim then ix.midpoint i else x.position_ i
    let x := { x with length_ := length, orientation_ := orientation, position_ := position }
    if stretch > 0 then
      let tether_force := x.k_spring_ * stretch
      let force : Vec3 := fun i =>
        if i.val < x.n_dim then tether_force * x.orientation_ i else x.force_ i
      { x with tether_force_ := tether_force,
               force_ := force,
               anchors0 := x.anchors0.AddForce force,
               anchors1 := x.anchors1.SubForce force }
    else x

/-- Line 74 of `Crosslink::SinglyKMC`: the value of `head_activate`. -/
def SinglyKMC_choice (L : KmcLib) (x : Crosslink) : Int :=
  let roll := x.rng_.uniform.1
  let x := { x with rng_ := x.rng_.uniform.2 }
  let kmc_bind_prob := if x.anchors0.GetNNeighbors > 0 then L.CalcTotProbsSD x else 0
  L.choose_kmc_double (x.k_off_ * x.delta_) kmc_bind_prob roll

/-- Line 87 of `Crosslink::SinglyKMC`: the candidate index `i_bind` returned
by `whichRodBindSD`. -/
def SinglyKMC_index (L : KmcLib) (x : Crosslink) : Int :=
  (L.whichRodBindSD { x with rng_ := x.rng_.uniform.2 } x.rng_.uniform.1).1

/-- State invariant of section 8 of the specification. -/
def Inv (x : Crosslink) : Prop :=
  (x.state_ = .doubly → x.anchors0.bound_ = true ∧ x.anchors1.bound_ = true) ∧
  (x.state_ = .singly → x.anchors0.bound_ = true ∧ x.anchors1.bound_ = false) ∧
  (x.state_ = .unbound → x.anchors0.bound_ = false ∧ x.anchors1.bound_ = false)

instance (x : Crosslink) : Decidable x.Inv := by
  unfold Inv; infer_instance

end Crosslink

/-! ## Binary records of a crosslink (crosslink.cpp, lines 294-354) -/

/-- One `write` of a record: the value written and, through `Field.size`,
the number of bytes it takes. The bytes of a value are not modelled. -/
inductive Field where
  | bool (b : Bool)
  | double (q : ℚ)
  | size_t (n : Nat)
  | int (z : Int)
  | byte (b : Nat)
  deriving DecidableEq

/-- Modelled from the spec: `Anchor::WriteSpec` (anchor.cpp is missing).
Section 6: the record of an anchor is its bound flag, attached id (`-1` for
none), lambda and position. -/
def Anchor.WriteSpec (a : Anchor) : List Field :=
  [.bool a.bound_,
   .int (match a.attached with | some o => (o : Int) | none => -1),
   .double a.lambda_,
   .double (a.position_ 0), .double (a.position_ 1), .double (a.position_ 2)]

namespace Crosslink

/-- Lines 298-309 of `Crosslink::WriteSpec`: the writes, in order. -/
def WriteSpec_fields (x : Crosslink) : List Field :=
  let is_doubly := x.IsDoubly
  [.bool is_doubly, .double x.diameter_, .double x.length_,
   .double (x.position_ 0), .double (x.position_ 1), .double (x.position_ 2),
   .double (x.orientation_ 0), .double (x.orientation_ 1), .double (x.orientation_ 2)]
  ++ x.anchors0.WriteSpec ++ x.anchors1.WriteSpec

/-- Method `Crosslink::WriteSpec`: what is appended to the stream. -/
def WriteSpec (x : Crosslink) : Except String (List Field) :=
  if x.IsUnbound then .error "Unbound crosslink tried to WriteSpec!"
  else .ok x.WriteSpec_fields

end Crosslink

/-! ## The engine `XlinkKMC` (src/xlink_kmc.cpp) -/

/-- Entry of a neighbour list: the index `idx_` of the neighbour among the
simples and the scratch weight `kmc_`. -/
structure Neighbor where
  idx_ : Nat
  kmc_ : ℚ
  deriving DecidableEq

/-- Class `Simple` (object.h): the members the engine reads of a bindable
particle, through `GetOID`, `GetRID`, `GetSID`, `GetRigidPosition`,
`GetRigidScaledPosition`, `GetRigidOrientation` and `GetRigidLength`. -/
structure Simple where
  oid : Nat
  rid : Nat
  sid : Nat
  position : Vec3
  scaled_position : Vec3
  orientation : Vec3
  length : ℚ

/-- Modelled from the spec: class `XlinkHead` (xlink_head.h is not among
the sources), the anchor of section 3: bound flag, attachment (index of the
attached simple, `-1` for none, and arc-length position on it), the
per-head expected-binding accumulators, position, time step and the
generator every `Object` has. -/
structure XlinkHead where
  oid : Nat
  bound : Bool
  attach : Int × ℚ
  n_exp_0_1 : ℚ
  n_exp_1_2 : ℚ
  position : Vec3
  prev_position : Vec3
  delta : ℚ
  rng : Rng

/-- Modelled from the spec: `XlinkHead::Attach` records the attachment. -/
def XlinkHead.Attach (h : XlinkHead) (idx : Int) (pos : ℚ) : XlinkHead :=
  { h with attach := (idx, pos) }

/-- Modelled from the spec: `XlinkHead::SetBound` sets the bound flag. -/
def XlinkHead.SetBound (h : XlinkHead) (b : Bool) : XlinkHead :=
  { h with bound := b }

/-- Modelled from the spec: class `Xlink` (xlink.h is not among the
sources), the crosslink of section 3 with exactly two heads. -/
structure Xlink where
  oid : Nat
  head0 : XlinkHead
  head1 : XlinkHead
  bound_state : bind_state
  n_exp_0_1 : ℚ
  n_exp_1_2 : ℚ
  delta : ℚ
  rng : Rng
  position : Vec3
  prev_position : Vec3

/-- Modelled from the spec: `Xlink::CheckBoundState` (xlink.cpp is not
among the sources) sets the state from the bound flags of the two heads:
Doubly when both are bound, Singly when exactly one is, Unbound when none
is. -/
def Xlink.CheckBoundState (x : Xlink) : Xlink :=
  { x with bound_state :=
      if x.head0.bound && x.head1.bound then .doubly
      else if x.head0.bound || x.head1.bound then .singly
      else .unbound }

/-- Head `(*heads)[i]` of a crosslink. -/
def Xlink.head (x : Xlink) (i : Nat) : XlinkHead :=
  if i = 0 then x.head0 else x.head1

/-- Assignment to head `(*heads)[i]` of a crosslink. -/
def Xlink.setHead (x : Xlink) (i : Nat) (h : XlinkHead) : Xlink :=
  if i = 0 then { x with head0 := h } else { x with head1 := h }

/-- Library routines xlink_kmc.cpp calls and that are not part of it: libm,
the minimum distance of a point to the carrier line of a rod (returning the
separation `dr` and the coordinate `mu` of the closest point), the lookup
table `n_exp_lookup_` with its forward lookup and its inversion along axis
0, and the samplers of the GSL: `gsl_ran_poisson` (mean), `gsl_ran_binomial`
(success probability, number of trials) and `gsl_rng_uniform_int` (number of
values), each returning its draw and the advanced generator. -/
structure XlinkLib where
  sqrt : ℚ → ℚ
  min_distance_point_carrier_line : Vec3 → Simple → Vec3 × ℚ
  Lookup : ℚ → ℚ → ℚ
  Invert : ℚ → ℚ → ℚ
  poisson : ℚ → Rng → Nat × Rng
  binomial : ℚ → Nat → Rng → Nat × Rng
  uniform_int : Nat → Rng → Nat × Rng

/-- Class `XlinkKMC` with what it reaches through its pointers: its rate
parameters, the tracking data (`simples_`, `oid_position_map_`,
`neighbors_`, arrays read as maps from index to entry), its population
counters and the crosslink species `spec1_` (its crosslinks, totals,
population counts and time step). -/
structure XlinkKMC where
  eps_eff_0_1_ : Nat → ℚ
  eps_eff_1_2_ : Nat → ℚ
  on_rate_0_1_ : Nat → ℚ
  on_rate_1_2_ : Nat → ℚ
  alpha_ : ℚ
  rcutoff_0_1_ : ℚ
  rcutoff_1_2_ : ℚ
  ndim_ : Nat
  sid2_ : Nat
  simples_ : Nat → Simple
  oid_position_map_ : Nat → Nat
  neighbors_ : Nat → List Neighbor
  spec1_is_kmc : Bool
  xlinks : List Xlink
  spec_n_exp_0_1 : ℚ
  spec_n_exp_1_2 : ℚ
  spec_delta : ℚ
  rng_ : Rng
  velocity_ : ℚ
  nfree_ : Nat
  nbound1_ : Nat → Nat
  nbound2_ : Nat
  spec_nfree : Nat
  spec_nbound1 : Nat → Nat
  spec_nbound2 : Nat
  barrier_weight_ : ℚ
  k_stretch_ : ℚ
  r_equil_ : ℚ

/-- Constant `std::numeric_limits<double>::epsilon()`, 2^-52. -/
def DBL_EPSILON : ℚ := 1 / 2 ^ 52

/-- Sum of `SQR(v[i])` over `i < ndim`. -/
def mag2 (ndim : Nat) (v : Vec3) : ℚ :=
  (List.finRange 3).foldl (fun s i => if i.val < ndim then s + SQR (v i) else s) 0

namespace XlinkKMC

/-- Lines 179-186 of `XlinkKMC::Update_0_1`: the body of the loop over the
heads, for head `i`. -/
def Update_0_1_head (K : XlinkKMC) (xit : Xlink) (i : Nat) : XlinkHead :=
  let head := xit.head i
  let binding_affinity := K.eps_eff_0_1_ i * K.on_rate_0_1_ i * K.alpha_ * xit.delta
  let idx := K.oid_position_map_ head.oid
  let nexp := (K.neighbors_ idx).foldl (fun nexp nldx => nexp + binding_affinity * nldx.kmc_) 0
  { head with n_exp_0_1 := nexp }

/-- Method `XlinkKMC::Update_0_1`. -/
def Update_0_1 (K : XlinkKMC) (xit : Xlink) : Xlink :=
  let head0 := K.Update_0_1_head xit 0
  let nexp_xlink := 0 + head0.n_exp_0_1
  let xit := { xit with head0 := head0 }
  let head1 := K.Update_0_1_head xit 1
  let nexp_xlink := nexp_xlink + head1.n_exp_0_1
  let xit := { xit with head1 := head1 }
  { xit with n_exp_0_1 := nexp_xlink }

/-- Lines 242-277 of `XlinkKMC::Update_1_2`: the weight computed for a
neighbouring rod from the geometry and the lookup table. -/
def Update_1_2_weight (E : XlinkLib) (K : XlinkKMC) (freehead : XlinkHead) (mrod : Simple) : ℚ :=
  let polar_affinity : ℚ := 1
  let l_rod := mrod.length
  let (dr, mu0) := E.min_distance_point_carrier_line freehead.position mrod
  let lim0 := -mu0 - (1/2) * l_rod
  let lim1 := -mu0 + (1/2) * l_rod
  let r_min_mag2 := mag2 K.ndim_ dr
  let r_min_mag := E.sqrt r_min_mag2
  let term0 := E.Lookup |lim0| r_min_mag * (if lim0 < 0 then -1 else 1)
  let term1 := E.Lookup |lim1| r_min_mag * (if lim1 < 0 then -1 else 1)
  (term1 - term0) * polar_affinity

/-- Lines 227-280 of `XlinkKMC::Update_1_2`: the loop over the neighbours of
the free head; it overrides the weight of every neighbour it does not skip
and accumulates the weights. Returns the neighbour list as rewritten and
the total. -/
def Update_1_2_loop (E : XlinkLib) (K : XlinkKMC) (freehead : XlinkHead)
    (mrod_attached : Simple) : List Neighbor → ℚ → List Neighbor × ℚ
  | [], n_exp => ([], n_exp)
  | nldx :: rest, n_exp =>
    let mrod := K.simples_ nldx.idx_
    if mrod.sid ≠ K.sid2_ then
      let r := Update_1_2_loop E K freehead mrod_attached rest n_exp
      (nldx :: r.1, r.2)
    else if mrod.rid = mrod_attached.rid then
      let r := Update_1_2_loop E K freehead mrod_attached rest n_exp
      (nldx :: r.1, r.2)
    else
      let nldx := { nldx with kmc_ := Update_1_2_weight E K freehead mrod }
      let r := Update_1_2_loop E K freehead mrod_attached rest (n_exp + nldx.kmc_)
      (nldx :: r.1, r.2)

/-- Method `XlinkKMC::Update_1_2`: the crosslink and the engine, whose
neighbour list of the free head is rewritten. -/
def Update_1_2 (E : XlinkLib) (K : XlinkKMC) (xit : Xlink) : Xlink × XlinkKMC :=
  let free_i := if xit.head0.bound then 1 else 0
  let attc_i := if xit.head0.bound then 0 else 1
  let attachedhead := xit.head attc_i
  let freehead := xit.head free_i
  let binding_affinity := K.eps_eff_1_2_ free_i * K.on_rate_1_2_ free_i
  let free_idx := K.oid_position_map_ freehead.oid
  let attach_info := attachedhead.attach
  let mrod_attached := K.simples_ attach_info.1.toNat
  if binding_affinity > 0 then
    let r := Update_1_2_loop E K freehead mrod_attached (K.neighbors_ free_idx) 0
    let freehead := { freehead with n_exp_1_2 := r.2 }
    let xit := xit.setHead free_i freehead
    ({ xit with n_exp_1_2 := r.2 },
     { K with neighbors_ := Function.update K.neighbors_ free_idx r.1 })
  else (xit, K)

/-- Lines 155-168 of `XlinkKMC::PrepKMC`: the loop over the crosslinks.
Returns the crosslinks as updated, the engine and the two totals. -/
def PrepKMC_loop (E : XlinkLib) : List Xlink → XlinkKMC → ℚ → ℚ → List Xlink × XlinkKMC × ℚ × ℚ
  | [], K, ntot_0_1, ntot_1_2 => ([], K, ntot_0_1, ntot_1_2)
  | xit :: rest, K, ntot_0_1, ntot_1_2 =>
    match xit.bound_state with
    | .unbound =>
      let xit := K.Update_0_1 xit
      let r := PrepKMC_loop E rest K (ntot_0_1 + xit.n_exp_0_1) ntot_1_2
      (xit :: r.1, r.2)
    | .singly =>
      let u := Update_1_2 E K xit
      let r := PrepKMC_loop E rest u.2 ntot_0_1 (ntot_1_2 + u.1.n_exp_1_2)
      (u.1 :: r.1, r.2)
    | .doubly =>
      let r := PrepKMC_loop E rest K ntot_0_1 ntot_1_2
      (xit :: r.1, r.2)

/-- Method `XlinkKMC::PrepKMC`. The tracking data are members of the model
already. -/
def PrepKMC (E : XlinkLib) (K : XlinkKMC) : XlinkKMC :=
  if !K.spec1_is_kmc then K
  else
    let r := PrepKMC_loop E K.xlinks K 0 0
    { r.2.1 with xlinks := r.1, spec_n_exp_0_1 := r.2.2.1, spec_n_exp_1_2 := r.2.2.2 }

/-- Lines 349-353 and 412 of `XlinkKMC::KMC_0_1`: the loop that walks the
neighbour list of the selected head, accumulating `pos`, up to the first
neighbour at which `pos` exceeds the roll. -/
def KMC_0_1_select (K : XlinkKMC) (binding_affinity roll : ℚ) :
    List Neighbor → ℚ → Option Neighbor
  | [], _ => none
  | nldx :: rest, pos =>
    if (K.simples_ nldx.idx_).sid ≠ K.sid2_ then
      KMC_0_1_select K binding_affinity roll rest pos
    else
      let pos := pos + binding_affinity * nldx.kmc_
      if pos > roll then some nldx
      else KMC_0_1_select K binding_affinity roll rest pos

/-- Lines 391-405 of `XlinkKMC::KMC_0_1`: the retry loop that samples the
attachment coordinate, with `n` iterations left (the loop index is
`100 - n`). -/
def KMC_0_1_crosspos_loop (a mu l_rod : ℚ) : Nat → Rng → ℚ × Rng
  | 0, rng => (0, rng)
  | n + 1, rng =>
    let (uroll, rng) := rng.uniform
    let crosspos := (uroll - 1/2) * a + mu + (1/2) * l_rod
    if crosspos ≥ 0 ∧ crosspos ≤ l_rod then (crosspos, rng)
    else if n = 0 then
      let crosspos := -mu + (1/2) * l_rod
      if crosspos < 0 then (0, rng)
      else if crosspos > l_rod then (l_rod, rng)
      else (crosspos, rng)
    else KMC_0_1_crosspos_loop a mu l_rod n rng

/-- Lines 391-405 of `XlinkKMC::KMC_0_1`: the coordinate handed to
`Attach`. -/
def KMC_0_1_crosspos (a mu l_rod : ℚ) (rng : Rng) : ℚ × Rng :=
  KMC_0_1_crosspos_loop a mu l_rod 100 rng

/-- Lines 361-389 of `XlinkKMC::KMC_0_1`: the half-width `a` of the
sampling window and the coordinate `mu` of the closest point of the carrier
line of `part2`. The member `mrcut2_` is a scratch value written here
before it is read. -/
def KMC_0_1_window (E : XlinkLib) (K : XlinkKMC) (head : XlinkHead) (part2 : Simple) : ℚ × ℚ :=
  let (dr, mu) := E.min_distance_point_carrier_line head.position part2
  let r_min : Vec3 := fun i => -mu * part2.orientation i - dr i
  let r_min_mag2 := mag2 K.ndim_ r_min
  let mrcut2 := K.rcutoff_0_1_ * K.rcutoff_0_1_
  let a := if mrcut2 - r_min_mag2 < 0 then 0 else E.sqrt (mrcut2 - r_min_mag2)
  (a, mu)

/-- Lines 357-410 of `XlinkKMC::KMC_0_1`: head `head_type` of the crosslink
attaches to the neighbour `nldx`. -/
def KMC_0_1_attach (E : XlinkLib) (K : XlinkKMC) (xit : Xlink) (head_type : Nat)
    (nldx : Neighbor) (rng : Rng) : Xlink :=
  let head := xit.head head_type
  let part2 := K.simples_ nldx.idx_
  let l_rod := part2.length
  let w := KMC_0_1_window E K head part2
  let r := KMC_0_1_crosspos w.1 w.2 l_rod rng
  let head := head.Attach nldx.idx_ r.1
  let head := head.SetBound true
  let xit := { xit with rng := r.2 }
  (xit.setHead head_type head).CheckBoundState

/-- Line 339 of `XlinkKMC::KMC_0_1`: the head selected by the draw `u`. -/
def KMC_0_1_head_type (K : XlinkKMC) (u : ℚ) : Nat :=
  if u < K.eps_eff_0_1_ 1 / (K.eps_eff_0_1_ 0 + K.eps_eff_0_1_ 1) then 1 else 0

/-- Lines 342-343 of `XlinkKMC::KMC_0_1`: the affinity that weights the
neighbours of the selected head. -/
def KMC_0_1_affinity (K : XlinkKMC) (head : XlinkHead) : ℚ :=
  (K.eps_eff_0_1_ 0 * K.on_rate_0_1_ 0 + K.eps_eff_0_1_ 1 * K.on_rate_0_1_ 1) *
    K.alpha_ * head.delta

/-- Lines 339-413 of `XlinkKMC::KMC_0_1`: what happens once the first roll
is below `nexp`; `rng` is the generator after that roll. -/
def KMC_0_1_bind (E : XlinkLib) (K : XlinkKMC) (xit : Xlink) (roll : ℚ) (rng : Rng) : Xlink :=
  let head_type := KMC_0_1_head_type K rng.uniform.1
  let rng := rng.uniform.2
  let head := xit.head head_type
  let binding_affinity := KMC_0_1_affinity K head
  let idx := K.oid_position_map_ head.oid
  match KMC_0_1_select K binding_affinity roll (K.neighbors_ idx) 0 with
  | some nldx => KMC_0_1_attach E K xit head_type nldx rng
  | none => { xit with rng := rng }

/-- Lines 329-415 of `XlinkKMC::KMC_0_1`: the body of the loop over the
crosslinks. -/
def KMC_0_1_xlink (E : XlinkLib) (K : XlinkKMC) (xit : Xlink) : Xlink :=
  if xit.bound_state ≠ .unbound then xit
  else
    let nexp := xit.n_exp_0_1
    let nexp := if nexp < DBL_EPSILON ∧ nexp > -DBL_EPSILON then 0 else nexp
    if nexp > 0 then
      let roll := xit.rng.uniform.1
      let rng := xit.rng.uniform.2
      if roll < nexp then KMC_0_1_bind E K xit roll rng
      else { xit with rng := rng }
    else xit

/-- Method `XlinkKMC::KMC_0_1`. -/
def KMC_0_1 (E : XlinkLib) (K : XlinkKMC) : XlinkKMC :=
  { K with xlinks := K.xlinks.map (KMC_0_1_xlink E K) }

/-- Lines 608-619 of `XlinkKMC::KMC_1_2`: the retry loop that samples the
attachment coordinate, with `n` iterations left; `crosspos` keeps its
initial value 0 when every sample is rejected. -/
def KMC_1_2_crosspos_loop (E : XlinkLib) (y mu l_rod : ℚ) : Nat → Rng → ℚ × Rng
  | 0, rng => (0, rng)
  | n + 1, rng =>
    let (uroll, rng) := rng.uniform
    let (sroll, rng) := rng.uniform
    let mpos := (if sroll < 1/2 then -1 else 1) * E.Invert uroll y + mu + (1/2) * l_rod
    if mpos ≥ 0 ∧ mpos ≤ l_rod then (mpos, rng)
    else KMC_1_2_crosspos_loop E y mu l_rod n rng

/-- Lines 604-619 of `XlinkKMC::KMC_1_2`: the coordinate handed to
`Attach`; `y02` is the squared distance to the carrier line. -/
def KMC_1_2_crosspos (E : XlinkLib) (y02 mu l_rod : ℚ) (rng : Rng) : ℚ × Rng :=
  KMC_1_2_crosspos_loop E (E.sqrt y02) mu l_rod 100 rng

/-- Lines 577-623 of `XlinkKMC::KMC_1_2`: the free head `free_i` of the
crosslink attaches to the neighbour `nldx`. -/
def KMC_1_2_attach (E : XlinkLib) (K : XlinkKMC) (xit : Xlink) (free_i : Nat)
    (nldx : Neighbor) : Xlink :=
  let nonattachead := xit.head free_i
  let mrod := K.simples_ nldx.idx_
  let l_rod := mrod.length
  let g := E.min_distance_point_carrier_line nonattachead.position mrod
  let y02 := mag2 K.ndim_ g.1
  let r := KMC_1_2_crosspos E y02 g.2 l_rod xit.rng
  let nonattachead := nonattachead.Attach nldx.idx_ r.1
  let nonattachead := nonattachead.SetBound true
  let xit := { xit with rng := r.2 }
  (xit.setHead free_i nonattachead).CheckBoundState

/-- Lines 553-627 of `XlinkKMC::KMC_1_2`: the loop over the neighbours of
the free head, accumulating `loc`, up to the first neighbour at which `loc`
exceeds `ran_loc`. Returns the crosslink and `loc`. -/
def KMC_1_2_neighbors (E : XlinkLib) (K : XlinkKMC) (ran_loc : ℚ) (attc_i free_i : Nat) :
    List Neighbor → Xlink → ℚ → Xlink × ℚ
  | [], xit, loc => (xit, loc)
  | nldx :: rest, xit, loc =>
    let mrod := K.simples_ nldx.idx_
    if mrod.sid ≠ K.sid2_ then KMC_1_2_neighbors E K ran_loc attc_i free_i rest xit loc
    else
      let attach_info := (xit.head attc_i).attach
      let mrod_attached := K.simples_ attach_info.1.toNat
      if mrod.rid = mrod_attached.rid then
        KMC_1_2_neighbors E K ran_loc attc_i free_i rest xit loc
      else
        let loc := loc + nldx.kmc_
        if loc > ran_loc then (KMC_1_2_attach E K xit free_i nldx, loc)
        else KMC_1_2_neighbors E K ran_loc attc_i free_i rest xit loc

/-- Lines 522-630 of `XlinkKMC::KMC_1_2`: the loop over the crosslinks of
one trial; `loc` is carried from one crosslink to the next and the loop does
not end when a crosslink has attached. -/
def KMC_1_2_xlinks (E : XlinkLib) (K : XlinkKMC) (ran_loc : ℚ) : List Xlink → ℚ → List Xlink
  | [], _ => []
  | xit :: rest, loc =>
    if xit.bound_state ≠ .singly then xit :: KMC_1_2_xlinks E K ran_loc rest loc
    else
      let loc := loc + xit.n_exp_1_2
      if loc > ran_loc then
        let loc := loc - xit.n_exp_1_2
        let attc_i := if xit.head0.bound then 0 else 1
        let free_i := if xit.head0.bound then 1 else 0
        let idx := K.oid_position_map_ (xit.head free_i).oid
        let r := KMC_1_2_neighbors E K ran_loc attc_i free_i (K.neighbors_ idx) xit loc
        r.1 :: KMC_1_2_xlinks E K ran_loc rest r.2
      else xit :: KMC_1_2_xlinks E K ran_loc rest loc

/-- Lines 520-631 of `XlinkKMC::KMC_1_2`: one trial, the body of the loop
over the trials. -/
def KMC_1_2_trial (E : XlinkLib) (nexp_1_2 : ℚ) (K : XlinkKMC) : XlinkKMC :=
  let ran_loc := K.rng_.uniform.1 * nexp_1_2
  let K := { K with rng_ := K.rng_.uniform.2 }
  { K with xlinks := KMC_1_2_xlinks E K ran_loc K.xlinks 0 }

/-- Lines 519-631 of `XlinkKMC::KMC_1_2`: the loop over the trials, with `n`
trials left. -/
def KMC_1_2_trials (E : XlinkLib) (nexp_1_2 : ℚ) : Nat → XlinkKMC → XlinkKMC
  | 0, K => K
  | n + 1, K => KMC_1_2_trials E nexp_1_2 n (KMC_1_2_trial E nexp_1_2 K)

/-- Method `XlinkKMC::KMC_1_2`. -/
def KMC_1_2 (E : XlinkLib) (K : XlinkKMC) : XlinkKMC :=
  let nexp_1_2 := K.spec_n_exp_1_2
  let p := E.poisson (nexp_1_2 * K.spec_delta) K.rng_
  KMC_1_2_trials E nexp_1_2 p.1 { K with rng_ := p.2 }

/-- Method `XlinkKMC::KMC_2_1`: its body is empty. -/
def KMC_2_1 (K : XlinkKMC) : XlinkKMC := K

/-- Members `Object::SetPosition` and `Object::SetPrevPosition` (object.h):
`std::copy(pos, pos + n_dim_, position_)` writes the first `ndim`
components of `pos` over `old`. -/
def setVec (ndim : Nat) (old pos : Vec3) : Vec3 :=
  fun i => if i.val < ndim then pos i else old i

/-- Lines 708-713 of `XlinkKMC::UpdateStage1` and 754-759 of
`XlinkKMC::UpdateStage2`: the attachment coordinate advanced by
`velocity_ * delta` and bound to the rod ends. -/
def walk_crosspos (cross_pos velocity delta l_rod : ℚ) : ℚ :=
  let cross_pos := cross_pos + velocity * delta
  if cross_pos > l_rod then l_rod
  else if cross_pos < 0 then 0
  else cross_pos

/-- Lines 716-719 of `XlinkKMC::UpdateStage1` and 762-764 of
`XlinkKMC::UpdateStage2`: the point of the rod at coordinate `cross_pos`,
component `i`. -/
def rod_point (part2 : Simple) (cross_pos : ℚ) (i : Fin 3) : ℚ :=
  part2.position i - (1/2) * part2.orientation i * part2.length + cross_pos * part2.orientation i

/-- Lines 697-730 of `XlinkKMC::UpdateStage1`: the attached head `attc_i`
walks along its rod and both heads and the crosslink move to the new point.
The pointer `r_x` aliases the position of the attached head, so after
`attachedhead->SetPosition(rxnew)` it points at the new position. -/
def UpdateStage1_move (K : XlinkKMC) (xit : Xlink) (attc_i non_i : Nat) : Xlink :=
  let attachedhead := xit.head attc_i
  let nonattachead := xit.head non_i
  let aidx := attachedhead.attach.1
  let cross_pos := attachedhead.attach.2
  let part2 := K.simples_ aidx.toNat
  let l_rod := part2.length
  let cross_pos := walk_crosspos cross_pos K.velocity_ attachedhead.delta l_rod
  let attachedhead := attachedhead.Attach aidx cross_pos
  let rxnew : Vec3 := rod_point part2 cross_pos
  let attachedhead :=
    { attachedhead with
        prev_position := setVec K.ndim_ attachedhead.prev_position attachedhead.position }
  let attachedhead :=
    { attachedhead with position := setVec K.ndim_ attachedhead.position rxnew }
  let r_x := attachedhead.position
  let nonattachead :=
    { nonattachead with prev_position := setVec K.ndim_ nonattachead.prev_position r_x }
  let nonattachead :=
    { nonattachead with position := setVec K.ndim_ nonattachead.position rxnew }
  let xit := (xit.setHead attc_i attachedhead).setHead non_i nonattachead
  let xit := { xit with prev_position := setVec K.ndim_ xit.prev_position r_x }
  { xit with position := setVec K.ndim_ xit.position rxnew }

/-- Method `XlinkKMC::UpdateStage1`: the crosslink and the engine, whose
counter `nbound1_` is incremented; `exit(1)` when no head is bound. -/
def UpdateStage1 (K : XlinkKMC) (xit : Xlink) : Except String (Xlink × XlinkKMC) :=
  let xit := { xit with n_exp_0_1 := 0 }
  let xit := { xit with head0 := { xit.head0 with n_exp_0_1 := 0 } }
  let xit := { xit with head1 := { xit.head1 with n_exp_0_1 := 0 } }
  if xit.head0.bound then
    let K := { K with nbound1_ := Function.update K.nbound1_ 0 (K.nbound1_ 0 + 1) }
    .ok (UpdateStage1_move K xit 0 1, K)
  else if xit.head1.bound then
    let K := { K with nbound1_ := Function.update K.nbound1_ 1 (K.nbound1_ 1 + 1) }
    .ok (UpdateStage1_move K xit 1 0, K)
  else .error "Something has gone horribly wrong"

/-- Lines 741-774 of `XlinkKMC::UpdateStage2`: the body of the loop over the
heads, for one head: the head as updated and its new position `rxnew`. -/
def UpdateStage2_head (K : XlinkKMC) (head : XlinkHead) : XlinkHead × Vec3 :=
  let head := { head with n_exp_1_2 := 0 }
  let aidx := head.attach.1
  let crosspos := head.attach.2
  let mrod := K.simples_ aidx.toNat
  let lrod := mrod.length
  let crosspos := walk_crosspos crosspos K.velocity_ head.delta lrod
  let head := head.Attach aidx crosspos
  let rxnew : Vec3 := rod_point mrod crosspos
  let head := { head with prev_position := setVec K.ndim_ head.prev_position head.position }
  let head := { head with position := setVec K.ndim_ head.position rxnew }
  (head, rxnew)

/-- Method `XlinkKMC::UpdateStage2`: the crosslink and the engine, whose
counter `nbound2_` is incremented. -/
def UpdateStage2 (K : XlinkKMC) (xit : Xlink) : Xlink × XlinkKMC :=
  let xit := { xit with n_exp_1_2 := 0 }
  let oldxitpos := xit.position
  let avgpos : Vec3 := fun _ => 0
  let h0 := UpdateStage2_head K xit.head0
  let avgpos : Vec3 := fun i => if i.val < K.ndim_ then avgpos i + h0.2 i else avgpos i
  let h1 := UpdateStage2_head K xit.head1
  let avgpos : Vec3 := fun i => if i.val < K.ndim_ then avgpos i + h1.2 i else avgpos i
  let xit := { xit with head0 := h0.1, head1 := h1.1 }
  let avgpos : Vec3 := fun i => if i.val < K.ndim_ then avgpos i * (1/2) else avgpos i
  let xit := { xit with position := setVec K.ndim_ xit.position avgpos }
  let xit := { xit with prev_position := setVec K.ndim_ xit.prev_position oldxitpos }
  (xit, { K with nbound2_ := K.nbound2_ + 1 })

/-- Lines 652-664 of `XlinkKMC::UpdateKMC`: the loop over the crosslinks. -/
def UpdateKMC_loop : List Xlink → XlinkKMC → Except String (List Xlink × XlinkKMC)
  | [], K => .ok ([], K)
  | xit :: rest, K =>
    match xit.bound_state with
    | .unbound =>
      match UpdateKMC_loop rest { K with nfree_ := K.nfree_ + 1 } with
      | .error e => .error e
      | .ok r => .ok (xit :: r.1, r.2)
    | .singly =>
      match UpdateStage1 K xit with
      | .error e => .error e
      | .ok u =>
        match UpdateKMC_loop rest u.2 with
        | .error e => .error e
        | .ok r => .ok (u.1 :: r.1, r.2)
    | .doubly =>
      match UpdateKMC_loop rest (UpdateStage2 K xit).2 with
      | .error e => .error e
      | .ok r => .ok ((UpdateStage2 K xit).1 :: r.1, r.2)

/-- Method `XlinkKMC::UpdateKMC`. The tracking data are members of the model
already. -/
def UpdateKMC (K : XlinkKMC) : Except String XlinkKMC :=
  let K := { K with nfree_ := 0 }
  let K := { K with nbound1_ := fun _ => 0 }
  let K := { K with nbound2_ := 0 }
  match UpdateKMC_loop K.xlinks K with
  | .error e => .error e
  | .ok r =>
    let K := { r.2 with xlinks := r.1 }
    .ok { K with spec_nfree := K.nfree_, spec_nbound1 := K.nbound1_, spec_nbound2 := K.nbound2_ }

/-- Lines 474-479 of `XlinkKMC::KMC_1_0`: one round of the rejection
sampling of the displacement: the vector `randr`, its squared length and the
advanced generator. -/
def KMC_1_0_draw (K : XlinkKMC) (rng : Rng) : Vec3 × ℚ × Rng :=
  (List.finRange 3).foldl
    (fun (acc : Vec3 × ℚ × Rng) i =>
      if i.val < K.ndim_ then
        let mrand := acc.2.2.uniform.1
        let c := 2 * K.rcutoff_0_1_ * (mrand - 1/2)
        (Function.update acc.1 i c, acc.2.1 + SQR c, acc.2.2.uniform.2)
      else acc)
    (fun _ => 0, 0, rng)

/-- Lines 473-480 of `XlinkKMC::KMC_1_0`: the `do ... while` loop of the
rejection sampling, which runs until the displacement lies in the ball of
radius `rcutoff_0_1_`; `none` when it has not ended after `fuel` rounds. -/
def KMC_1_0_randr (K : XlinkKMC) : Nat → Rng → Option (Vec3 × Rng)
  | 0, _ => none
  | fuel + 1, rng =>
    let d := KMC_1_0_draw K rng
    let mrcut2 := K.rcutoff_0_1_ * K.rcutoff_0_1_
    if d.2.1 > mrcut2 then KMC_1_0_randr K fuel d.2.2
    else some (d.1, d.2.2)

/-- Lines 448-503 of `XlinkKMC::KMC_1_0`: head `head_type` of the crosslink
detaches and both heads are placed at a random point around the attachment
point. -/
def KMC_1_0_detach (K : XlinkKMC) (fuel : Nat) (xit : Xlink) (head_type : Nat) :
    Option Xlink :=
  let attc_i := if head_type = 0 then 0 else 1
  let non_i := if head_type = 0 then 1 else 0
  let attachedhead := xit.head attc_i
  let nonattachead := xit.head non_i
  let prevpos := attachedhead.position
  match KMC_1_0_randr K fuel attachedhead.rng with
  | none => none
  | some r =>
    let attachedhead := { attachedhead with rng := r.2 }
    let randr : Vec3 := fun i => if i.val < K.ndim_ then r.1 i + prevpos i else r.1 i
    let attachedhead :=
      { attachedhead with position := setVec K.ndim_ attachedhead.position randr }
    let attachedhead :=
      { attachedhead with prev_position := setVec K.ndim_ attachedhead.prev_position prevpos }
    let nonattachead :=
      { nonattachead with position := setVec K.ndim_ nonattachead.position randr }
    let nonattachead :=
      { nonattachead with prev_position := setVec K.ndim_ nonattachead.prev_position prevpos }
    let attachedhead := attachedhead.SetBound false
    let xit := ((xit.setHead attc_i attachedhead).setHead non_i nonattachead).CheckBoundState
    let attachedhead := (xit.head attc_i).Attach (-1) 0
    some (xit.setHead attc_i attachedhead)

/-- Lines 440-508 of `XlinkKMC::KMC_1_0`: the loop over the crosslinks that
looks for the crosslink number `idxoff` among those singly bound by head
`head_type`; `idxloc` is the number of the last one met. -/
def KMC_1_0_find (K : XlinkKMC) (fuel : Nat) (head_type : Nat) (idxoff : Int) :
    List Xlink → Int → Option (List Xlink)
  | [], _ => some []
  | xit :: rest, idxloc =>
    if xit.bound_state ≠ .singly then
      (KMC_1_0_find K fuel head_type idxoff rest idxloc).map (fun r => xit :: r)
    else if !(xit.head head_type).bound then
      (KMC_1_0_find K fuel head_type idxoff rest idxloc).map (fun r => xit :: r)
    else
      let idxloc := idxloc + 1
      if idxloc = idxoff then
        (KMC_1_0_detach K fuel xit head_type).map (fun y => y :: rest)
      else (KMC_1_0_find K fuel head_type idxoff rest idxloc).map (fun r => xit :: r)

/-- Lines 433-510 of `XlinkKMC::KMC_1_0`: the loop over the heads to remove,
from index `i` on, with `n` iterations left. -/
def KMC_1_0_loop (E : XlinkLib) (fuel : Nat) (nbound1 : Nat → Nat) (noff1 : Nat) :
    Nat → Nat → XlinkKMC → Option XlinkKMC
  | 0, _, K => some K
  | n + 1, i, K =>
    let head_type := if i < noff1 then 1 else 0
    let d := E.uniform_int (nbound1 head_type) K.rng_
    let K := { K with rng_ := d.2 }
    match KMC_1_0_find K fuel head_type d.1 K.xlinks (-1) with
    | none => none
    | some xs => KMC_1_0_loop E fuel nbound1 noff1 n (i + 1) { K with xlinks := xs }

/-- Lines 424-425 of `XlinkKMC::KMC_1_0`: the probability with which a head
of type `i` detaches in one step. -/
def KMC_1_0_poff (K : XlinkKMC) (i : Nat) : ℚ :=
  K.on_rate_0_1_ i * K.alpha_ * K.spec_delta

/-- Method `XlinkKMC::KMC_1_0`; `none` when a rejection sampling has not
ended after `fuel` rounds. -/
def KMC_1_0 (E : XlinkLib) (fuel : Nat) (K : XlinkKMC) : Option XlinkKMC :=
  let nbound1 := K.spec_nbound1
  let poff_single_a := KMC_1_0_poff K 0
  let poff_single_b := KMC_1_0_poff K 1
  let b0 := E.binomial poff_single_a (nbound1 0) K.rng_
  let b1 := E.binomial poff_single_b (nbound1 1) b0.2
  let K := { K with rng_ := b1.2 }
  KMC_1_0_loop E fuel nbound1 b1.1 (b0.1 + b1.1) 0 K

/-- Lines 298-300 of `XlinkKMC::StepKMC`: the entries `i` and `j` of the
order array are exchanged. -/
def StepKMC_swap (g : List Nat) (i j : Nat) : List Nat :=
  let swapme := g.getD i 0
  let g := g.set i (g.getD j 0)
  g.set j swapme

/-- Lines 296-301 of `XlinkKMC::StepKMC`: the swap loop from index `i` on,
with `n` iterations left. -/
def StepKMC_shuffle (E : XlinkLib) : Nat → Nat → List Nat → Rng → List Nat × Rng
  | 0, _, g, rng => (g, rng)
  | n + 1, i, g, rng =>
    let d := E.uniform_int 4 rng
    StepKMC_shuffle E n (i + 1) (StepKMC_swap g i d.1) d.2

/-- Lines 295-301 of `XlinkKMC::StepKMC`: the order array after the four
swaps with the draws `j0`, `j1`, `j2`, `j3`. -/
def StepKMC_swaps (j0 j1 j2 j3 : Nat) : List Nat :=
  StepKMC_swap (StepKMC_swap (StepKMC_swap (StepKMC_swap [0, 1, 2, 3] 0 j0) 1 j1) 2 j2) 3 j3

/-- Lines 295-301 of `XlinkKMC::StepKMC`: the order array after the swap
loop and the advanced generator. -/
def StepKMC_order (E : XlinkLib) (rng : Rng) : List Nat × Rng :=
  StepKMC_shuffle E 4 0 [0, 1, 2, 3] rng

/-- Lines 307-320 of `XlinkKMC::StepKMC`: the `switch` on an entry of the
order array. -/
def StepKMC_dispatch (E : XlinkLib) (fuel : Nat) (K : XlinkKMC) (c : Nat) : Option XlinkKMC :=
  match c with
  | 0 => some (KMC_0_1 E K)
  | 1 => KMC_1_0 E fuel K
  | 2 => some (KMC_1_2 E K)
  | 3 => some (KMC_2_1 K)
  | _ => some K

/-- Method `XlinkKMC::StepKMC`; `none` when a rejection sampling of
`KMC_1_0` has not ended after `fuel` rounds. -/
def StepKMC (E : XlinkLib) (fuel : Nat) (K : XlinkKMC) : Option XlinkKMC :=
  let o := StepKMC_order E K.rng_
  o.1.foldlM (StepKMC_dispatch E fuel) { K with rng_ := o.2 }

/-- The four kinetic methods `StepKMC` chooses from, as steps that may not
end: `KMC_0_1`, `KMC_1_0`, `KMC_1_2` and `KMC_2_1`. -/
def StepKMC_methods (E : XlinkLib) (fuel : Nat) : List (XlinkKMC → Option XlinkKMC) :=
  [fun K => some (KMC_0_1 E K), fun K => KMC_1_0 E fuel K, fun K => some (KMC_1_2 E K),
   fun K => some (KMC_2_1 K)]

/-- One kinetic pass restricted to the 0 -> 1 events: `PrepKMC` followed by
`KMC_0_1`. -/
def pass_0_1 (E : XlinkLib) (K : XlinkKMC) : XlinkKMC :=
  KMC_0_1 E (PrepKMC E K)

/-- Both heads of the crosslink have an empty neighbour list. -/
def NoNeighbors (K : XlinkKMC) (x : Xlink) : Prop :=
  K.neighbors_ (K.oid_position_map_ x.head0.oid) = [] ∧
  K.neighbors_ (K.oid_position_map_ x.head1.oid) = []

/-- What a 0 -> 1 transition would change on a crosslink: its state, the
bound flags of its heads and the number of draws taken from its stream. -/
def footprint (x : Xlink) : bind_state × Bool × Bool × Nat :=
  (x.bound_state, x.head0.bound, x.head1.bound, x.rng.pos)

/-- No head of `x` was attached on the way to `y`: both heads are as they
were and the crosslink is unbound. -/
def Unattached (x y : Xlink) : Prop :=
  y.head0 = x.head0 ∧ y.head1 = x.head1 ∧ y.bound_state = .unbound

/-- Exactly one head of `x` was attached on the way to `y`, to exactly one
candidate: head `i` is now bound to a neighbour of its list, of the
partner species, the other head is as it was and the crosslink is Singly
bound. -/
def AttachedOne (K : XlinkKMC) (x y : Xlink) : Prop :=
  ∃ (i : Nat) (nldx : Neighbor), i < 2 ∧
    nldx ∈ K.neighbors_ (K.oid_position_map_ (x.head i).oid) ∧
    (K.simples_ nldx.idx_).sid = K.sid2_ ∧
    (y.head i).bound = true ∧ (y.head i).attach.1 = nldx.idx_ ∧
    y.head (1 - i) = x.head (1 - i) ∧ y.bound_state = .singly

/-- Test of lines 231-235 of `XlinkKMC::Update_1_2` and 556-568 of
`XlinkKMC::KMC_1_2`: the neighbour is of the binding-partner species and its
rod is not the rod `mrod_attached` of the attached head. -/
def partner_rod (K : XlinkKMC) (mrod_attached : Simple) (nldx : Neighbor) : Bool :=
  decide ((K.simples_ nldx.idx_).sid = K.sid2_) &&
    decide ((K.simples_ nldx.idx_).rid ≠ mrod_attached.rid)

/-- Index of the attached head of a singly bound crosslink, as
`Update_1_2` and `KMC_1_2` choose it: head 0 when it is bound, head 1
otherwise. -/
def attc_index (x : Xlink) : Nat := if x.head0.bound then 0 else 1

/-- Index of the free head of a singly bound crosslink, as `Update_1_2` and
`KMC_1_2` choose it. -/
def free_index (x : Xlink) : Nat := if x.head0.bound then 1 else 0

/-- One 1 -> 2 event on a crosslink, or none: `y` is `x`, or `x` is Singly
bound and `y` is `x` with its free head attached to a neighbour of that
head's list which is of the partner species and whose rod is not the rod of
the attached head. -/
def Step_1_2 (E : XlinkLib) (K : XlinkKMC) (x y : Xlink) : Prop :=
  y = x ∨
  (x.bound_state = .singly ∧
    ∃ nldx : Neighbor,
      nldx ∈ K.neighbors_ (K.oid_position_map_ (x.head (free_index x)).oid) ∧
      (K.simples_ nldx.idx_).sid = K.sid2_ ∧
      (K.simples_ nldx.idx_).rid ≠ (K.simples_ (x.head (attc_index x)).attach.1.toNat).rid ∧
      y = KMC_1_2_attach E K x (free_index x) nldx)

/-- The loop of `Update_1_2` as the method runs it for a crosslink: over
the neighbour list of the free head, with the rod of the attached head,
from a total of zero. -/
def Update_1_2_run (E : XlinkLib) (K : XlinkKMC) (x : Xlink) : List Neighbor × ℚ :=
  Update_1_2_loop E K (x.head (free_index x))
    (K.simples_ (x.head (attc_index x)).attach.1.toNat)
    (K.neighbors_ (K.oid_position_map_ (x.head (free_index x)).oid)) 0

/-- The two assignments that end `Update_1_2`: the total is stored in the
free head and in the crosslink. -/
def with_n_exp_1_2 (x : Xlink) (total : ℚ) : Xlink :=
  { (x.setHead (free_index x) { (x.head (free_index x)) with n_exp_1_2 := total }) with
    n_exp_1_2 := total }

/-- Expected-binding values of a crosslink: its 0 -> 1 and 1 -> 2 values
and those of its two heads. -/
def expectations (x : Xlink) : ℚ × ℚ × ℚ × ℚ × ℚ × ℚ :=
  (x.n_exp_0_1, x.n_exp_1_2, x.head0.n_exp_0_1, x.head0.n_exp_1_2,
   x.head1.n_exp_0_1, x.head1.n_exp_1_2)

/-- Expected-binding values of an engine: those of every crosslink and the
two totals of the species. -/
def all_expectations (K : XlinkKMC) : List (ℚ × ℚ × ℚ × ℚ × ℚ × ℚ) × ℚ × ℚ :=
  (K.xlinks.map expectations, K.spec_n_exp_0_1, K.spec_n_exp_1_2)

/-- The two engines have the same rate parameters, dimension, partner
species, simples and index map: everything `PrepKMC` reads apart from the
neighbour lists and the crosslinks. -/
def SameRates (K K2 : XlinkKMC) : Prop :=
  K2.eps_eff_0_1_ = K.eps_eff_0_1_ ∧ K2.eps_eff_1_2_ = K.eps_eff_1_2_ ∧
  K2.on_rate_0_1_ = K.on_rate_0_1_ ∧ K2.on_rate_1_2_ = K.on_rate_1_2_ ∧
  K2.alpha_ = K.alpha_ ∧ K2.ndim_ = K.ndim_ ∧ K2.sid2_ = K.sid2_ ∧
  K2.simples_ = K.simples_ ∧ K2.oid_position_map_ = K.oid_position_map_

/-- The two engines read the same data: same rates, neighbour lists with
the same neighbours in the same order (the weights may differ), and
identical lists at the indices in `U`. -/
def SameLists (U : Nat → Prop) (K K2 : XlinkKMC) : Prop :=
  SameRates K K2 ∧
  (∀ i : Nat, (K2.neighbors_ i).map Neighbor.idx_ = (K.neighbors_ i).map Neighbor.idx_) ∧
  (∀ i : Nat, U i → K2.neighbors_ i = K.neighbors_ i)

/-- The index of the neighbour list of a head of an unbound crosslink of the
list. -/
def UnboundIndex (K : XlinkKMC) (l : List Xlink) (i : Nat) : Prop :=
  ∃ x ∈ l, x.bound_state = .unbound ∧
    (i = K.oid_position_map_ x.head0.oid ∨ i = K.oid_position_map_ x.head1.oid)

/-- No neighbour list read for an unbound crosslink is the list of the free
head of a Singly bound crosslink: the heads have lists of their own. -/
def ListsApart (K : XlinkKMC) : Prop :=
  ∀ y ∈ K.xlinks, y.bound_state = .singly →
    ¬ UnboundIndex K K.xlinks (K.oid_position_map_ (y.head (free_index y)).oid)

end XlinkKMC

/-! ## Creation of a crosslink (crosslink.cpp, lines 5-34 and 244-256) -/

/-- Members of `params_->crosslink` that `Crosslink::Init` copies into
members of the model. -/
structure crosslink_parameters where
  tether_diameter : ℚ
  rest_length : ℚ
  k_on : ℚ
  k_off : ℚ
  k_on_d : ℚ
  k_off_d : ℚ
  k_spring : ℚ
  f_spring_max : ℚ
  r_capture : ℚ
  force_dep_factor : ℚ

/-- Modelled from the spec: `Anchor::AttachObjRandom` (anchor.cpp is
missing) binds the anchor to the object at a random arc-length position,
here `lambda`. -/
def Anchor.AttachObjRandom (a : Anchor) (o : Obj) (lambda : ℚ) : Anchor :=
  a.AttachObjLambda o lambda

namespace Crosslink

/-- Method `Crosslink::Init`. `anchor1` and `anchor2` are the two anchors it
pushes into `anchors_`, as `Anchor::Init` (not among the sources) leaves
them. The members `k_align_`, `polar_affinity_`, `color_` and `draw_`, which
no other method of crosslink.cpp reads, are not members of the model. -/
def Init (x : Crosslink) (p : crosslink_parameters) (anchor1 anchor2 : Anchor) : Crosslink :=
  let x := { x with length_ := -1 }
  let x := { x with diameter_ := p.tether_diameter }
  let x := { x with rest_length_ := p.rest_length }
  let x := { x with k_on_ := p.k_on }
  let x := { x with k_off_ := p.k_off }
  let x := { x with k_on_d_ := p.k_on_d }
  let x := { x with k_off_d_ := p.k_off_d }
  let x := { x with k_spring_ := p.k_spring }
  let x := { x with f_spring_max_ := p.f_spring_max }
  let x := { x with rcapture_ := p.r_capture }
  let x := { x with fdep_factor_ := p.force_dep_factor }
  let x := { x with anchors0 := anchor1, anchors1 := anchor2 }
  x.SetSingly

/-- Method `Crosslink::AttachObjRandom`; `is_bond` is the test
`obj->GetType() == +obj_type::bond` and `lambda` the position the anchor
draws. The mesh id is not a member of the model. -/
def AttachObjRandom (x : Crosslink) (is_bond : Bool) (obj : Obj) (lambda : ℚ) :
    Except String Crosslink :=
  if is_bond then
    .ok { x with anchors0 := x.anchors0.AttachObjRandom obj lambda }
  else
    .error "Crosslink binding to non-bond objects not yet implemented."

end Crosslink

/-! ## The motor (simcore/simulation/library/motor.cpp) -/

/-- Bond a motor is bound to: what the motor reads through `GetPosition`,
`GetOrientation` and `GetLength`, and the force and torque accumulators of
`Object`. -/
structure Bond where
  position : Vec3
  orientation : Vec3
  length : ℚ
  force_ : Vec3
  torque_ : Vec3

/-- Member `Object::AddForce` (object.h): `force_[i] += f[i]` for `i < 3`. -/
def Bond.AddForce (b : Bond) (f : Vec3) : Bond :=
  { b with force_ := fun i => b.force_ i + f i }

/-- Member `Object::AddTorque` (object.h): `torque_[i] += t[i]` for
`i < 3`. -/
def Bond.AddTorque (b : Bond) (t : Vec3) : Bond :=
  { b with torque_ := fun i => b.torque_ i + t i }

/-- Member `anchor_` of a motor: the members motor.cpp reads or writes. -/
structure MotorAnchor where
  position_ : Vec3
  force_ : Vec3
  torque_ : Vec3
  k_spring_ : ℚ

/-- Class `Motor`: the members `ApplyAnchorForces`, `DetachBoundary`,
`Walk`, `SwitchBonds` and `AttachToBond` read or write; `bond` is
`bonds_[0].first`. -/
structure Motor where
  n_dim_ : Nat
  delta_ : ℚ
  position_ : Vec3
  orientation_ : Vec3
  bound_ : Bool
  bond : Bond
  bond_length_ : ℚ
  bond_lambda_ : ℚ
  mesh_lambda_ : ℚ
  velocity_ : ℚ
  max_velocity_ : ℚ
  step_direction_ : Int
  active_ : Bool
  anchored_ : Bool
  f_spring_max_ : ℚ
  anchor_ : MotorAnchor

/-- Library routines motor.cpp calls and that are not part of it: libm, the
cross product of the first `n_dim` components, the neighbouring directed
bond of a bond at its tail (0) or head (1) (a null pointer is `none`, the
flag says whether the bond is `INCOMING`), and `Object::UpdatePeriodic`
acting on the position. -/
structure MotorLib where
  sqrt : ℚ → ℚ
  exp : ℚ → ℚ
  cross_product : Vec3 → Vec3 → Nat → Vec3
  GetNeighborDirectedBond : Bond → Nat → Option (Bond × Bool)
  UpdatePeriodic : Vec3 → Vec3

namespace Motor

/-- Method `Motor::Deactivate`. -/
def Deactivate (m : Motor) : Motor :=
  { m with active_ := false, step_direction_ := -m.step_direction_ }

/-- Method `Motor::DetachBoundary`. -/
def DetachBoundary (m : Motor) : Motor :=
  let m := { m with anchored_ := false }
  let m := { m with velocity_ := m.max_velocity_ }
  m.Deactivate

/-- Lines 79-84 of `Motor::ApplyAnchorForces`: the force written in
`anchor_.force_`, whose components from `n_dim_` on are left as they
were. -/
def anchor_force (m : Motor) : Vec3 :=
  fun i =>
    if i.val < m.n_dim_ then -m.anchor_.k_spring_ * (m.position_ i - m.anchor_.position_ i)
    else m.anchor_.force_ i

/-- Lines 79-84 of `Motor::ApplyAnchorForces`: the value of `f_mag` after
the loop, the sum of the squares of the first `n_dim_` components of the
anchor force. -/
def anchor_f_mag (m : Motor) : ℚ :=
  (List.finRange 3).foldl
    (fun s i => if i.val < m.n_dim_ then s + m.anchor_force i * m.anchor_force i else s) 0

/-- Method `Motor::ApplyAnchorForces`. -/
def ApplyAnchorForces (L : MotorLib) (m : Motor) : Motor :=
  let temp : Vec3 := fun i =>
    if i.val < m.n_dim_ then (m.bond_lambda_ - (1/2) * m.bond_length_) * m.orientation_ i else 0
  let f_mag := m.anchor_f_mag
  let m := { m with anchor_ := { m.anchor_ with force_ := m.anchor_force } }
  if f_mag > SQR m.f_spring_max_ then m.DetachBoundary
  else
    let f_mag := L.sqrt f_mag
    let m := { m with anchor_ :=
      { m.anchor_ with torque_ := L.cross_product temp m.anchor_.force_ m.n_dim_ } }
    let m := { m with bond := m.bond.AddForce m.anchor_.force_ }
    let m := { m with bond := m.bond.AddTorque m.anchor_.torque_ }
    { m with velocity_ := m.max_velocity_ * L.exp (-(f_mag / m.f_spring_max_) ^ 4) }

/-- Method `Motor::AttachToBond`; the flag of the directed bond says whether
it is `INCOMING`. -/
def AttachToBond (L : MotorLib) (m : Motor) (db : Bond × Bool) (lambda mesh_lambda : ℚ) :
    Motor :=
  let m := { m with bond := db.1 }
  let m := { m with bond_length_ := db.1.length }
  let m := { m with bond_lambda_ := if db.2 then m.bond_length_ - lambda else lambda }
  let m := { m with mesh_lambda_ := mesh_lambda }
  let m := { m with
    orientation_ := fun i => if i.val < m.n_dim_ then db.1.orientation i else m.orientation_ i,
    position_ := fun i =>
      if i.val < m.n_dim_ then
        db.1.position i - ((1/2) * m.bond_length_ - m.bond_lambda_) * db.1.orientation i
      else m.position_ i }
  let m := { m with bound_ := true }
  { m with position_ := L.UpdatePeriodic m.position_ }

/-- Method `Motor::SwitchBonds`: whether the switch took place, and the
motor. -/
def SwitchBonds (L : MotorLib) (m : Motor) (next_bond : Bool) (dr_mag : ℚ) : Bool × Motor :=
  match L.GetNeighborDirectedBond m.bond (if next_bond then 1 else 0) with
  | none => (false, m)
  | some db => (true, m.AttachToBond L db dr_mag m.mesh_lambda_)

/-- Lines 210-214 of `Motor::Walk`: the position of a motor that stayed on
its bond, whose position is `pos0`. -/
def Walk_position (m : Motor) (pos0 : Vec3) : Motor :=
  { m with position_ := fun i =>
      if i.val < m.n_dim_ then
        pos0 i + (m.bond_lambda_ - (1/2) * m.bond_length_) * m.orientation_ i
      else m.position_ i }

/-- Method `Motor::Walk`: the value of its local variable `same_bond` at the
end, and the motor. -/
def Walk_run (L : MotorLib) (m : Motor) : Bool × Motor :=
  let dr_mag := m.velocity_ * m.delta_
  let pos0 := m.bond.position
  let step := m.step_direction_
  if m.bond_lambda_ - dr_mag < 0 ∧ step < 0 then
    let s := m.SwitchBonds L false (dr_mag - m.bond_lambda_)
    if s.1 then
      (false, { s.2 with mesh_lambda_ := s.2.mesh_lambda_ + (s.2.step_direction_ : ℚ) * dr_mag })
    else
      let m := s.2
      let m := { m with mesh_lambda_ := m.mesh_lambda_ - m.bond_lambda_ }
      let m := { m with bond_lambda_ := 0 }
      (true, m.Walk_position pos0)
  else if m.bond_lambda_ + dr_mag > m.bond_length_ ∧ step > 0 then
    let s := m.SwitchBonds L true (dr_mag - (m.bond_length_ - m.bond_lambda_))
    if s.1 then
      (false, { s.2 with mesh_lambda_ := s.2.mesh_lambda_ + (s.2.step_direction_ : ℚ) * dr_mag })
    else
      let m := s.2
      let m := { m with mesh_lambda_ := m.mesh_lambda_ + (m.bond_length_ - m.bond_lambda_) }
      let m := { m with bond_lambda_ := m.bond_length_ }
      (true, m.Walk_position pos0)
  else
    let m := { m with bond_lambda_ := m.bond_lambda_ + (step : ℚ) * dr_mag }
    let m := { m with mesh_lambda_ := m.mesh_lambda_ + (step : ℚ) * dr_mag }
    (true, m.Walk_position pos0)

/-- Method `Motor::Walk`. -/
def Walk (L : MotorLib) (m : Motor) : Motor := (m.Walk_run L).2

end Motor

/-! ## Progress report of the simulation (simulation.cpp) -/

namespace Simulation

/-- What `Simulation::PrintComplete` prints: nothing, the line of whole
percents with the value of `it/steps`, or the line of the fraction with the
values of `it` and `steps`. -/
inductive Printed where
  | nothing
  | percent (q : Int)
  | fraction (it steps : Int)
  deriving DecidableEq

/-- Lines 34-42 of `Simulation::PrintComplete` (the same in both files):
the values of `it` and `steps`. The operator `/` on `int` truncates. -/
def PrintComplete_scale (n_steps i_step : Int) : Int × Int :=
  if n_steps > 10000 then (Int.tdiv i_step 100, Int.tdiv n_steps 10000)
  else (i_step * 100, n_steps)

/-- Method `Simulation::PrintComplete` of src/simulation.cpp, up to the
debug trace. The operator `&&` evaluates its right operand only when the
left one holds, so that only one of the two remainders is computed; a
remainder by zero has no result. -/
def PrintComplete (n_steps i_step : Int) (print_complete : Bool) : Except String Printed :=
  let it := (PrintComplete_scale n_steps i_step).1
  let steps := (PrintComplete_scale n_steps i_step).2
  if print_complete then
    if steps = 0 then .error "remainder by zero"
    else if Int.tmod it steps = 0 then .ok (Printed.percent (Int.tdiv it steps))
    else .ok Printed.nothing
  else
    if Int.tdiv steps 10 = 0 then .error "remainder by zero"
    else if Int.tmod it (Int.tdiv steps 10) = 0 then .ok (Printed.fraction it steps)
    else .ok Printed.nothing

/-- Method `Simulation::PrintComplete` of simcore_backup/simulation.cpp, up
to the debug trace: it does not read `print_complete`. -/
def PrintComplete_backup (n_steps i_step : Int) : Except String Printed :=
  let it := (PrintComplete_scale n_steps i_step).1
  let steps := (PrintComplete_scale n_steps i_step).2
  if Int.tdiv steps 10 = 0 then .error "remainder by zero"
  else if Int.tmod it (Int.tdiv steps 10) = 0 then .ok (Printed.fraction it steps)
  else .ok Printed.nothing

end Simulation

/-! ## Concrete library and inputs used to evaluate the code -/

/-- Modelled from the spec: `choose_kmc_double` of the KMC helper library
(not among the sources). Section 4.1: a single roll is compared against the
cumulative buckets of the two events in a fixed head order; `-1` when the
roll falls in neither bucket. -/
def choose_kmc_double (p0 p1 roll : ℚ) : Int :=
  if roll < p0 then 0
  else if roll < p0 + p1 then 1
  else -1

/-- Rational stand-in for `exp`, used only to evaluate the code at concrete
inputs: the series of `exp` cut after the cubic term. It is exact at 0. -/
def expQ (x : ℚ) : ℚ := 1 + x + x ^ 2 / 2 + x ^ 3 / 6

/-- Integer square root: the largest `k ≤ n` with `k * k ≤ n`. -/
def natSqrt (n : Nat) : Nat := Nat.findGreatest (fun k => k * k ≤ n) n

/-- Rational stand-in for `sqrt`, used only to evaluate the code at concrete
inputs: exact on the squares of rationals. -/
def sqrtQ (q : ℚ) : ℚ := (natSqrt q.num.toNat : ℚ) / (natSqrt q.den : ℚ)

/-- Stand-in for `MinimumDistance::ObjectObject` between two anchors in a
space without periodic boundaries: the separation of the two positions. -/
def pointObjectObject (a b : Anchor) : Interaction :=
  { dr := fun i => b.position_ i - a.position_ i,
    midpoint := fun i => (a.position_ i + b.position_ i) / 2,
    dr_mag2 := SQR (b.position_ 0 - a.position_ 0) + SQR (b.position_ 1 - a.position_ 1)
      + SQR (b.position_ 2 - a.position_ 2) }

/-- Library used to evaluate the code at concrete inputs. The binding
routines of the KMC library report probability `p` and select neighbour
`i` at lambda `lam`. -/
def refLib (p : ℚ) (i : Int) (lam : ℚ) : KmcLib :=
  { exp := expQ
    sqrt := sqrtQ
    choose_kmc_double := choose_kmc_double
    CalcTotProbsSD := fun _ => p
    whichRodBindSD := fun _ _ => (i, lam)
    ObjectObject := pointObjectObject }

/-- Anchor bound to object 7 at the origin, no neighbours. -/
def anchorA : Anchor :=
  { bound_ := true, attached := some 7, lambda_ := 1,
    position_ := ![0, 0, 0], force_ := ![0, 0, 0], neighbors_ := [] }

/-- Anchor bound to object 9 at distance 1 from the origin. -/
def anchorB : Anchor :=
  { bound_ := true, attached := some 9, lambda_ := 2,
    position_ := ![1, 0, 0], force_ := ![0, 0, 0], neighbors_ := [] }

/-- Unbound anchor. -/
def anchorFree : Anchor :=
  { bound_ := false, attached := none, lambda_ := 0,
    position_ := ![0, 0, 0], force_ := ![0, 0, 0], neighbors_ := [] }

/-- Doubly bound crosslink between `anchorA` and `anchorB`: spring constant
1, rest length 0, maximal spring force 1/2, off-rate 1, time step 1/100, no
force dependence of the off-rate; every roll of its generator is `roll`. -/
def xlDoubly (roll : ℚ) : Crosslink :=
  { state_ := .doubly, anchors0 := anchorA, anchors1 := anchorB,
    n_dim := 3, delta_ := 1/100, length_ := 1, diameter_ := 1, rest_length_ := 0,
    k_on_ := 1, k_off_ := 1, k_on_d_ := 1, k_off_d_ := 1, k_spring_ := 1,
    f_spring_max_ := 1/2, rcapture_ := 1, fdep_factor_ := 0, tether_force_ := 0,
    force_ := ![0, 0, 0], position_ := ![0, 0, 0], orientation_ := ![1, 0, 0],
    rng_ := { stream := fun _ => roll, pos := 0 } }

/-- Crosslink still marked Doubly whose anchor 0 has come unbound while
anchor 1 is bound to object 9. -/
def xlLostHead0 : Crosslink :=
  { xlDoubly (1/2) with anchors0 := anchorFree }

/-- Rod of the binding-partner species 2, of length 10, centred at the
origin along the first axis. -/
def rodSimple : Simple :=
  { oid := 50, rid := 50, sid := 2, position := ![0, 0, 0], scaled_position := ![0, 0, 0],
    orientation := ![1, 0, 0], length := 10 }

/-- Library used to evaluate the engine at concrete inputs: without periodic
boundaries the separation from the point to the centre of the rod and its
projection on the rod axis; a flat lookup table; samplers that always draw
0. -/
def refXlinkLib : XlinkLib :=
  { sqrt := sqrtQ
    min_distance_point_carrier_line := fun r rod =>
      (fun i => rod.position i - r i,
       (r 0 - rod.position 0) * rod.orientation 0 + (r 1 - rod.position 1) * rod.orientation 1
         + (r 2 - rod.position 2) * rod.orientation 2)
    Lookup := fun _ _ => 0
    Invert := fun _ _ => 0
    poisson := fun _ rng => (0, rng)
    binomial := fun _ _ rng => (0, rng)
    uniform_int := fun _ rng => (0, rng) }

/-- Unbound head with object id `oid`, at the origin. -/
def headFree (oid : Nat) : XlinkHead :=
  { oid := oid, bound := false, attach := (-1, 0), n_exp_0_1 := 0, n_exp_1_2 := 0,
    position := ![0, 0, 0], prev_position := ![0, 0, 0], delta := 1/10,
    rng := { stream := fun _ => 0, pos := 0 } }

/-- Unbound crosslink with heads 0 and 1, total 0 -> 1 probability `nexp`
and time step 1/10; its generator returns `roll` first and 0 afterwards. -/
def xlFree (nexp roll : ℚ) : Xlink :=
  { oid := 100, head0 := headFree 0, head1 := headFree 1, bound_state := .unbound,
    n_exp_0_1 := nexp, n_exp_1_2 := 0, delta := 1/10,
    rng := { stream := fun n => if n = 0 then roll else 0, pos := 0 },
    position := ![0, 0, 0], prev_position := ![0, 0, 0] }

/-- Engine with affinities 1/2 per head, on-rates 1, alpha 1, partner
species 2, every simple the rod `rodSimple`, heads indexed by their object
id, neighbour lists `nl` and crosslinks `xs`; walking velocity 1, all
counters 0, spring constant 2 without barrier weight and equilibrium
length 0. -/
def engine (nl : Nat → List Neighbor) (xs : List Xlink) : XlinkKMC :=
  { eps_eff_0_1_ := fun _ => 1/2, eps_eff_1_2_ := fun _ => 1/2,
    on_rate_0_1_ := fun _ => 1, on_rate_1_2_ := fun _ => 1,
    alpha_ := 1, rcutoff_0_1_ := 1, rcutoff_1_2_ := 1, ndim_ := 3, sid2_ := 2,
    simples_ := fun _ => rodSimple, oid_position_map_ := fun oid => oid,
    neighbors_ := nl, spec1_is_kmc := true, xlinks := xs,
    spec_n_exp_0_1 := 0, spec_n_exp_1_2 := 0, spec_delta := 1/10,
    rng_ := { stream := fun _ => 0, pos := 0 },
    velocity_ := 1, nfree_ := 0, nbound1_ := fun _ => 0, nbound2_ := 0,
    spec_nfree := 0, spec_nbound1 := fun _ => 0, spec_nbound2 := 0,
    barrier_weight_ := 0, k_stretch_ := 2, r_equil_ := 0 }

/-- Neighbour lists in which every head sees the same rod, with weight 1. -/
def nlBoth : Nat → List Neighbor :=
  fun _ => [{ idx_ := 5, kmc_ := 1 }]

/-- Neighbour lists without any neighbour. -/
def nlEmpty : Nat → List Neighbor :=
  fun _ => []

/-- Generator all of whose draws are `u`, with `p` draws consumed. -/
def constRng (u : ℚ) (p : Nat) : Rng :=
  { stream := fun _ => u, pos := p }

/-- Singly bound crosslink: anchor 0 is `anchorA` with the one neighbour
object 11 of length 10, anchor 1 is unbound; off-rate 1 and time step 1/100;
every roll of its generator is `roll`. -/
def xlSingly (roll : ℚ) : Crosslink :=
  { xlDoubly roll with
      state_ := .singly,
      anchors0 := { anchorA with neighbors_ := [{ oid := 11, length_ := 10 }] },
      anchors1 := anchorFree }

/-- Unbound crosslink with both anchors unbound. -/
def xlUnbound : Crosslink :=
  { xlDoubly (1/2) with state_ := .unbound, anchors0 := anchorFree, anchors1 := anchorFree }

/-- Particle of species 3, which is not the binding-partner species. -/
def otherSimple : Simple :=
  { rodSimple with oid := 60, rid := 60, sid := 3 }

/-- The engine `engine nlBoth []` in which every simple is of species 3:
both heads see one neighbour, with weight 1, that is not a binding
partner. -/
def engineOther : XlinkKMC :=
  { engine nlBoth [] with simples_ := fun _ => otherSimple }

/-- Head with object id `oid` bound to simple 5 at coordinate `pos`. -/
def headOn (oid : Nat) (pos : ℚ) : XlinkHead :=
  { headFree oid with bound := true, attach := (5, pos) }

/-- Singly bound crosslink: head 0 is bound to simple 5 at coordinate
`pos`, head 1 is unbound. -/
def xlOne (pos : ℚ) : Xlink :=
  { xlFree 0 0 with head0 := headOn 0 pos, bound_state := .singly }

/-- Doubly bound crosslink: both heads are bound to simple 5, at the
coordinates `pos0` and `pos1`. -/
def xlTwo (pos0 pos1 : ℚ) : Xlink :=
  { xlFree 0 0 with head0 := headOn 0 pos0, head1 := headOn 1 pos1, bound_state := .doubly }

/-- The library `refXlinkLib` with a lookup table that returns its first
argument. -/
def lookupLib : XlinkLib :=
  { refXlinkLib with Lookup := fun x _ => x }

/-- Singly bound crosslink with heads 2 and 3: head 2 is bound to simple 5 at
coordinate 3, head 3 is unbound. -/
def xlOneAt : Xlink :=
  { xlFree 0 0 with
    oid := 101, head0 := headOn 2 3, head1 := headFree 3, bound_state := .singly }

/-- Engine with an unbound crosslink (heads 0 and 1) and a Singly bound one
(heads 2 and 3); every head sees simples 5 and 6 with weight 1; simple 5 is
the rod `rodSimple`, every other simple a rod of the same species with rod
id 51. -/
def engineTwo : XlinkKMC :=
  { (engine (fun _ => [{ idx_ := 5, kmc_ := 1 }, { idx_ := 6, kmc_ := 1 }])
      [xlFree 0 0, xlOneAt]) with
    simples_ := fun i => if i = 5 then rodSimple else { rodSimple with oid := 51, rid := 51 } }

/-- Singly bound crosslink number `k`, with heads `2 * k` and `2 * k + 1`:
head `2 * k` is bound to simple 5 at coordinate 3, head `2 * k + 1` is
unbound; the generators of its heads return 1/2. -/
def xlOneN (k : Nat) : Xlink :=
  { xlFree 0 0 with
    oid := 100 + k,
    head0 := { headOn (2 * k) 3 with rng := constRng (1/2) 0 },
    head1 := { headFree (2 * k + 1) with rng := constRng (1/2) 0 },
    bound_state := .singly }

/-- Engine with the two Singly bound crosslinks `xlOneN 1` and `xlOneN 2`;
every head sees simple 6 with weight 1; simple 5 is the rod `rodSimple`,
every other simple a rod of the same species with rod id 51. -/
def engineSingly : XlinkKMC :=
  { (engine (fun _ => [{ idx_ := 6, kmc_ := 1 }]) [xlOneN 1, xlOneN 2]) with
    simples_ := fun i => if i = 5 then rodSimple else { rodSimple with oid := 51, rid := 51 } }

/-- The library `lookupLib` with a Poisson sampler that draws 1. -/
def oneTrialLib : XlinkLib :=
  { lookupLib with poisson := fun _ rng => (1, rng) }

/-- The engine `engineSingly` with the population counts of its species as
`UpdateKMC` leaves them: two crosslinks Singly bound by head 0, none by
head 1. -/
def engineCounted : XlinkKMC :=
  { engineSingly with spec_nbound1 := fun i => if i = 0 then 2 else 0 }

/-- The library `refXlinkLib` with a binomial sampler in which every trial
succeeds and an integer sampler that draws the last of the `n` values. -/
def detachLib : XlinkLib :=
  { refXlinkLib with
    binomial := fun _ n rng => (n, rng),
    uniform_int := fun n rng => (n - 1, rng) }

/-- Parameters of a crosslink: every rate and length 1, maximal spring force
1/2, no force dependence. -/
def refParams : crosslink_parameters :=
  { tether_diameter := 1, rest_length := 1, k_on := 1, k_off := 1, k_on_d := 1, k_off_d := 1,
    k_spring := 1, f_spring_max := 1/2, r_capture := 1, force_dep_factor := 0 }

/-- Bond of length 10 centred at the origin along the first axis, without
force or torque. -/
def bondA : Bond :=
  { position := ![0, 0, 0], orientation := ![1, 0, 0], length := 10,
    force_ := ![0, 0, 0], torque_ := ![0, 0, 0] }

/-- Library used to evaluate the motor: the bond has no neighbouring bond,
the cross product is the one of three dimensions and no boundary is
periodic. -/
def refMotorLib : MotorLib :=
  { sqrt := sqrtQ
    exp := expQ
    cross_product := fun a b _ =>
      ![a 1 * b 2 - a 2 * b 1, a 2 * b 0 - a 0 * b 2, a 0 * b 1 - a 1 * b 0]
    GetNeighborDirectedBond := fun _ _ => none
    UpdatePeriodic := fun v => v }

/-- Motor bound to `bondA` at arc length `lambda`, anchored at the point
`r_anchor` with spring constant 1 and maximal spring force 1; it walks
towards the head with velocity 1 and time step 1. -/
def motorAt (lambda : ℚ) (r_anchor : Vec3) : Motor :=
  { n_dim_ := 3, delta_ := 1, position_ := ![lambda - 5, 0, 0], orientation_ := ![1, 0, 0],
    bound_ := true, bond := bondA, bond_length_ := 10, bond_lambda_ := lambda,
    mesh_lambda_ := lambda + 20, velocity_ := 1, max_velocity_ := 1, step_direction_ := 1,
    active_ := true, anchored_ := true, f_spring_max_ := 1,
    anchor_ := { position_ := r_anchor, force_ := ![0, 0, 0], torque_ := ![0, 0, 0],
                 k_spring_ := 1 } }

/-- Unbound crosslink of the binding scenario: heads 0 and 1 at the origin,
time step 1/100; its generator returns `roll` first and 0 afterwards. -/
def xlScenario (roll : ℚ) : Xlink :=
  { xlFree 0 roll with
    delta := 1/100,
    head0 := { headFree 0 with delta := 1/100 },
    head1 := { headFree 1 with delta := 1/100 } }

/-- Engine of the binding scenario: on-rates 1, alpha 1, affinity `eps` for
each head; both heads see one candidate, the rod `rodSimple` at distance 0,
with weight 1. -/
def engineScenario (eps : ℚ) : XlinkKMC :=
  { engine nlBoth [] with eps_eff_0_1_ := fun _ => eps }

end Simcore

/-! # Properties -/

namespace Simcore

namespace Crosslink

/-- Result of `DoublyKMC` when head 0 is selected. -/
theorem DoublyKMC_head0 (L : KmcLib) (x : Crosslink) (h : x.DoublyKMC_choice L = 0) :
    x.DoublyKMC L = { x with rng_ := x.rng_.uniform.2, anchors0 := x.anchors1,
                             anchors1 := x.anchors1.Unbind, state_ := .singly } := by
  unfold DoublyKMC
  simp [h, SetSingly]

/-- Result of `DoublyKMC` when head 1 is selected. -/
theorem DoublyKMC_head1 (L : KmcLib) (x : Crosslink) (h : x.DoublyKMC_choice L = 1) :
    x.DoublyKMC L = { x with rng_ := x.rng_.uniform.2,
                             anchors1 := x.anchors1.Unbind, state_ := .singly } := by
  unfold DoublyKMC
  simp [h, SetSingly]

/-- Result of `DoublyKMC` when no head is selected. -/
theorem DoublyKMC_none (L : KmcLib) (x : Crosslink) (h0 : x.DoublyKMC_choice L ≠ 0)
    (h1 : x.DoublyKMC_choice L ≠ 1) :
    x.DoublyKMC L = { x with rng_ := x.rng_.uniform.2 } := by
  unfold DoublyKMC
  simp [h0, h1]

/-- C1. A crosslink that satisfies the state invariant (Doubly: both anchors
bound; Singly: anchor 0 bound and anchor 1 unbound; Unbound: neither bound)
satisfies it again after `CalculateBinding`, whatever the roll and whatever
the KMC helpers return; the only run without a resulting crosslink is the
fatal error of `SinglyKMC` on an invalid neighbour index. -/
theorem CalculateBinding_preserves_Inv (L : KmcLib) (x : Crosslink) (h : x.Inv) :
    match x.CalculateBinding L with
    | .ok y => y.Inv
    | .error _ => x.state_ = .singly := by
  obtain ⟨hd, hs, hu⟩ := h
  unfold CalculateBinding
  cases hx : x.state_ with
  | unbound =>
    have hu3 := hu hx
    simp [IsSingly, IsDoubly, hx, Inv, ClearNeighbors, Anchor.ClearNeighbors, hu3.1, hu3.2]
  | singly =>
    have hs1 := hs hx
    rw [if_pos (by simp [IsSingly, hx])]
    cases hr : x.SinglyKMC L with
    | error e => simp
    | ok y =>
      simp only [Inv, ClearNeighbors, Anchor.ClearNeighbors]
      unfold SinglyKMC at hr
      simp only [Rng.uniform] at hr
      split_ifs at hr
      all_goals first
        | (cases hr; simp [Anchor.Unbind, hs1.1, hs1.2, hx])
        | (split at hr
           · cases hr
           · cases hr; simp [Anchor.AttachObjLambda, hs1.1])
  | doubly =>
    have hd2 := hd hx
    rw [if_neg (by simp [IsSingly, hx]), if_pos (by simp [IsDoubly, hx])]
    by_cases c0 : x.DoublyKMC_choice L = 0
    · rw [DoublyKMC_head0 L x c0]
      simp [Inv, ClearNeighbors, Anchor.ClearNeighbors, Anchor.Unbind, hd2.2]
    · by_cases c1 : x.DoublyKMC_choice L = 1
      · rw [DoublyKMC_head1 L x c1]
        simp [Inv, ClearNeighbors, Anchor.ClearNeighbors, Anchor.Unbind, hd2.1]
      · rw [DoublyKMC_none L x c0 c1]
        simp [Inv, ClearNeighbors, Anchor.ClearNeighbors, hx, hd2.1, hd2.2]

/-- Evaluation of C1 at the doubly bound crosslink `xlDoubly` with roll 1/2. -/
theorem CalculateBinding_preserves_Inv_witness :
    (xlDoubly (1/2)).Inv ∧
    (match (xlDoubly (1/2)).CalculateBinding (refLib 0 0 0) with
     | .ok y => y.Inv
     | .error _ => (xlDoubly (1/2)).state_ = .singly) :=
  ⟨by decide, CalculateBinding_preserves_Inv (refLib 0 0 0) (xlDoubly (1/2)) (by decide)⟩

/-- C2. `DoublyKMC` on a Doubly bound crosslink with both anchors bound
unbinds at most one head: the result is the crosslink itself with only its
generator advanced (still Doubly), or it is Singly with anchor 1 unbound and
anchor 0 the anchor that stayed bound, the former anchor 1 when head 0 was
selected and the former anchor 0 when head 1 was selected; it is never
Unbound. -/
theorem DoublyKMC_unbinds_at_most_one (L : KmcLib) (x : Crosslink)
    (hd : x.state_ = .doubly) (h0 : x.anchors0.bound_ = true)
    (h1 : x.anchors1.bound_ = true) :
    ((x.DoublyKMC L = { x with rng_ := x.rng_.uniform.2 } ∧
        (x.DoublyKMC L).state_ = .doubly) ∨
      ((x.DoublyKMC L).state_ = .singly ∧
        (x.DoublyKMC L).anchors1.bound_ = false ∧
        (x.DoublyKMC L).anchors0.bound_ = true ∧
        ((x.DoublyKMC_choice L = 0 ∧ (x.DoublyKMC L).anchors0 = x.anchors1) ∨
         (x.DoublyKMC_choice L = 1 ∧ (x.DoublyKMC L).anchors0 = x.anchors0)))) ∧
    (x.DoublyKMC L).state_ ≠ .unbound := by
  by_cases c0 : x.DoublyKMC_choice L = 0
  · rw [DoublyKMC_head0 L x c0]
    simp [Anchor.Unbind, h1, c0]
  · by_cases c1 : x.DoublyKMC_choice L = 1
    · rw [DoublyKMC_head1 L x c1]
      simp [Anchor.Unbind, h0, c1]
    · rw [DoublyKMC_none L x c0 c1]
      simp [hd]

/-- Evaluation of C2 at `xlDoubly`, roll 1/1000: head 0 is selected. -/
theorem DoublyKMC_unbinds_at_most_one_witness :
    (xlDoubly (1/1000)).state_ = .doubly ∧
    ((((xlDoubly (1/1000)).DoublyKMC (refLib 0 0 0)
          = { xlDoubly (1/1000) with rng_ := (xlDoubly (1/1000)).rng_.uniform.2 } ∧
        ((xlDoubly (1/1000)).DoublyKMC (refLib 0 0 0)).state_ = .doubly) ∨
      (((xlDoubly (1/1000)).DoublyKMC (refLib 0 0 0)).state_ = .singly ∧
        ((xlDoubly (1/1000)).DoublyKMC (refLib 0 0 0)).anchors1.bound_ = false ∧
        ((xlDoubly (1/1000)).DoublyKMC (refLib 0 0 0)).anchors0.bound_ = true ∧
        (((xlDoubly (1/1000)).DoublyKMC_choice (refLib 0 0 0) = 0 ∧
            ((xlDoubly (1/1000)).DoublyKMC (refLib 0 0 0)).anchors0
              = (xlDoubly (1/1000)).anchors1) ∨
         ((xlDoubly (1/1000)).DoublyKMC_choice (refLib 0 0 0) = 1 ∧
            ((xlDoubly (1/1000)).DoublyKMC (refLib 0 0 0)).anchors0
              = (xlDoubly (1/1000)).anchors0)))) ∧
    ((xlDoubly (1/1000)).DoublyKMC (refLib 0 0 0)).state_ ≠ .unbound) :=
  ⟨rfl, DoublyKMC_unbinds_at_most_one (refLib 0 0 0) (xlDoubly (1/1000)) rfl rfl rfl⟩

/-- C3. `UpdateXlinkState` on the Doubly marked crosslink `xlLostHead0`, in
which only anchor 1 is bound: anchor 1 is copied into anchor 0 but never
unbound, so the final test promotes the crosslink back to Doubly. The result
is Doubly with both anchors bound to object 9, not Singly with anchor 1
unbound. -/
theorem UpdateXlinkState_lost_head0 :
    xlLostHead0.state_ = .doubly ∧
    xlLostHead0.anchors0.bound_ = false ∧
    xlLostHead0.anchors1.bound_ = true ∧
    xlLostHead0.UpdateXlinkState.state_ = .doubly ∧
    xlLostHead0.UpdateXlinkState.anchors0 = anchorB ∧
    xlLostHead0.UpdateXlinkState.anchors1 = anchorB ∧
    xlLostHead0.UpdateXlinkState.anchors1.bound_ = true := by
  refine ⟨rfl, rfl, rfl, rfl, rfl, rfl, rfl⟩

/-- The integer square root of 1. -/
theorem natSqrt_one : natSqrt 1 = 1 := by decide

/-- The stand-in square root is exact at 1. -/
theorem sqrtQ_one : sqrtQ 1 = 1 := by
  simp [sqrtQ, natSqrt_one]

/-- The stand-in exponential is exact at 0. -/
theorem expQ_zero : expQ 0 = 1 := by
  simp [expQ]

/-- Method `CalculateTetherForces` keeps the binding state. -/
theorem CalculateTetherForces_state (L : KmcLib) (x : Crosslink) :
    (x.CalculateTetherForces L).state_ = x.state_ := by
  unfold CalculateTetherForces
  simp only [ZeroForce, IsDoubly]
  split_ifs <;> rfl

/-- State after `DoublyKMC`: Singly when a head is selected, unchanged
otherwise. -/
theorem DoublyKMC_state (L : KmcLib) (x : Crosslink) :
    (x.DoublyKMC L).state_ =
      if x.DoublyKMC_choice L = 0 ∨ x.DoublyKMC_choice L = 1 then .singly else x.state_ := by
  by_cases c0 : x.DoublyKMC_choice L = 0
  · rw [DoublyKMC_head0 L x c0]; simp [c0]
  · by_cases c1 : x.DoublyKMC_choice L = 1
    · rw [DoublyKMC_head1 L x c1]; simp [c1]
    · rw [DoublyKMC_none L x c0 c1]; simp [c0, c1]

/-- What one step does to a Doubly bound crosslink. The step
(`CalculateTetherForces`, then `DoublyKMC`) leaves it no longer Doubly bound
exactly when the KMC choice selects head 0 or head 1, whatever the tether
force; it does not read `f_spring_max_`; with the cumulative-bucket choice
and a non-negative unbind probability the crosslink detaches exactly when
the roll is below the force-dependent unbind probability. -/
theorem step_detaches_iff_selected (L : KmcLib) (x : Crosslink) (hd : x.state_ = .doubly) :
    (((x.CalculateTetherForces L).DoublyKMC L).state_ ≠ .doubly ↔
      ((x.CalculateTetherForces L).DoublyKMC_choice L = 0 ∨
       (x.CalculateTetherForces L).DoublyKMC_choice L = 1)) ∧
    (∀ m : ℚ, ({ x with f_spring_max_ := m }.CalculateTetherForces L).DoublyKMC L =
      { (x.CalculateTetherForces L).DoublyKMC L with f_spring_max_ := m }) ∧
    (L.choose_kmc_double = choose_kmc_double →
      0 ≤ (x.CalculateTetherForces L).unbind_prob L →
      (((x.CalculateTetherForces L).DoublyKMC L).state_ ≠ .doubly ↔
        (x.CalculateTetherForces L).rng_.uniform.1 < (x.CalculateTetherForces L).unbind_prob L)) := by
  have hst : (x.CalculateTetherForces L).state_ = .doubly := by
    rw [CalculateTetherForces_state, hd]
  have key : ((x.CalculateTetherForces L).DoublyKMC L).state_ ≠ .doubly ↔
      ((x.CalculateTetherForces L).DoublyKMC_choice L = 0 ∨
       (x.CalculateTetherForces L).DoublyKMC_choice L = 1) := by
    rw [DoublyKMC_state, hst]
    split_ifs with h
    · simp [h]
    · simp [h]
  refine ⟨key, ?_, ?_⟩
  · intro m
    unfold CalculateTetherForces DoublyKMC DoublyKMC_choice DoublyKMC_probs unbind_prob
    simp only [ZeroForce, IsDoubly, hd, SetSingly]
    split_ifs <;> simp_all
  · intro hc hp
    rw [key]
    unfold DoublyKMC_choice DoublyKMC_probs
    rw [hc]
    generalize (x.CalculateTetherForces L).unbind_prob L = p at hp ⊢
    generalize (x.CalculateTetherForces L).rng_.uniform.1 = r
    show (choose_kmc_double (1 / 2 * p) (1 / 2 * p) r = 0 ∨
      choose_kmc_double (1 / 2 * p) (1 / 2 * p) r = 1) ↔ r < p
    unfold choose_kmc_double
    by_cases h1 : r < 1 / 2 * p
    · rw [if_pos h1]
      exact ⟨fun _ => by linarith, fun _ => Or.inl rfl⟩
    · rw [if_neg h1]
      by_cases h2 : r < 1 / 2 * p + 1 / 2 * p
      · rw [if_pos h2]
        exact ⟨fun _ => by linarith, fun _ => Or.inr rfl⟩
      · rw [if_neg h2]
        constructor
        · intro h
          rcases h with h | h <;> exact absurd h (by decide)
        · intro h
          exact absurd (by linarith : r < 1 / 2 * p + 1 / 2 * p) h2

/-- The separation of the anchors of `xlDoubly` is the unit vector along
the first axis. -/
theorem xlDoubly_dr_mag2 (r : ℚ) :
    (pointObjectObject (xlDoubly r).anchors0 (xlDoubly r).anchors1).dr_mag2 = 1 := by
  simp [pointObjectObject, xlDoubly, anchorA, anchorB, SQR]

/-- Tether length and tether force of `xlDoubly` after
`CalculateTetherForces`. -/
theorem xlDoubly_tether (r : ℚ) :
    ((xlDoubly r).CalculateTetherForces (refLib 0 0 0)).length_ = 1 ∧
    ((xlDoubly r).CalculateTetherForces (refLib 0 0 0)).tether_force_ = 1 ∧
    ((xlDoubly r).CalculateTetherForces (refLib 0 0 0)).rng_ = (xlDoubly r).rng_ := by
  have h := xlDoubly_dr_mag2 r
  unfold CalculateTetherForces
  simp only [ZeroForce, IsDoubly, refLib, Anchor.ZeroForce] at h ⊢
  simp [xlDoubly, pointObjectObject, anchorA, anchorB, SQR, sqrtQ_one]

/-- The probability of `DoublyKMC` for `xlDoubly` after the force
computation is 1/100. -/
theorem xlDoubly_unbind_prob (r : ℚ) :
    ((xlDoubly r).CalculateTetherForces (refLib 0 0 0)).unbind_prob (refLib 0 0 0) = 1 / 100 := by
  unfold unbind_prob CalculateTetherForces
  simp only [ZeroForce, IsDoubly, refLib, Anchor.ZeroForce]
  simp [xlDoubly, pointObjectObject, anchorA, anchorB, SQR, sqrtQ_one, expQ]

/-- With roll 1/2 no head of `xlDoubly` is selected. -/
theorem xlDoubly_choice_half :
    ((xlDoubly (1/2)).CalculateTetherForces (refLib 0 0 0)).DoublyKMC_choice (refLib 0 0 0) = -1 := by
  have hp := xlDoubly_unbind_prob (1/2)
  have hr := (xlDoubly_tether (1/2)).2.2
  unfold DoublyKMC_choice DoublyKMC_probs
  rw [hp, hr]
  simp only [refLib, choose_kmc_double, xlDoubly, Rng.uniform]
  norm_num

/-- Evaluation of `step_detaches_iff_selected` at `xlDoubly` with roll 1/2. -/
theorem step_detaches_iff_selected_witness :
    (xlDoubly (1/2)).state_ = .doubly ∧
    ((((xlDoubly (1/2)).CalculateTetherForces (refLib 0 0 0)).DoublyKMC (refLib 0 0 0)).state_
        ≠ .doubly ↔
      (((xlDoubly (1/2)).CalculateTetherForces (refLib 0 0 0)).DoublyKMC_choice (refLib 0 0 0) = 0 ∨
       ((xlDoubly (1/2)).CalculateTetherForces (refLib 0 0 0)).DoublyKMC_choice (refLib 0 0 0) = 1)) :=
  ⟨rfl, (step_detaches_iff_selected (refLib 0 0 0) (xlDoubly (1/2)) rfl).1⟩

/-- C5 fails as stated: for `xlDoubly` (off-rate 1, time step 1/100, no
force dependence) each head is given probability 1/200, while
`k_off_d * delta * exp(fdep_factor * 0.5 * k_spring * s^2)` is 1/100. -/
theorem head_prob_counterexample :
    ((xlDoubly (1/2)).DoublyKMC_probs (refLib 0 0 0)).1 = 1 / 200 ∧
    ((xlDoubly (1/2)).DoublyKMC_probs (refLib 0 0 0)).2 = 1 / 200 ∧
    (xlDoubly (1/2)).k_off_d_ * (xlDoubly (1/2)).delta_ *
      (refLib 0 0 0).exp ((xlDoubly (1/2)).fdep_factor_ * (1/2) * (xlDoubly (1/2)).k_spring_ *
        (max ((xlDoubly (1/2)).length_ - (xlDoubly (1/2)).rest_length_) 0) ^ 2) = 1 / 100 := by
  refine ⟨?_, ?_, ?_⟩
  · simp [DoublyKMC_probs, unbind_prob, refLib, xlDoubly, SQR, expQ]; norm_num
  · simp [DoublyKMC_probs, unbind_prob, refLib, xlDoubly, SQR, expQ]; norm_num
  · simp [refLib, xlDoubly, expQ]

/-- C5, as the code has it. In `DoublyKMC` each of the two bound heads is
given half of `k_off_d * delta * exp(fdep_factor * 0.5 * k_spring * s^2)`,
with `s = max(length - rest_length, 0)` the tether stretch; the two halves
add up to that probability, and they are the buckets the roll is compared
with. -/
theorem DoublyKMC_head_probs (L : KmcLib) (x : Crosslink) :
    (x.DoublyKMC_probs L).1 =
      (1/2) * (x.k_off_d_ * x.delta_ *
        L.exp (x.fdep_factor_ * (1/2) * x.k_spring_ * (max (x.length_ - x.rest_length_) 0) ^ 2)) ∧
    (x.DoublyKMC_probs L).2 = (x.DoublyKMC_probs L).1 ∧
    (x.DoublyKMC_probs L).1 + (x.DoublyKMC_probs L).2 =
      x.k_off_d_ * x.delta_ *
        L.exp (x.fdep_factor_ * (1/2) * x.k_spring_ * (max (x.length_ - x.rest_length_) 0) ^ 2) ∧
    x.DoublyKMC_choice L =
      L.choose_kmc_double (x.DoublyKMC_probs L).1 (x.DoublyKMC_probs L).2 (x.rng_.stream x.rng_.pos) := by
  have hs : (if x.length_ - x.rest_length_ > 0 then x.length_ - x.rest_length_ else 0)
      = max (x.length_ - x.rest_length_) 0 := by
    split_ifs with h
    · exact (max_eq_left (le_of_lt h)).symm
    · exact (max_eq_right (not_lt.mp h)).symm
  have hp : x.unbind_prob L = x.k_off_d_ * x.delta_ *
      L.exp (x.fdep_factor_ * (1/2) * x.k_spring_ * (max (x.length_ - x.rest_length_) 0) ^ 2) := by
    unfold unbind_prob
    simp only [hs, SQR, pow_two]
  refine ⟨?_, rfl, ?_, rfl⟩
  · simp only [DoublyKMC_probs, hp]
  · simp only [DoublyKMC_probs, hp]
    ring

/-- C6. For a Doubly bound crosslink whose anchors are separated by the
vector `dr` (a vector of the `n_dim` dimensions of the simulation) of
length `len > 0`, `CalculateTetherForces` sets the force on anchor 0 to
`k_spring * max(len - rest_length, 0) * dr / len` and the force on anchor 1
to its negative: the two add up to zero and both vanish when
`len ≤ rest_length`. For a crosslink that is not Doubly bound the crosslink
force and both anchor forces are zero. -/
theorem CalculateTetherForces_forces (L : KmcLib) (x : Crosslink) :
    (x.state_ = .doubly →
      0 < L.sqrt (L.ObjectObject x.anchors0.ZeroForce x.anchors1.ZeroForce).dr_mag2 →
      (∀ i : Fin 3, x.n_dim ≤ i.val →
        (L.ObjectObject x.anchors0.ZeroForce x.anchors1.ZeroForce).dr i = 0) →
      (∀ i : Fin 3, (x.CalculateTetherForces L).anchors0.force_ i =
        x.k_spring_ *
          max (L.sqrt (L.ObjectObject x.anchors0.ZeroForce x.anchors1.ZeroForce).dr_mag2
                - x.rest_length_) 0 *
          (L.ObjectObject x.anchors0.ZeroForce x.anchors1.ZeroForce).dr i /
          L.sqrt (L.ObjectObject x.anchors0.ZeroForce x.anchors1.ZeroForce).dr_mag2) ∧
      (∀ i : Fin 3, (x.CalculateTetherForces L).anchors1.force_ i =
        - (x.CalculateTetherForces L).anchors0.force_ i) ∧
      (∀ i : Fin 3, (x.CalculateTetherForces L).anchors0.force_ i +
        (x.CalculateTetherForces L).anchors1.force_ i = 0) ∧
      (L.sqrt (L.ObjectObject x.anchors0.ZeroForce x.anchors1.ZeroForce).dr_mag2
          ≤ x.rest_length_ →
        ∀ i : Fin 3, (x.CalculateTetherForces L).anchors0.force_ i = 0 ∧
          (x.CalculateTetherForces L).anchors1.force_ i = 0)) ∧
    (x.state_ ≠ .doubly →
      ∀ i : Fin 3, (x.CalculateTetherForces L).force_ i = 0 ∧
        (x.CalculateTetherForces L).anchors0.force_ i = 0 ∧
        (x.CalculateTetherForces L).anchors1.force_ i = 0) := by
  constructor
  · intro hd hlen hdim
    generalize hix : L.ObjectObject x.anchors0.ZeroForce x.anchors1.ZeroForce = ix at hlen hdim ⊢
    generalize hl : L.sqrt ix.dr_mag2 = len at hlen ⊢
    have h0 : ∀ i : Fin 3, (x.CalculateTetherForces L).anchors0.force_ i =
        x.k_spring_ * max (len - x.rest_length_) 0 * ix.dr i / len := by
      intro i
      unfold CalculateTetherForces
      simp only [ZeroForce, IsDoubly, hd, hix, hl]
      by_cases hs : len - x.rest_length_ > 0
      · simp only [decide_True, Bool.not_true, Bool.false_eq_true, if_false, hs, if_true,
          Anchor.AddForce, Anchor.ZeroForce, zero_add, max_eq_left (le_of_lt hs)]
        by_cases hi : i.val < x.n_dim
        · simp only [hi, if_true]
          ring
        · simp only [hi, if_false]
          rw [hdim i (not_lt.mp hi)]
          simp
      · simp only [decide_True, Bool.not_true, Bool.false_eq_true, if_false, hs,
          Anchor.ZeroForce, max_eq_right (not_lt.mp hs)]
        simp
    have h1 : ∀ i : Fin 3, (x.CalculateTetherForces L).anchors1.force_ i =
        - (x.CalculateTetherForces L).anchors0.force_ i := by
      intro i
      unfold CalculateTetherForces
      simp only [ZeroForce, IsDoubly, hd, hix, hl]
      by_cases hs : len - x.rest_length_ > 0
      · simp only [decide_True, Bool.not_true, Bool.false_eq_true, if_false, hs, if_true,
          Anchor.AddForce, Anchor.SubForce, Anchor.ZeroForce, zero_add, zero_sub]
      · simp only [decide_True, Bool.not_true, Bool.false_eq_true, if_false, hs,
          Anchor.ZeroForce, neg_zero]
    refine ⟨h0, h1, ?_, ?_⟩
    · intro i
      rw [h1 i]
      ring
    · intro hle i
      have hz : (x.CalculateTetherForces L).anchors0.force_ i = 0 := by
        rw [h0 i, max_eq_right (by linarith)]
        simp
      exact ⟨hz, by rw [h1 i, hz, neg_zero]⟩
  · intro hnd i
    unfold CalculateTetherForces
    simp [ZeroForce, IsDoubly, hnd, Anchor.ZeroForce]

end Crosslink

namespace XlinkKMC

/-- The accumulation loop of `Update_0_1` computes a sum. -/
theorem foldl_affinity (c : ℚ) (l : List Neighbor) (a : ℚ) :
    l.foldl (fun nexp nldx => nexp + c * nldx.kmc_) a = a + (l.map (fun n => c * n.kmc_)).sum := by
  induction l generalizing a with
  | nil => simp
  | cons n rest ih =>
    simp only [List.foldl_cons, List.map_cons, List.sum_cons]
    rw [ih]
    ring

/-- C8. `Update_0_1` stores on each head the sum, over that head's
neighbour list, of `(eps_eff_0_1[i] * alpha) * on_rate_0_1[i] * weight *
delta`, and gives the crosslink the sum of the two head values. -/
theorem Update_0_1_total (K : XlinkKMC) (xit : Xlink) :
    (K.Update_0_1 xit).head0.n_exp_0_1 =
      ((K.neighbors_ (K.oid_position_map_ xit.head0.oid)).map
        (fun n => (K.eps_eff_0_1_ 0 * K.alpha_) * K.on_rate_0_1_ 0 * n.kmc_ * xit.delta)).sum ∧
    (K.Update_0_1 xit).head1.n_exp_0_1 =
      ((K.neighbors_ (K.oid_position_map_ xit.head1.oid)).map
        (fun n => (K.eps_eff_0_1_ 1 * K.alpha_) * K.on_rate_0_1_ 1 * n.kmc_ * xit.delta)).sum ∧
    (K.Update_0_1 xit).n_exp_0_1 =
      ((K.neighbors_ (K.oid_position_map_ xit.head0.oid)).map
        (fun n => (K.eps_eff_0_1_ 0 * K.alpha_) * K.on_rate_0_1_ 0 * n.kmc_ * xit.delta)).sum +
      ((K.neighbors_ (K.oid_position_map_ xit.head1.oid)).map
        (fun n => (K.eps_eff_0_1_ 1 * K.alpha_) * K.on_rate_0_1_ 1 * n.kmc_ * xit.delta)).sum := by
  have e : ∀ i : Nat, (fun n : Neighbor =>
      K.eps_eff_0_1_ i * K.on_rate_0_1_ i * K.alpha_ * xit.delta * n.kmc_) =
      (fun n : Neighbor => (K.eps_eff_0_1_ i * K.alpha_) * K.on_rate_0_1_ i * n.kmc_ * xit.delta) := by
    intro i
    funext n
    ring
  simp only [Update_0_1, Update_0_1_head, Xlink.head, foldl_affinity, zero_add, e]
  simp

/-- The retry loop of `KMC_0_1` ends inside the segment, for every number of
iterations. -/
theorem KMC_0_1_crosspos_loop_range (a mu l : ℚ) (hl : 0 ≤ l) (n : Nat) (rng : Rng) :
    0 ≤ (KMC_0_1_crosspos_loop a mu l n rng).1 ∧ (KMC_0_1_crosspos_loop a mu l n rng).1 ≤ l := by
  induction n generalizing rng with
  | zero => exact ⟨le_refl 0, hl⟩
  | succ n ih =>
    unfold KMC_0_1_crosspos_loop
    simp only [Rng.uniform]
    split_ifs with h1 h2 h3 h4
    · exact h1
    · exact ⟨le_refl 0, hl⟩
    · exact ⟨hl, le_refl l⟩
    · exact ⟨not_lt.mp h3, not_lt.mp h4⟩
    · exact ih _

/-- The retry loop of `KMC_1_2` ends inside the segment, for every number of
iterations. -/
theorem KMC_1_2_crosspos_loop_range (E : XlinkLib) (y mu l : ℚ) (hl : 0 ≤ l) (n : Nat)
    (rng : Rng) :
    0 ≤ (KMC_1_2_crosspos_loop E y mu l n rng).1 ∧
      (KMC_1_2_crosspos_loop E y mu l n rng).1 ≤ l := by
  induction n generalizing rng with
  | zero => exact ⟨le_refl 0, hl⟩
  | succ n ih =>
    unfold KMC_1_2_crosspos_loop
    simp only [Rng.uniform]
    split_ifs with h1 h2 h3
    · exact h2
    · exact ih _
    · exact h3
    · exact ih _

/-- Head `i` of a crosslink after it was assigned. -/
theorem head_setHead (x : Xlink) (i : Nat) (h : XlinkHead) : (x.setHead i h).head i = h := by
  unfold Xlink.setHead Xlink.head
  split_ifs <;> rfl

/-- The coordinate `KMC_0_1_attach` records on the attaching head. -/
theorem KMC_0_1_attach_coordinate (E : XlinkLib) (K : XlinkKMC) (xit : Xlink) (head_type : Nat)
    (nldx : Neighbor) (rng : Rng) :
    ((KMC_0_1_attach E K xit head_type nldx rng).head head_type).attach =
      ((nldx.idx_ : Int),
       (KMC_0_1_crosspos (KMC_0_1_window E K (xit.head head_type) (K.simples_ nldx.idx_)).1
          (KMC_0_1_window E K (xit.head head_type) (K.simples_ nldx.idx_)).2
          (K.simples_ nldx.idx_).length rng).1) := by
  unfold KMC_0_1_attach
  simp only [Xlink.CheckBoundState, Xlink.setHead, Xlink.head, XlinkHead.Attach,
    XlinkHead.SetBound]
  split_ifs <;> rfl

/-- The coordinate `KMC_1_2_attach` records on the attaching head. -/
theorem KMC_1_2_attach_coordinate (E : XlinkLib) (K : XlinkKMC) (xit : Xlink) (free_i : Nat)
    (nldx : Neighbor) :
    ((KMC_1_2_attach E K xit free_i nldx).head free_i).attach =
      ((nldx.idx_ : Int),
       (KMC_1_2_crosspos E
          (mag2 K.ndim_
            (E.min_distance_point_carrier_line (xit.head free_i).position
              (K.simples_ nldx.idx_)).1)
          (E.min_distance_point_carrier_line (xit.head free_i).position
              (K.simples_ nldx.idx_)).2
          (K.simples_ nldx.idx_).length xit.rng).1) := by
  unfold KMC_1_2_attach
  simp only [Xlink.CheckBoundState, Xlink.setHead, Xlink.head, XlinkHead.Attach,
    XlinkHead.SetBound]
  split_ifs <;> rfl

/-- A neighbour returned by `Anchor.GetNeighbor` is on the neighbour list. -/
theorem GetNeighbor_mem (a : Anchor) (i : Int) (o : Obj) (h : a.GetNeighbor i = .ok o) :
    o ∈ a.neighbors_ := by
  unfold Anchor.GetNeighbor at h
  split_ifs at h
  split at h
  · rename_i o2 hg
    cases h
    exact List.get?_mem hg
  · cases h

/-- When `SinglyKMC` turns a crosslink Doubly bound, anchor 1 was attached
to a neighbour of anchor 0 at the lambda computed by `SinglyKMC_lambda`. -/
theorem SinglyKMC_attach (L : KmcLib) (x y : Crosslink) (h : x.SinglyKMC L = .ok y)
    (hy : y.state_ = .doubly) (hx : x.state_ ≠ .doubly) :
    ∃ (o : Obj) (bl : ℚ), o ∈ x.anchors0.neighbors_ ∧
      y.anchors1.lambda_ = Crosslink.SinglyKMC_lambda bl o.length_ ∧
      y.anchors1.attached = some o.oid ∧ y.anchors1.bound_ = true := by
  unfold Crosslink.SinglyKMC at h
  simp only [Rng.uniform] at h
  split_ifs at h
  all_goals first
    | (cases h; simp at hy; done)
    | (cases h; exact absurd hy hx)
    | (split at h
       · cases h
       · rename_i o hg
         cases h
         exact ⟨o, _, GetNeighbor_mem _ _ _ hg, rfl, rfl, rfl⟩)

/-- C10. For a segment of length `l ≥ 0`, whatever the closest-point
coordinate, the random draws and the values of the table inversion, the
coordinate handed to `Attach` by `KMC_0_1` and by `KMC_1_2` and the lambda
handed to `AttachObjLambda` by `SinglyKMC` lie in `[0, l]`. -/
theorem attachment_coordinate_in_segment (l : ℚ) (hl : 0 ≤ l) :
    (∀ (a mu : ℚ) (rng : Rng),
      0 ≤ (KMC_0_1_crosspos a mu l rng).1 ∧ (KMC_0_1_crosspos a mu l rng).1 ≤ l) ∧
    (∀ (E : XlinkLib) (K : XlinkKMC) (xit : Xlink) (head_type : Nat) (nldx : Neighbor)
        (rng : Rng), (K.simples_ nldx.idx_).length = l →
      ((KMC_0_1_attach E K xit head_type nldx rng).head head_type).attach.1 = nldx.idx_ ∧
      0 ≤ ((KMC_0_1_attach E K xit head_type nldx rng).head head_type).attach.2 ∧
      ((KMC_0_1_attach E K xit head_type nldx rng).head head_type).attach.2 ≤ l) ∧
    (∀ (E : XlinkLib) (y02 mu : ℚ) (rng : Rng),
      0 ≤ (KMC_1_2_crosspos E y02 mu l rng).1 ∧ (KMC_1_2_crosspos E y02 mu l rng).1 ≤ l) ∧
    (∀ (E : XlinkLib) (K : XlinkKMC) (xit : Xlink) (free_i : Nat) (nldx : Neighbor),
      (K.simples_ nldx.idx_).length = l →
      ((KMC_1_2_attach E K xit free_i nldx).head free_i).attach.1 = nldx.idx_ ∧
      0 ≤ ((KMC_1_2_attach E K xit free_i nldx).head free_i).attach.2 ∧
      ((KMC_1_2_attach E K xit free_i nldx).head free_i).attach.2 ≤ l) ∧
    (∀ bind_lambda : ℚ,
      0 ≤ Crosslink.SinglyKMC_lambda bind_lambda l ∧
      Crosslink.SinglyKMC_lambda bind_lambda l ≤ l) ∧
    (∀ (L : KmcLib) (x y : Crosslink), x.SinglyKMC L = .ok y → x.state_ ≠ .doubly →
      y.state_ = .doubly → (∀ o ∈ x.anchors0.neighbors_, o.length_ = l) →
      0 ≤ y.anchors1.lambda_ ∧ y.anchors1.lambda_ ≤ l) := by
  have hclamp : ∀ bind_lambda : ℚ,
      0 ≤ Crosslink.SinglyKMC_lambda bind_lambda l ∧
      Crosslink.SinglyKMC_lambda bind_lambda l ≤ l := by
    intro bind_lambda
    unfold Crosslink.SinglyKMC_lambda
    simp only []
    split_ifs with h1 h2
    · exact ⟨hl, le_refl l⟩
    · exact ⟨le_refl 0, hl⟩
    · exact ⟨not_lt.mp h2, not_lt.mp h1⟩
  refine ⟨?_, ?_, ?_, ?_, hclamp, ?_⟩
  rotate_right
  · intro L x y h hx hy hlen
    obtain ⟨o, bl, ho, h1, _, _⟩ := SinglyKMC_attach L x y h hy hx
    rw [h1, hlen o ho]
    exact hclamp bl
  · intro a mu rng
    exact KMC_0_1_crosspos_loop_range a mu l hl 100 rng
  · intro E K xit head_type nldx rng hlen
    rw [KMC_0_1_attach_coordinate E K xit head_type nldx rng, hlen]
    exact ⟨rfl, KMC_0_1_crosspos_loop_range _ _ l hl 100 rng⟩
  · intro E y02 mu rng
    exact KMC_1_2_crosspos_loop_range E (E.sqrt y02) mu l hl 100 rng
  · intro E K xit free_i nldx hlen
    rw [KMC_1_2_attach_coordinate E K xit free_i nldx, hlen]
    exact ⟨rfl, KMC_1_2_crosspos_loop_range E _ _ l hl 100 _⟩

/-- Evaluation of C10 on a segment of length 10: the lambda `-7` reported
relative to the centre of the rod is bound to the rod end 0. -/
theorem attachment_coordinate_in_segment_witness :
    (0 : ℚ) ≤ 10 ∧
    0 ≤ Crosslink.SinglyKMC_lambda (-7) 10 ∧ Crosslink.SinglyKMC_lambda (-7) 10 ≤ 10 :=
  ⟨by norm_num, (attachment_coordinate_in_segment 10 (by norm_num)).2.2.2.2.1 (-7)⟩

/-- Method `KMC_0_1` leaves a crosslink whose total is below machine epsilon in
magnitude as it is, its stream included. -/
theorem KMC_0_1_xlink_below_epsilon (E : XlinkLib) (K : XlinkKMC) (x : Xlink)
    (h1 : x.n_exp_0_1 < DBL_EPSILON) (h2 : x.n_exp_0_1 > -DBL_EPSILON) :
    KMC_0_1_xlink E K x = x := by
  unfold KMC_0_1_xlink
  split_ifs with c
  · rfl
  · simp only [h1, h2, and_self, if_true]
    simp

/-- Result of `Update_0_1` on a crosslink without neighbours. -/
theorem Update_0_1_noNeighbors (K : XlinkKMC) (x : Xlink) (h : NoNeighbors K x) :
    K.Update_0_1 x = { x with head0 := { x.head0 with n_exp_0_1 := 0 },
                              head1 := { x.head1 with n_exp_0_1 := 0 },
                              n_exp_0_1 := 0 } := by
  obtain ⟨h0, h1⟩ := h
  simp [Update_0_1, Update_0_1_head, Xlink.head, h0, h1]

/-- Machine epsilon is positive. -/
theorem DBL_EPSILON_pos : 0 < DBL_EPSILON := by
  unfold DBL_EPSILON
  positivity

/-- On a population of unbound crosslinks the loop of `PrepKMC` applies
`Update_0_1` to each and leaves the engine as it is. -/
theorem PrepKMC_loop_unbound (E : XlinkLib) (l : List Xlink) (K : XlinkKMC) (a b : ℚ)
    (h : ∀ x ∈ l, x.bound_state = .unbound) :
    (PrepKMC_loop E l K a b).1 = l.map K.Update_0_1 ∧ (PrepKMC_loop E l K a b).2.1 = K := by
  induction l generalizing a b with
  | nil => exact ⟨rfl, rfl⟩
  | cons x rest ih =>
    have hx : x.bound_state = .unbound := h x (List.mem_cons_self _ _)
    have hr : ∀ y ∈ rest, y.bound_state = .unbound := fun y hy => h y (List.mem_cons_of_mem _ hy)
    unfold PrepKMC_loop
    simp only [hx, List.map_cons]
    exact ⟨by rw [(ih _ _ hr).1], (ih _ _ hr).2⟩

/-- One pass over a population of unbound crosslinks without neighbours
applies `Update_0_1` to each crosslink and changes nothing else that the
0 -> 1 kinetics reads. -/
theorem pass_0_1_noNeighbors (E : XlinkLib) (K : XlinkKMC) (hk : K.spec1_is_kmc = true)
    (h : ∀ x ∈ K.xlinks, x.bound_state = .unbound ∧ NoNeighbors K x) :
    (pass_0_1 E K).xlinks = K.xlinks.map K.Update_0_1 ∧
    (pass_0_1 E K).neighbors_ = K.neighbors_ ∧
    (pass_0_1 E K).oid_position_map_ = K.oid_position_map_ ∧
    (pass_0_1 E K).spec1_is_kmc = true := by
  have hl := PrepKMC_loop_unbound E K.xlinks K 0 0 (fun x hx => (h x hx).1)
  unfold pass_0_1 KMC_0_1 PrepKMC
  simp only [hk, Bool.not_true, Bool.false_eq_true, if_false, hl.1, hl.2, and_true]
  rw [List.map_map]
  apply List.map_congr_left
  intro x hx
  have hu := Update_0_1_noNeighbors K x (h x hx).2
  simp only [Function.comp]
  apply KMC_0_1_xlink_below_epsilon
  · rw [hu]; exact DBL_EPSILON_pos
  · rw [hu]; simpa using DBL_EPSILON_pos

/-- Any number of passes over a population of unbound crosslinks without
neighbours keeps the population unbound and without neighbours, and keeps
the footprint of every crosslink. -/
theorem iterate_pass_0_1_noNeighbors (E : XlinkLib) (K : XlinkKMC) (hk : K.spec1_is_kmc = true)
    (h : ∀ x ∈ K.xlinks, x.bound_state = .unbound ∧ NoNeighbors K x) (n : Nat) :
    ((pass_0_1 E)^[n] K).spec1_is_kmc = true ∧
    (∀ x ∈ ((pass_0_1 E)^[n] K).xlinks,
      x.bound_state = .unbound ∧ NoNeighbors ((pass_0_1 E)^[n] K) x) ∧
    ((pass_0_1 E)^[n] K).xlinks.map footprint = K.xlinks.map footprint := by
  induction n with
  | zero => exact ⟨hk, h, rfl⟩
  | succ n ih =>
    obtain ⟨ik, ih1, ih2⟩ := ih
    rw [Function.iterate_succ_apply']
    obtain ⟨p1, p2, p3, p4⟩ := pass_0_1_noNeighbors E _ ik ih1
    refine ⟨p4, ?_, ?_⟩
    · intro x hx
      rw [p1] at hx
      obtain ⟨y, hy, rfl⟩ := List.mem_map.mp hx
      have hu := Update_0_1_noNeighbors _ y (ih1 y hy).2
      unfold NoNeighbors
      rw [p2, p3, hu]
      exact ⟨(ih1 y hy).1, (ih1 y hy).2⟩
    · rw [p1, List.map_map, ← ih2]
      apply List.map_congr_left
      intro y hy
      have hu := Update_0_1_noNeighbors _ y (ih1 y hy).2
      simp only [Function.comp, hu, footprint]

/-- C9. `KMC_0_1` treats a total of magnitude below machine epsilon as zero:
the crosslink is left as it is, no draw is taken from its stream and it
stays unbound. A crosslink whose heads have empty neighbour lists gets
total 0 from `Update_0_1`, so after any number of `PrepKMC`/`KMC_0_1`
passes over a population of unbound crosslinks without neighbours every
crosslink is still unbound with both heads unbound and an untouched stream:
there is no 0 -> 1 transition. -/
theorem KMC_0_1_zero_probability (E : XlinkLib) (K : XlinkKMC) :
    (∀ x : Xlink, x.n_exp_0_1 < DBL_EPSILON → x.n_exp_0_1 > -DBL_EPSILON →
      KMC_0_1_xlink E K x = x ∧ (KMC_0_1_xlink E K x).rng.pos = x.rng.pos ∧
      (x.bound_state = .unbound → (KMC_0_1_xlink E K x).bound_state = .unbound)) ∧
    (∀ x : Xlink, NoNeighbors K x → (K.Update_0_1 x).n_exp_0_1 = 0) ∧
    (K.spec1_is_kmc = true →
      (∀ x ∈ K.xlinks, x.bound_state = .unbound ∧ NoNeighbors K x) →
      ∀ n : Nat,
        ((pass_0_1 E)^[n] K).xlinks.map footprint = K.xlinks.map footprint ∧
        ((pass_0_1 E)^[n] K).xlinks.length = K.xlinks.length ∧
        ∀ y ∈ ((pass_0_1 E)^[n] K).xlinks, y.bound_state = .unbound) := by
  refine ⟨?_, ?_, ?_⟩
  · intro x h1 h2
    have e := KMC_0_1_xlink_below_epsilon E K x h1 h2
    rw [e]
    exact ⟨rfl, rfl, fun hx => hx⟩
  · intro x hx
    rw [Update_0_1_noNeighbors K x hx]
  · intro hk h n
    obtain ⟨_, i1, i2⟩ := iterate_pass_0_1_noNeighbors E K hk h n
    refine ⟨i2, ?_, fun y hy => (i1 y hy).1⟩
    have := congrArg List.length i2
    simpa using this

/-- A neighbour selected by the loop of `KMC_0_1` is on the list and of the
partner species. -/
theorem KMC_0_1_select_mem (K : XlinkKMC) (aff roll : ℚ) (l : List Neighbor) (pos : ℚ)
    (n : Neighbor) (h : KMC_0_1_select K aff roll l pos = some n) :
    n ∈ l ∧ (K.simples_ n.idx_).sid = K.sid2_ := by
  induction l generalizing pos with
  | nil => simp [KMC_0_1_select] at h
  | cons m rest ih =>
    unfold KMC_0_1_select at h
    by_cases c1 : (K.simples_ m.idx_).sid ≠ K.sid2_
    · rw [if_pos c1] at h
      obtain ⟨h1, h2⟩ := ih _ h
      exact ⟨List.mem_cons_of_mem _ h1, h2⟩
    · rw [if_neg c1] at h
      simp only [] at h
      by_cases c2 : pos + aff * m.kmc_ > roll
      · rw [if_pos c2] at h
        cases h
        exact ⟨List.mem_cons_self _ _, not_not.mp c1⟩
      · rw [if_neg c2] at h
        obtain ⟨h1, h2⟩ := ih _ h
        exact ⟨List.mem_cons_of_mem _ h1, h2⟩

/-- The loop of `KMC_0_1` selects a neighbour when the list holds partner
species only and its cumulative sum ends above the roll. -/
theorem KMC_0_1_select_some (K : XlinkKMC) (aff roll : ℚ) (l : List Neighbor) (pos : ℚ)
    (hs : ∀ n ∈ l, (K.simples_ n.idx_).sid = K.sid2_) (h0 : pos ≤ roll)
    (h1 : roll < pos + (l.map (fun n => aff * n.kmc_)).sum) :
    ∃ n, KMC_0_1_select K aff roll l pos = some n := by
  induction l generalizing pos with
  | nil =>
    simp only [List.map_nil, List.sum_nil, add_zero] at h1
    exact absurd h1 (not_lt.mpr h0)
  | cons m rest ih =>
    have hm : (K.simples_ m.idx_).sid = K.sid2_ := hs m (List.mem_cons_self _ _)
    have hr : ∀ n ∈ rest, (K.simples_ n.idx_).sid = K.sid2_ :=
      fun n hn => hs n (List.mem_cons_of_mem _ hn)
    unfold KMC_0_1_select
    rw [if_neg (not_not.mpr hm)]
    simp only []
    by_cases c : pos + aff * m.kmc_ > roll
    · exact ⟨m, by rw [if_pos c]⟩
    · rw [if_neg c]
      apply ih _ hr (not_lt.mp c)
      simp only [List.map_cons, List.sum_cons] at h1
      linarith

/-- Two weighted sums over the same list add up to the sum with the added
weight. -/
theorem sum_affinity_add (a b : ℚ) (l : List Neighbor) :
    (l.map (fun n => a * n.kmc_)).sum + (l.map (fun n => b * n.kmc_)).sum =
      (l.map (fun n => (a + b) * n.kmc_)).sum := by
  induction l with
  | nil => simp
  | cons m rest ih =>
    simp only [List.map_cons, List.sum_cons]
    rw [← ih]
    ring

/-- Result of `KMC_0_1_attach` on a crosslink with both heads unbound. -/
theorem KMC_0_1_attach_spec (E : XlinkLib) (K : XlinkKMC) (x : Xlink) (i : Nat) (hi : i < 2)
    (hb0 : x.head0.bound = false) (hb1 : x.head1.bound = false) (nldx : Neighbor) (rng : Rng) :
    ((KMC_0_1_attach E K x i nldx rng).head i).bound = true ∧
    ((KMC_0_1_attach E K x i nldx rng).head i).attach.1 = nldx.idx_ ∧
    (KMC_0_1_attach E K x i nldx rng).head (1 - i) = x.head (1 - i) ∧
    (KMC_0_1_attach E K x i nldx rng).bound_state = .singly := by
  interval_cases i
  · simp [KMC_0_1_attach, Xlink.CheckBoundState, Xlink.setHead, Xlink.head, XlinkHead.Attach,
      XlinkHead.SetBound, hb1]
  · simp [KMC_0_1_attach, Xlink.CheckBoundState, Xlink.setHead, Xlink.head, XlinkHead.Attach,
      XlinkHead.SetBound, hb0]

/-- Method `KMC_0_1` on an unbound crosslink whose total is at least machine
epsilon: the first roll decides between the binding branch and nothing. -/
theorem KMC_0_1_xlink_unfold (E : XlinkLib) (K : XlinkKMC) (x : Xlink)
    (hu : x.bound_state = .unbound) (hpos : DBL_EPSILON ≤ x.n_exp_0_1) :
    KMC_0_1_xlink E K x =
      if x.rng.stream x.rng.pos < x.n_exp_0_1 then
        KMC_0_1_bind E K x (x.rng.stream x.rng.pos) x.rng.uniform.2
      else { x with rng := x.rng.uniform.2 } := by
  have hne : ¬ (x.n_exp_0_1 < DBL_EPSILON ∧ x.n_exp_0_1 > -DBL_EPSILON) :=
    fun h => absurd h.1 (not_lt.mpr hpos)
  have hp : x.n_exp_0_1 > 0 := lt_of_lt_of_le DBL_EPSILON_pos hpos
  unfold KMC_0_1_xlink
  rw [if_neg (not_not.mpr hu)]
  simp only [if_neg hne, if_pos hp]
  rfl

/-- The binding branch of `KMC_0_1` attaches no head or exactly one. -/
theorem KMC_0_1_bind_cases (E : XlinkLib) (K : XlinkKMC) (x : Xlink) (roll : ℚ) (rng : Rng)
    (hu : x.bound_state = .unbound) (hb0 : x.head0.bound = false)
    (hb1 : x.head1.bound = false) :
    Unattached x (KMC_0_1_bind E K x roll rng) ∨ AttachedOne K x (KMC_0_1_bind E K x roll rng) := by
  unfold KMC_0_1_bind
  simp only []
  have hi : KMC_0_1_head_type K rng.uniform.1 < 2 := by
    unfold KMC_0_1_head_type
    split_ifs <;> decide
  cases hsel : KMC_0_1_select K
      (KMC_0_1_affinity K (x.head (KMC_0_1_head_type K rng.uniform.1))) roll
      (K.neighbors_ (K.oid_position_map_ (x.head (KMC_0_1_head_type K rng.uniform.1)).oid)) 0 with
  | none => exact Or.inl ⟨rfl, rfl, hu⟩
  | some nldx =>
    obtain ⟨m1, m2⟩ := KMC_0_1_select_mem K _ _ _ _ _ hsel
    obtain ⟨a1, a2, a3, a4⟩ := KMC_0_1_attach_spec E K x _ hi hb0 hb1 nldx rng.uniform.2
    exact Or.inr ⟨_, nldx, hi, m1, m2, a1, a2, a3, a4⟩

/-- Total of `Update_0_1` when both heads have the neighbour list `l`: the
cumulative sum the selection loop of `KMC_0_1` reaches at the end of `l`. -/
theorem Update_0_1_same_lists (K : XlinkKMC) (x : Xlink) (l : List Neighbor)
    (h0 : K.neighbors_ (K.oid_position_map_ x.head0.oid) = l)
    (h1 : K.neighbors_ (K.oid_position_map_ x.head1.oid) = l) (head : XlinkHead)
    (hd : head.delta = x.delta) :
    (K.Update_0_1 x).n_exp_0_1 = (l.map (fun n => KMC_0_1_affinity K head * n.kmc_)).sum := by
  simp only [Update_0_1, Update_0_1_head, Xlink.head, foldl_affinity, zero_add, h0, h1,
    if_true, one_ne_zero, if_false]
  rw [sum_affinity_add]
  unfold KMC_0_1_affinity
  rw [hd]
  congr 2
  funext n
  ring

/-- Evaluation of C9 on one unbound crosslink without neighbours whose stored
total is stale (1/4): `PrepKMC` resets it and after 100000 passes the
crosslink is still unbound. -/
theorem KMC_0_1_zero_probability_witness :
    ((pass_0_1 refXlinkLib)^[100000] (engine nlEmpty [xlFree (1/4) (1/100)])).xlinks.map footprint
      = [(bind_state.unbound, false, false, 0)] :=
  (((KMC_0_1_zero_probability refXlinkLib (engine nlEmpty [xlFree (1/4) (1/100)])).2.2 rfl
    (by
      intro x hx
      simp only [engine, List.mem_singleton] at hx
      subst hx
      exact ⟨rfl, rfl, rfl⟩)) 100000).1

end XlinkKMC

namespace Crosslink

/-- Evaluation of C6 at `xlDoubly`: the anchors are at distance 1, the force
on anchor 0 is the unit vector along the first axis and the two anchor
forces add up to zero. -/
theorem CalculateTetherForces_forces_witness :
    (xlDoubly (1/2)).state_ = .doubly ∧
    0 < (refLib 0 0 0).sqrt ((refLib 0 0 0).ObjectObject (xlDoubly (1/2)).anchors0.ZeroForce
      (xlDoubly (1/2)).anchors1.ZeroForce).dr_mag2 ∧
    (∀ i : Fin 3, ((xlDoubly (1/2)).CalculateTetherForces (refLib 0 0 0)).anchors0.force_ i +
      ((xlDoubly (1/2)).CalculateTetherForces (refLib 0 0 0)).anchors1.force_ i = 0) :=
  have hlen : 0 < (refLib 0 0 0).sqrt ((refLib 0 0 0).ObjectObject
      (xlDoubly (1/2)).anchors0.ZeroForce (xlDoubly (1/2)).anchors1.ZeroForce).dr_mag2 := by
    have h := xlDoubly_dr_mag2 (1/2)
    simp only [refLib, Anchor.ZeroForce, pointObjectObject] at h ⊢
    rw [h, sqrtQ_one]
    norm_num
  ⟨rfl, hlen,
   (((CalculateTetherForces_forces (refLib 0 0 0) (xlDoubly (1/2))).1 rfl hlen
      (by intro i hi; exact absurd hi (by simp [xlDoubly]))).2.2.1)⟩

end Crosslink

namespace XlinkKMC

/-- The retry loop of `KMC_0_1` when every sample is the same rejected
coordinate: the result is `-mu + 0.5 * l_rod` bound to the rod ends. -/
theorem KMC_0_1_crosspos_loop_rejected (a mu l u : ℚ)
    (hrej : ¬ ((u - 1/2) * a + mu + (1/2) * l ≥ 0 ∧ (u - 1/2) * a + mu + (1/2) * l ≤ l))
    (n p : Nat) :
    (KMC_0_1_crosspos_loop a mu l (n + 1) (constRng u p)).1 =
      if -mu + (1/2) * l < 0 then 0 else if -mu + (1/2) * l > l then l else -mu + (1/2) * l := by
  induction n generalizing p with
  | zero =>
    unfold KMC_0_1_crosspos_loop
    simp only [Rng.uniform, constRng, if_neg hrej, if_true]
    split_ifs <;> rfl
  | succ n ih =>
    unfold KMC_0_1_crosspos_loop
    simp only [Rng.uniform, constRng, if_neg hrej, Nat.succ_ne_zero, if_false]
    exact ih (p + 1)

/-- The retry loop of `KMC_1_2` when every sample is rejected: the result
is the initial value 0 of `crosspos`. -/
theorem KMC_1_2_crosspos_loop_rejected (E : XlinkLib) (y mu l : ℚ)
    (hrej : ∀ s : ℚ, ∀ v : ℚ, ¬ (s * E.Invert v y + mu + (1/2) * l ≥ 0 ∧
      s * E.Invert v y + mu + (1/2) * l ≤ l))
    (n : Nat) (rng : Rng) :
    (KMC_1_2_crosspos_loop E y mu l n rng).1 = 0 := by
  induction n generalizing rng with
  | zero => rfl
  | succ n ih =>
    unfold KMC_1_2_crosspos_loop
    simp only [Rng.uniform, if_neg (hrej _ _)]
    exact ih _

/-- C11. Failing input: a rod of length 10 with closest-point coordinate
`mu = 20` (respectively `-20`), window `a = 1` and every draw 0. In `KMC_0_1`
each of the 100 samples is 49/2, above the rod end 10, and the coordinate
used is 0; with `mu = -20` each sample is -31/2, below 0, and the coordinate
used is 10. In `KMC_1_2`, with a table inversion that returns 0, each sample
is 25, above 10, and the coordinate used is 0. -/
theorem crosspos_exhausted_wrong_end :
    ((0 : ℚ) - 1/2) * 1 + 20 + (1/2) * 10 = 49 / 2 ∧
    (KMC_0_1_crosspos 1 20 10 (constRng 0 0)).1 = 0 ∧
    ((0 : ℚ) - 1/2) * 1 + (-20) + (1/2) * 10 = -31 / 2 ∧
    (KMC_0_1_crosspos 1 (-20) 10 (constRng 0 0)).1 = 10 ∧
    (-1 : ℚ) * refXlinkLib.Invert 0 (refXlinkLib.sqrt 1) + 20 + (1/2) * 10 = 25 ∧
    (KMC_1_2_crosspos refXlinkLib 1 20 10 (constRng 0 0)).1 = 0 := by
  refine ⟨by norm_num, ?_, by norm_num, ?_, by simp [refXlinkLib]; norm_num, ?_⟩
  · unfold KMC_0_1_crosspos
    rw [KMC_0_1_crosspos_loop_rejected 1 20 10 0 (by norm_num) 99 0]
    norm_num
  · unfold KMC_0_1_crosspos
    rw [KMC_0_1_crosspos_loop_rejected 1 (-20) 10 0 (by norm_num) 99 0]
    norm_num
  · unfold KMC_1_2_crosspos
    apply KMC_1_2_crosspos_loop_rejected
    intro s v
    simp only [refXlinkLib]
    norm_num

end XlinkKMC

namespace Crosslink

/-- The branches of `SinglyKMC`, by the selected head and the candidate
index. -/
theorem SinglyKMC_bind_branch (L : KmcLib) (x : Crosslink) (h : x.SinglyKMC_choice L = 1) :
    x.SinglyKMC L =
      if x.SinglyKMC_index L < 0 then
        .error "kmc_bind.whichRodBindSD in Crosslink::SinglyKMC returned an invalid result!"
      else
        match x.anchors0.GetNeighbor (x.SinglyKMC_index L) with
        | .error e => .error e
        | .ok bind_obj =>
          .ok { x with
            rng_ := x.rng_.uniform.2,
            anchors1 := x.anchors1.AttachObjLambda bind_obj
              (SinglyKMC_lambda
                (L.whichRodBindSD { x with rng_ := x.rng_.uniform.2 } x.rng_.uniform.1).2
                bind_obj.length_),
            state_ := .doubly } := by
  unfold SinglyKMC_choice at h
  simp only [Rng.uniform] at h
  unfold SinglyKMC SinglyKMC_index
  simp only [Rng.uniform, h, one_ne_zero, if_false, if_true]

/-- C14. In `SinglyKMC`, when the bind branch is taken and the candidate
index returned by `whichRodBindSD` is negative or at least the length of the
neighbour list of anchor 0, the run ends in a fatal error: there is no
resulting crosslink, so no anchor is attached. -/
theorem SinglyKMC_invalid_index_fatal (L : KmcLib) (x : Crosslink)
    (hc : x.SinglyKMC_choice L = 1)
    (hi : x.SinglyKMC_index L < 0 ∨
      (x.anchors0.GetNNeighbors : Int) ≤ x.SinglyKMC_index L) :
    ∃ e : String, x.SinglyKMC L = .error e := by
  rw [SinglyKMC_bind_branch L x hc]
  by_cases hneg : x.SinglyKMC_index L < 0
  · rw [if_pos hneg]
    exact ⟨_, rfl⟩
  · rw [if_neg hneg]
    have hge : (x.anchors0.GetNNeighbors : Int) ≤ x.SinglyKMC_index L := by
      rcases hi with h | h
      · exact absurd h hneg
      · exact h
    have hnone : x.anchors0.neighbors_.get? (x.SinglyKMC_index L).toNat = none := by
      apply List.get?_eq_none.mpr
      unfold Anchor.GetNNeighbors at hge
      omega
    have hg : x.anchors0.GetNeighbor (x.SinglyKMC_index L) =
        .error "Invalid index received in neighbor list" := by
      unfold Anchor.GetNeighbor
      rw [if_neg hneg, hnone]
    rw [hg]
    exact ⟨_, rfl⟩

/-- Evaluation of C14 at `xlSingly` (one neighbour) with roll 1/2, binding
probability 1 and candidate index 5. -/
theorem SinglyKMC_invalid_index_fatal_witness :
    (xlSingly (1/2)).SinglyKMC_choice (refLib 1 5 0) = 1 ∧
    ((xlSingly (1/2)).anchors0.GetNNeighbors : Int) ≤ (xlSingly (1/2)).SinglyKMC_index (refLib 1 5 0) ∧
    ∃ e : String, (xlSingly (1/2)).SinglyKMC (refLib 1 5 0) = .error e :=
  have hc : (xlSingly (1/2)).SinglyKMC_choice (refLib 1 5 0) = 1 := by
    simp only [SinglyKMC_choice, refLib, choose_kmc_double, xlSingly, xlDoubly, Rng.uniform,
      Anchor.GetNNeighbors, anchorA]
    norm_num
  have hi : ((xlSingly (1/2)).anchors0.GetNNeighbors : Int) ≤
      (xlSingly (1/2)).SinglyKMC_index (refLib 1 5 0) := by
    simp [SinglyKMC_index, refLib, xlSingly, Anchor.GetNNeighbors, anchorA]
  ⟨hc, hi, SinglyKMC_invalid_index_fatal (refLib 1 5 0) (xlSingly (1/2)) hc (Or.inr hi)⟩

end Crosslink

namespace XlinkKMC

/-- The order array of `StepKMC` is the result of the four swaps with the
four successive draws. -/
theorem StepKMC_order_swaps (E : XlinkLib) (rng : Rng) :
    (StepKMC_order E rng).1 =
      StepKMC_swaps (E.uniform_int 4 rng).1
        (E.uniform_int 4 (E.uniform_int 4 rng).2).1
        (E.uniform_int 4 (E.uniform_int 4 (E.uniform_int 4 rng).2).2).1
        (E.uniform_int 4 (E.uniform_int 4 (E.uniform_int 4 (E.uniform_int 4 rng).2).2).2).1 :=
  rfl

/-- Every choice of four draws from {0,1,2,3} leaves a permutation of the
order array. -/
theorem StepKMC_swaps_perm :
    ∀ j0 j1 j2 j3 : Fin 4, (StepKMC_swaps j0 j1 j2 j3).Perm [0, 1, 2, 3] := by
  decide

/-- C15. Whatever four values in {0,1,2,3} the generator returns, the order
array produced by the swap loop of `StepKMC` is a permutation of
{0,1,2,3}: it has four entries and holds each of 0, 1, 2, 3 exactly once.
The `switch` runs `KMC_0_1` on the entry 0, `KMC_1_0` on 1, `KMC_1_2` on 2
and `KMC_2_1` on 3, so that the methods a step runs, one per entry and in
the order of the array, are a permutation of the four methods: each of them
is run exactly once. -/
theorem StepKMC_order_perm (E : XlinkLib) (hdraw : ∀ r : Rng, (E.uniform_int 4 r).1 < 4)
    (fuel : Nat) (K : XlinkKMC) :
    (StepKMC_order E K.rng_).1.Perm [0, 1, 2, 3] ∧
    (StepKMC_order E K.rng_).1.length = 4 ∧
    (∀ c : Nat, c < 4 → (StepKMC_order E K.rng_).1.count c = 1) ∧
    (∀ K2 : XlinkKMC,
      StepKMC_dispatch E fuel K2 0 = some (KMC_0_1 E K2) ∧
      StepKMC_dispatch E fuel K2 1 = KMC_1_0 E fuel K2 ∧
      StepKMC_dispatch E fuel K2 2 = some (KMC_1_2 E K2) ∧
      StepKMC_dispatch E fuel K2 3 = some (KMC_2_1 K2)) ∧
    ((StepKMC_order E K.rng_).1.map (fun c K2 => StepKMC_dispatch E fuel K2 c)).Perm
      (StepKMC_methods E fuel) ∧
    StepKMC E fuel K =
      ((StepKMC_order E K.rng_).1.map (fun c K2 => StepKMC_dispatch E fuel K2 c)).foldlM
        (fun K2 method => method K2) { K with rng_ := (StepKMC_order E K.rng_).2 } ∧
    (∃ methods : List (XlinkKMC → Option XlinkKMC),
      methods.Perm (StepKMC_methods E fuel) ∧
      StepKMC E fuel K =
        methods.foldlM (fun K2 method => method K2)
          { K with rng_ := (StepKMC_order E K.rng_).2 }) := by
  have hp : (StepKMC_order E K.rng_).1.Perm [0, 1, 2, 3] := by
    rw [StepKMC_order_swaps]
    exact StepKMC_swaps_perm ⟨_, hdraw _⟩ ⟨_, hdraw _⟩ ⟨_, hdraw _⟩ ⟨_, hdraw _⟩
  have hm : ((StepKMC_order E K.rng_).1.map (fun c K2 => StepKMC_dispatch E fuel K2 c)).Perm
      (StepKMC_methods E fuel) :=
    hp.map (fun c K2 => StepKMC_dispatch E fuel K2 c)
  have hrun : StepKMC E fuel K =
      ((StepKMC_order E K.rng_).1.map (fun c K2 => StepKMC_dispatch E fuel K2 c)).foldlM
        (fun K2 method => method K2) { K with rng_ := (StepKMC_order E K.rng_).2 } := by
    rw [List.foldlM_map]
    rfl
  refine ⟨hp, ?_, ?_, fun _ => ⟨rfl, rfl, rfl, rfl⟩, hm, hrun, ⟨_, hm, hrun⟩⟩
  · rw [hp.length_eq]
    rfl
  · intro c hc
    rw [hp.count_eq]
    interval_cases c <;> decide

/-- Evaluation of C15 with the reference library, all of whose integer
draws are 0: the order array is 3, 0, 1, 2, and the step runs `KMC_2_1`,
`KMC_0_1`, `KMC_1_0` and `KMC_1_2` in this order. -/
theorem StepKMC_order_perm_witness :
    (StepKMC_order refXlinkLib (constRng 0 0)).1 = [3, 0, 1, 2] ∧
    (StepKMC_order refXlinkLib (engine nlEmpty []).rng_).1.Perm [0, 1, 2, 3] ∧
    (∀ fuel : Nat, StepKMC refXlinkLib fuel (engine nlEmpty []) =
      (KMC_1_0 refXlinkLib fuel
        (KMC_0_1 refXlinkLib (KMC_2_1 (engine nlEmpty [])))).map (KMC_1_2 refXlinkLib)) :=
  ⟨by decide,
   (StepKMC_order_perm refXlinkLib (fun _ => by simp [refXlinkLib]) 0 (engine nlEmpty [])).1,
   fun fuel => by
     rw [(StepKMC_order_perm refXlinkLib (fun _ => by simp [refXlinkLib]) fuel
       (engine nlEmpty [])).2.2.2.2.2.1]
     have ho : (StepKMC_order refXlinkLib (engine nlEmpty []).rng_).1 = [3, 0, 1, 2] := by
       decide
     have hr : (StepKMC_order refXlinkLib (engine nlEmpty []).rng_).2 =
         (engine nlEmpty []).rng_ := rfl
     rw [ho, hr]
     simp only [List.map_cons, List.map_nil, List.foldlM_cons, List.foldlM_nil]
     show (do
       let a ← StepKMC_dispatch refXlinkLib fuel (engine nlEmpty []) 3
       let b ← StepKMC_dispatch refXlinkLib fuel a 0
       let c ← StepKMC_dispatch refXlinkLib fuel b 1
       let d ← StepKMC_dispatch refXlinkLib fuel c 2
       pure d) = _
     simp only [StepKMC_dispatch, Option.some_bind, Option.bind_eq_bind, Option.pure_def,
       Option.bind_some, Option.map_eq_bind, Function.comp]⟩

end XlinkKMC

namespace Crosslink

end Crosslink

namespace XlinkKMC

/-- The walk of `UpdateStage1` keeps the state, the bound flags and the
number of crosslinks out of play: it only rewrites attachment and
positions. -/
theorem UpdateStage1_counters (K : XlinkKMC) (xit : Xlink) (u : Xlink × XlinkKMC)
    (h : UpdateStage1 K xit = .ok u) :
    u.2.nfree_ = K.nfree_ ∧ u.2.nbound2_ = K.nbound2_ ∧
    ((xit.head0.bound = true ∧ u.2.nbound1_ 0 = K.nbound1_ 0 + 1 ∧
        u.2.nbound1_ 1 = K.nbound1_ 1) ∨
     (xit.head0.bound = false ∧ xit.head1.bound = true ∧ u.2.nbound1_ 0 = K.nbound1_ 0 ∧
        u.2.nbound1_ 1 = K.nbound1_ 1 + 1)) := by
  unfold UpdateStage1 at h
  simp only [] at h
  by_cases h0 : xit.head0.bound = true
  · rw [if_pos h0] at h
    cases h
    exact ⟨rfl, rfl, Or.inl ⟨h0, by simp, by simp⟩⟩
  · rw [if_neg h0] at h
    by_cases h1 : xit.head1.bound = true
    · rw [if_pos h1] at h
      cases h
      exact ⟨rfl, rfl, Or.inr ⟨by simpa using h0, h1, by simp, by simp⟩⟩
    · rw [if_neg h1] at h
      cases h

/-- Counters after the loop of `UpdateKMC`: each crosslink adds one to the
counter of its category. -/
theorem UpdateKMC_loop_counters (l : List Xlink) (K : XlinkKMC) (r : List Xlink × XlinkKMC)
    (h : UpdateKMC_loop l K = .ok r) :
    r.1.length = l.length ∧
    r.2.nfree_ = K.nfree_ + l.countP (fun x => x.bound_state = .unbound) ∧
    r.2.nbound1_ 0 = K.nbound1_ 0 +
      l.countP (fun x => x.bound_state = .singly ∧ x.head0.bound = true) ∧
    r.2.nbound1_ 1 = K.nbound1_ 1 +
      l.countP (fun x => x.bound_state = .singly ∧ x.head0.bound = false ∧
        x.head1.bound = true) ∧
    r.2.nbound2_ = K.nbound2_ + l.countP (fun x => x.bound_state = .doubly) ∧
    (∀ x ∈ l, x.bound_state = .singly → x.head0.bound = true ∨ x.head1.bound = true) := by
  induction l generalizing K r with
  | nil =>
    cases h
    simp
  | cons x rest ih =>
    unfold UpdateKMC_loop at h
    cases hs : x.bound_state with
    | unbound =>
      simp only [hs] at h
      cases hr : UpdateKMC_loop rest { K with nfree_ := K.nfree_ + 1 } with
      | error e => simp [hr] at h
      | ok r2 =>
        simp only [hr] at h
        cases h
        obtain ⟨a1, a2, a3, a4, a5, a6⟩ := ih _ _ hr
        refine ⟨by simp [a1], ?_, ?_, ?_, ?_, ?_⟩
        · simp [a2, hs, List.countP_cons]; omega
        · simp [a3, hs, List.countP_cons]
        · simp [a4, hs, List.countP_cons]
        · simp [a5, hs, List.countP_cons]
        · intro y hy hys
          rcases List.mem_cons.mp hy with rfl | hy
          · rw [hs] at hys; cases hys
          · exact a6 y hy hys
    | singly =>
      simp only [hs] at h
      cases hu : UpdateStage1 K x with
      | error e => simp [hu] at h
      | ok u =>
        simp only [hu] at h
        cases hr : UpdateKMC_loop rest u.2 with
        | error e => simp [hr] at h
        | ok r2 =>
          simp only [hr] at h
          cases h
          obtain ⟨a1, a2, a3, a4, a5, a6⟩ := ih _ _ hr
          obtain ⟨c1, c2, c3⟩ := UpdateStage1_counters K x u hu
          refine ⟨by simp [a1], ?_, ?_, ?_, ?_, ?_⟩
          · simp [a2, c1, hs, List.countP_cons]
          · rcases c3 with ⟨b0, d0, d1⟩ | ⟨b0, b1, d0, d1⟩
            · simp [a3, d0, hs, b0, List.countP_cons]; omega
            · simp [a3, d0, hs, b0, List.countP_cons]
          · rcases c3 with ⟨b0, d0, d1⟩ | ⟨b0, b1, d0, d1⟩
            · simp [a4, d1, hs, b0, List.countP_cons]
            · simp [a4, d1, hs, b0, b1, List.countP_cons]; omega
          · simp [a5, c2, hs, List.countP_cons]
          · intro y hy hys
            rcases List.mem_cons.mp hy with rfl | hy
            · rcases c3 with ⟨b0, _, _⟩ | ⟨_, b1, _, _⟩
              · exact Or.inl b0
              · exact Or.inr b1
            · exact a6 y hy hys
    | doubly =>
      simp only [hs] at h
      cases hr : UpdateKMC_loop rest (UpdateStage2 K x).2 with
      | error e => simp [hr] at h
      | ok r2 =>
        simp only [hr] at h
        cases h
        obtain ⟨a1, a2, a3, a4, a5, a6⟩ := ih _ _ hr
        refine ⟨by simp [a1], ?_, ?_, ?_, ?_, ?_⟩
        · simp [a2, hs, List.countP_cons, UpdateStage2]
        · simp [a3, hs, List.countP_cons, UpdateStage2]
        · simp [a4, hs, List.countP_cons, UpdateStage2]
        · simp [a5, hs, List.countP_cons, UpdateStage2]; omega
        · intro y hy hys
          rcases List.mem_cons.mp hy with rfl | hy
          · rw [hs] at hys; cases hys
          · exact a6 y hy hys

/-- The loop of `UpdateKMC` returns when every Singly bound crosslink has a
bound head. -/
theorem UpdateKMC_loop_returns (l : List Xlink) (K : XlinkKMC)
    (h : ∀ x ∈ l, x.bound_state = .singly → x.head0.bound = true ∨ x.head1.bound = true) :
    ∃ r, UpdateKMC_loop l K = .ok r := by
  induction l generalizing K with
  | nil => exact ⟨_, rfl⟩
  | cons x rest ih =>
    have hrest : ∀ y ∈ rest, y.bound_state = .singly →
        y.head0.bound = true ∨ y.head1.bound = true :=
      fun y hy => h y (List.mem_cons_of_mem _ hy)
    unfold UpdateKMC_loop
    cases hs : x.bound_state with
    | unbound =>
      obtain ⟨r, hr⟩ := ih { K with nfree_ := K.nfree_ + 1 } hrest
      simp only [hr]
      exact ⟨_, rfl⟩
    | singly =>
      have hb := h x (List.mem_cons_self _ _) hs
      have hu : ∃ u, UpdateStage1 K x = .ok u := by
        unfold UpdateStage1
        simp only []
        by_cases h0 : x.head0.bound = true
        · rw [if_pos h0]
          exact ⟨_, rfl⟩
        · rw [if_neg h0]
          have h1 : x.head1.bound = true := by
            rcases hb with hb | hb
            · exact absurd hb h0
            · exact hb
          rw [if_pos h1]
          exact ⟨_, rfl⟩
      obtain ⟨u, hu⟩ := hu
      obtain ⟨r, hr⟩ := ih u.2 hrest
      simp only [hu, hr]
      exact ⟨_, rfl⟩
    | doubly =>
      obtain ⟨r, hr⟩ := ih (UpdateStage2 K x).2 hrest
      simp only [hr]
      exact ⟨_, rfl⟩

/-- The four categories of `UpdateKMC` partition a population in which
every Singly bound crosslink has a bound head. -/
theorem count_categories (l : List Xlink)
    (h : ∀ x ∈ l, x.bound_state = .singly → x.head0.bound = true ∨ x.head1.bound = true) :
    l.countP (fun x => x.bound_state = .unbound) +
      l.countP (fun x => x.bound_state = .singly ∧ x.head0.bound = true) +
      l.countP (fun x => x.bound_state = .singly ∧ x.head0.bound = false ∧
        x.head1.bound = true) +
      l.countP (fun x => x.bound_state = .doubly) = l.length := by
  induction l with
  | nil => rfl
  | cons x rest ih =>
    have hrest := ih (fun y hy => h y (List.mem_cons_of_mem _ hy))
    have hx := h x (List.mem_cons_self _ _)
    simp only [List.countP_cons, List.length_cons]
    cases hs : x.bound_state with
    | unbound => simp at hrest ⊢; omega
    | doubly => simp at hrest ⊢; omega
    | singly =>
      rcases hb : x.head0.bound with _ | _
      · have h1 : x.head1.bound = true := by
          rcases hx hs with h0 | h1
          · rw [hb] at h0; cases h0
          · exact h1
        simp [h1] at hrest ⊢; omega
      · simp at hrest ⊢; omega

/-- C19. Whenever `UpdateKMC` returns, the counts it hands to the species
add up to the number of crosslinks: `nfree` is the number of Unbound
crosslinks, `nbound1[0]` the number of Singly bound crosslinks whose head 0
is bound, `nbound1[1]` the number of Singly bound crosslinks bound by head 1
only, and `nbound2` the number of Doubly bound crosslinks. It returns
whenever every Singly bound crosslink has a bound head. -/
theorem UpdateKMC_counts (K : XlinkKMC) :
    (∀ K2 : XlinkKMC, UpdateKMC K = .ok K2 →
      K2.xlinks.length = K.xlinks.length ∧
      K2.spec_nfree = K.xlinks.countP (fun x => x.bound_state = .unbound) ∧
      K2.spec_nbound1 0 =
        K.xlinks.countP (fun x => x.bound_state = .singly ∧ x.head0.bound = true) ∧
      K2.spec_nbound1 1 =
        K.xlinks.countP (fun x => x.bound_state = .singly ∧ x.head0.bound = false ∧
          x.head1.bound = true) ∧
      K2.spec_nbound2 = K.xlinks.countP (fun x => x.bound_state = .doubly) ∧
      K2.spec_nfree + K2.spec_nbound1 0 + K2.spec_nbound1 1 + K2.spec_nbound2
        = K.xlinks.length) ∧
    ((∀ x ∈ K.xlinks, x.bound_state = .singly →
        x.head0.bound = true ∨ x.head1.bound = true) →
      ∃ K2 : XlinkKMC, UpdateKMC K = .ok K2) := by
  constructor
  · intro K2 h
    unfold UpdateKMC at h
    simp only [] at h
    cases hr : UpdateKMC_loop K.xlinks
        { K with nfree_ := 0, nbound1_ := fun _ => 0, nbound2_ := 0 } with
    | error e => simp [hr] at h
    | ok r =>
      simp only [hr] at h
      cases h
      obtain ⟨a1, a2, a3, a4, a5, a6⟩ := UpdateKMC_loop_counters _ _ _ hr
      simp only [zero_add] at a2 a3 a4 a5
      have hc := count_categories K.xlinks a6
      refine ⟨a1, a2, a3, a4, a5, ?_⟩
      show r.2.nfree_ + r.2.nbound1_ 0 + r.2.nbound1_ 1 + r.2.nbound2_ = K.xlinks.length
      rw [a2, a3, a4, a5]
      exact hc
  · intro h
    obtain ⟨r, hr⟩ := UpdateKMC_loop_returns K.xlinks
      { K with nfree_ := 0, nbound1_ := fun _ => 0, nbound2_ := 0 } h
    unfold UpdateKMC
    simp only [hr]
    exact ⟨_, rfl⟩

/-- The advanced coordinate is bound to the rod: it is the rod end `l` when
the advanced value exceeds `l`, 0 when it is negative, and the advanced value
otherwise; it lies on a rod of length `l ≥ 0`. -/
theorem walk_crosspos_range (c v d l : ℚ) (hl : 0 ≤ l) :
    (c + v * d > l → walk_crosspos c v d l = l) ∧
    (c + v * d < 0 → walk_crosspos c v d l = 0) ∧
    (0 ≤ c + v * d → c + v * d ≤ l → walk_crosspos c v d l = c + v * d) ∧
    0 ≤ walk_crosspos c v d l ∧ walk_crosspos c v d l ≤ l := by
  unfold walk_crosspos
  simp only []
  refine ⟨?_, ?_, ?_, ?_, ?_⟩
  · intro h
    rw [if_pos h]
  · intro h
    rw [if_neg (by linarith), if_pos h]
  · intro h1 h2
    rw [if_neg (by linarith), if_neg (by linarith)]
  · split_ifs with h1 h2
    · exact hl
    · exact le_refl 0
    · exact not_lt.mp h2
  · split_ifs with h1 h2
    · exact le_refl l
    · exact hl
    · exact not_lt.mp h1

/-- Attachment of the attached head after `UpdateStage1`. -/
theorem UpdateStage1_attach (K : XlinkKMC) (xit : Xlink) (u : Xlink × XlinkKMC)
    (h : UpdateStage1 K xit = .ok u) :
    (u.1.head (if xit.head0.bound then 0 else 1)).attach =
      ((xit.head (if xit.head0.bound then 0 else 1)).attach.1,
       walk_crosspos (xit.head (if xit.head0.bound then 0 else 1)).attach.2 K.velocity_
         (xit.head (if xit.head0.bound then 0 else 1)).delta
         (K.simples_ (xit.head (if xit.head0.bound then 0 else 1)).attach.1.toNat).length) := by
  unfold UpdateStage1 at h
  simp only [] at h
  by_cases h0 : xit.head0.bound = true
  · rw [if_pos h0] at h
    cases h
    simp [h0, UpdateStage1_move, Xlink.head, Xlink.setHead, XlinkHead.Attach]
  · rw [if_neg h0] at h
    by_cases h1 : xit.head1.bound = true
    · rw [if_pos h1] at h
      cases h
      simp [h0, UpdateStage1_move, Xlink.head, Xlink.setHead, XlinkHead.Attach]
    · rw [if_neg h1] at h
      cases h

/-- Attachment of both heads after `UpdateStage2`. -/
theorem UpdateStage2_attach (K : XlinkKMC) (xit : Xlink) :
    (UpdateStage2 K xit).1.head0.attach =
      (xit.head0.attach.1,
       walk_crosspos xit.head0.attach.2 K.velocity_ xit.head0.delta
         (K.simples_ xit.head0.attach.1.toNat).length) ∧
    (UpdateStage2 K xit).1.head1.attach =
      (xit.head1.attach.1,
       walk_crosspos xit.head1.attach.2 K.velocity_ xit.head1.delta
         (K.simples_ xit.head1.attach.1.toNat).length) := by
  simp [UpdateStage2, UpdateStage2_head, XlinkHead.Attach]

/-- C20. When every rod has a length `l ≥ 0`, whatever the walking velocity
and the time step, `UpdateStage1` leaves the attachment coordinate of the
bound head and `UpdateStage2` the attachment coordinates of both heads on
the rod they are attached to, in `[0, l]`: the coordinate is the old one
advanced by `velocity * delta`, set to `l` when that exceeds `l` and to 0
when it is negative. -/
theorem walk_stays_on_rod (K : XlinkKMC) (hl : ∀ i : Nat, 0 ≤ (K.simples_ i).length) :
    (∀ c v d l : ℚ, 0 ≤ l →
      (c + v * d > l → walk_crosspos c v d l = l) ∧
      (c + v * d < 0 → walk_crosspos c v d l = 0) ∧
      (0 ≤ c + v * d → c + v * d ≤ l → walk_crosspos c v d l = c + v * d)) ∧
    (∀ (xit : Xlink) (u : Xlink × XlinkKMC), UpdateStage1 K xit = .ok u →
      (u.1.head (if xit.head0.bound then 0 else 1)).attach =
        ((xit.head (if xit.head0.bound then 0 else 1)).attach.1,
         walk_crosspos (xit.head (if xit.head0.bound then 0 else 1)).attach.2 K.velocity_
           (xit.head (if xit.head0.bound then 0 else 1)).delta
           (K.simples_ (xit.head (if xit.head0.bound then 0 else 1)).attach.1.toNat).length) ∧
      0 ≤ (u.1.head (if xit.head0.bound then 0 else 1)).attach.2 ∧
      (u.1.head (if xit.head0.bound then 0 else 1)).attach.2 ≤
        (K.simples_ (u.1.head (if xit.head0.bound then 0 else 1)).attach.1.toNat).length) ∧
    (∀ xit : Xlink,
      (UpdateStage2 K xit).1.head0.attach =
        (xit.head0.attach.1,
         walk_crosspos xit.head0.attach.2 K.velocity_ xit.head0.delta
           (K.simples_ xit.head0.attach.1.toNat).length) ∧
      (UpdateStage2 K xit).1.head1.attach =
        (xit.head1.attach.1,
         walk_crosspos xit.head1.attach.2 K.velocity_ xit.head1.delta
           (K.simples_ xit.head1.attach.1.toNat).length) ∧
      0 ≤ (UpdateStage2 K xit).1.head0.attach.2 ∧
      (UpdateStage2 K xit).1.head0.attach.2 ≤
        (K.simples_ (UpdateStage2 K xit).1.head0.attach.1.toNat).length ∧
      0 ≤ (UpdateStage2 K xit).1.head1.attach.2 ∧
      (UpdateStage2 K xit).1.head1.attach.2 ≤
        (K.simples_ (UpdateStage2 K xit).1.head1.attach.1.toNat).length) := by
  refine ⟨?_, ?_, ?_⟩
  · intro c v d l h
    obtain ⟨a, b, c2, _, _⟩ := walk_crosspos_range c v d l h
    exact ⟨a, b, c2⟩
  · intro xit u h
    have ha := UpdateStage1_attach K xit u h
    rw [ha]
    exact ⟨rfl, (walk_crosspos_range _ _ _ _ (hl _)).2.2.2.1,
      (walk_crosspos_range _ _ _ _ (hl _)).2.2.2.2⟩
  · intro xit
    obtain ⟨a0, a1⟩ := UpdateStage2_attach K xit
    rw [a0, a1]
    exact ⟨rfl, rfl, (walk_crosspos_range _ _ _ _ (hl _)).2.2.2.1,
      (walk_crosspos_range _ _ _ _ (hl _)).2.2.2.2,
      (walk_crosspos_range _ _ _ _ (hl _)).2.2.2.1,
      (walk_crosspos_range _ _ _ _ (hl _)).2.2.2.2⟩

/-- Evaluation of C20 on the engine whose rods have length 10 and whose
walking velocity is 1, time step 1/10: a head at coordinate 10 stays at the
rod end 10. -/
theorem walk_stays_on_rod_witness :
    (∀ i : Nat, 0 ≤ ((engine nlEmpty []).simples_ i).length) ∧
    (UpdateStage2 (engine nlEmpty []) (xlTwo 10 3)).1.head0.attach.2 ≤ 10 ∧
    walk_crosspos 10 1 (1/10) 10 = 10 :=
  have hl : ∀ i : Nat, 0 ≤ ((engine nlEmpty []).simples_ i).length := by
    intro i
    simp [engine, rodSimple]
  ⟨hl,
   ((walk_stays_on_rod (engine nlEmpty []) hl).2.2 (xlTwo 10 3)).2.2.2.1,
   by unfold walk_crosspos; norm_num⟩

/-- Evaluation of C19 on a population of one Unbound, one Singly and one
Doubly bound crosslink: the counts are 1, 1, 0 and 1. -/
theorem UpdateKMC_counts_witness :
    ∃ K2 : XlinkKMC,
      UpdateKMC (engine nlEmpty [xlFree 0 0, xlOne 3, xlTwo 10 3]) = .ok K2 ∧
      K2.spec_nfree = 1 ∧ K2.spec_nbound1 0 = 1 ∧ K2.spec_nbound1 1 = 0 ∧
      K2.spec_nbound2 = 1 := by
  obtain ⟨K2, h⟩ := (UpdateKMC_counts (engine nlEmpty [xlFree 0 0, xlOne 3, xlTwo 10 3])).2
    (by
      intro x hx _
      simp only [engine, List.mem_cons, List.mem_singleton, List.not_mem_nil, or_false] at hx
      rcases hx with rfl | rfl | rfl
      · exact Or.inl (by simp_all [xlFree, headFree])
      · exact Or.inl rfl
      · exact Or.inl rfl)
  obtain ⟨_, a2, a3, a4, a5, _⟩ :=
    (UpdateKMC_counts (engine nlEmpty [xlFree 0 0, xlOne 3, xlTwo 10 3])).1 K2 h
  refine ⟨K2, h, ?_, ?_, ?_, ?_⟩
  · rw [a2]; simp [engine, xlFree, xlOne, xlTwo]
  · rw [a3]; simp [engine, xlFree, xlOne, xlTwo, headOn, headFree]
  · rw [a4]; simp [engine, xlFree, xlOne, xlTwo, headOn, headFree]
  · rw [a5]; simp [engine, xlFree, xlOne, xlTwo]

/-- C13. Failing input: both heads of the unbound crosslink see one
neighbour, with weight 1, whose species 3 is not the binding-partner species
2. `Update_0_1` does not skip it: it contributes 1/20 to each head and the
total is 1/10 instead of 0. The selection loop of `KMC_0_1` does skip it, so
with the roll 1/100 below that total no head is attached. -/
theorem Update_0_1_counts_other_species :
    (engineOther.simples_ 5).sid ≠ engineOther.sid2_ ∧
    engineOther.neighbors_ (engineOther.oid_position_map_ (xlFree 0 (1/100)).head0.oid)
      = [{ idx_ := 5, kmc_ := 1 }] ∧
    engineOther.neighbors_ (engineOther.oid_position_map_ (xlFree 0 (1/100)).head1.oid)
      = [{ idx_ := 5, kmc_ := 1 }] ∧
    (engineOther.Update_0_1 (xlFree 0 (1/100))).head0.n_exp_0_1 = 1 / 20 ∧
    (engineOther.Update_0_1 (xlFree 0 (1/100))).head1.n_exp_0_1 = 1 / 20 ∧
    (engineOther.Update_0_1 (xlFree 0 (1/100))).n_exp_0_1 = 1 / 10 ∧
    KMC_0_1_select engineOther (1/10) (1/100) [{ idx_ := 5, kmc_ := 1 }] 0 = none ∧
    Unattached (engineOther.Update_0_1 (xlFree 0 (1/100)))
      (KMC_0_1_xlink refXlinkLib engineOther (engineOther.Update_0_1 (xlFree 0 (1/100)))) := by
  have hu : (engineOther.Update_0_1 (xlFree 0 (1/100))).n_exp_0_1 = 1 / 10 := by
    simp [Update_0_1, Update_0_1_head, Xlink.head, engineOther, engine, xlFree, headFree, nlBoth]
    norm_num
  have hsel : ∀ aff roll : ℚ,
      KMC_0_1_select engineOther aff roll [{ idx_ := 5, kmc_ := 1 }] 0 = none := by
    intro aff roll
    simp [KMC_0_1_select, engineOther, engine, otherSimple, rodSimple]
  refine ⟨by decide, rfl, rfl, ?_, ?_, hu, hsel _ _, ?_⟩
  · simp [Update_0_1, Update_0_1_head, Xlink.head, engineOther, engine, xlFree, headFree, nlBoth]
    norm_num
  · simp [Update_0_1, Update_0_1_head, Xlink.head, engineOther, engine, xlFree, headFree, nlBoth]
    norm_num
  · have hpos : DBL_EPSILON ≤ (engineOther.Update_0_1 (xlFree 0 (1/100))).n_exp_0_1 := by
      rw [hu]
      unfold DBL_EPSILON
      norm_num
    rw [KMC_0_1_xlink_unfold _ _ _ rfl hpos]
    split_ifs
    · unfold KMC_0_1_bind
      have hl : ∀ oid : Nat, engineOther.neighbors_ (engineOther.oid_position_map_ oid)
          = [{ idx_ := 5, kmc_ := 1 }] := fun _ => rfl
      simp only [hl, hsel]
      exact ⟨rfl, rfl, rfl⟩
    · exact ⟨rfl, rfl, rfl⟩

/-- The loop of `Update_1_2` rewrites the weight of the partner-species
neighbours on other rods and adds up exactly those weights. -/
theorem Update_1_2_loop_total (E : XlinkLib) (K : XlinkKMC) (freehead : XlinkHead)
    (mrod_attached : Simple) (l : List Neighbor) (n_exp : ℚ) :
    (Update_1_2_loop E K freehead mrod_attached l n_exp).2 =
      n_exp + ((l.filter (partner_rod K mrod_attached)).map
        (fun nldx => Update_1_2_weight E K freehead (K.simples_ nldx.idx_))).sum ∧
    (Update_1_2_loop E K freehead mrod_attached l n_exp).1 =
      l.map (fun nldx =>
        if partner_rod K mrod_attached nldx then
          { nldx with kmc_ := Update_1_2_weight E K freehead (K.simples_ nldx.idx_) }
        else nldx) := by
  induction l generalizing n_exp with
  | nil => simp [Update_1_2_loop]
  | cons nldx rest ih =>
    unfold Update_1_2_loop
    by_cases c1 : (K.simples_ nldx.idx_).sid ≠ K.sid2_
    · have hp : partner_rod K mrod_attached nldx = false := by
        simp [partner_rod, c1]
      simp only [if_pos c1, List.filter_cons, hp, List.map_cons, Bool.false_eq_true, if_false]
      exact ⟨(ih n_exp).1, by rw [(ih n_exp).2]⟩
    · rw [if_neg c1]
      by_cases c2 : (K.simples_ nldx.idx_).rid = mrod_attached.rid
      · have hp : partner_rod K mrod_attached nldx = false := by
          simp [partner_rod, c2]
        simp only [if_pos c2, List.filter_cons, hp, List.map_cons, Bool.false_eq_true, if_false]
        exact ⟨(ih n_exp).1, by rw [(ih n_exp).2]⟩
      · have hp : partner_rod K mrod_attached nldx = true := by
          simp [partner_rod, not_not.mp c1, c2]
        simp only [if_neg c2, List.filter_cons, hp, List.map_cons, if_true, List.sum_cons]
        refine ⟨?_, by rw [(ih _).2]⟩
        rw [(ih _).1]
        ring

/-- The neighbour loop of `KMC_1_2` leaves the crosslink as it is or
attaches its free head to a partner-species neighbour on another rod. -/
theorem KMC_1_2_neighbors_cases (E : XlinkLib) (K : XlinkKMC) (ran_loc : ℚ)
    (attc_i free_i : Nat) (l : List Neighbor) (xit : Xlink) (loc : ℚ) :
    (KMC_1_2_neighbors E K ran_loc attc_i free_i l xit loc).1 = xit ∨
    ∃ nldx : Neighbor, nldx ∈ l ∧ (K.simples_ nldx.idx_).sid = K.sid2_ ∧
      (K.simples_ nldx.idx_).rid ≠ (K.simples_ (xit.head attc_i).attach.1.toNat).rid ∧
      (KMC_1_2_neighbors E K ran_loc attc_i free_i l xit loc).1 =
        KMC_1_2_attach E K xit free_i nldx := by
  induction l generalizing loc with
  | nil => exact Or.inl rfl
  | cons nldx rest ih =>
    have lift : ∀ loc2 : ℚ,
        ((KMC_1_2_neighbors E K ran_loc attc_i free_i rest xit loc2).1 = xit ∨
        ∃ m : Neighbor, m ∈ nldx :: rest ∧ (K.simples_ m.idx_).sid = K.sid2_ ∧
          (K.simples_ m.idx_).rid ≠ (K.simples_ (xit.head attc_i).attach.1.toNat).rid ∧
          (KMC_1_2_neighbors E K ran_loc attc_i free_i rest xit loc2).1 =
            KMC_1_2_attach E K xit free_i m) := by
      intro loc2
      rcases ih loc2 with h | ⟨m, hm, h1, h2, h3⟩
      · exact Or.inl h
      · exact Or.inr ⟨m, List.mem_cons_of_mem _ hm, h1, h2, h3⟩
    unfold KMC_1_2_neighbors
    by_cases c1 : (K.simples_ nldx.idx_).sid ≠ K.sid2_
    · rw [if_pos c1]
      exact lift loc
    · rw [if_neg c1]
      simp only []
      by_cases c2 : (K.simples_ nldx.idx_).rid =
          (K.simples_ (xit.head attc_i).attach.1.toNat).rid
      · rw [if_pos c2]
        exact lift loc
      · rw [if_neg c2]
        by_cases c3 : loc + nldx.kmc_ > ran_loc
        · rw [if_pos c3]
          exact Or.inr ⟨nldx, List.mem_cons_self _ _, not_not.mp c1, c2, rfl⟩
        · rw [if_neg c3]
          exact lift _

/-- In one trial of `KMC_1_2` every crosslink undergoes at most one 1 -> 2
event, and none that attaches its free head to the rod of its other head. -/
theorem KMC_1_2_xlinks_steps (E : XlinkLib) (K : XlinkKMC) (ran_loc : ℚ) (l : List Xlink)
    (loc : ℚ) :
    List.Forall₂ (Step_1_2 E K) l (KMC_1_2_xlinks E K ran_loc l loc) := by
  induction l generalizing loc with
  | nil => exact List.Forall₂.nil
  | cons xit rest ih =>
    unfold KMC_1_2_xlinks
    by_cases c1 : xit.bound_state ≠ .singly
    · rw [if_pos c1]
      exact List.Forall₂.cons (Or.inl rfl) (ih _)
    · rw [if_neg c1]
      simp only []
      by_cases c2 : loc + xit.n_exp_1_2 > ran_loc
      · rw [if_pos c2]
        refine List.Forall₂.cons ?_ (ih _)
        rcases KMC_1_2_neighbors_cases E K ran_loc (if xit.head0.bound then 0 else 1)
            (if xit.head0.bound then 1 else 0)
            (K.neighbors_ (K.oid_position_map_ (xit.head (if xit.head0.bound then 1 else 0)).oid))
            xit (loc + xit.n_exp_1_2 - xit.n_exp_1_2) with h | ⟨m, hm, h1, h2, h3⟩
        · exact Or.inl h
        · exact Or.inr ⟨not_not.mp c1, m, hm, h1, h2, h3⟩
      · rw [if_neg c2]
        exact List.Forall₂.cons (Or.inl rfl) (ih _)

/-- A pointwise step followed by a pointwise chain of steps is a pointwise
chain of steps. -/
theorem forall₂_head_chain {α : Type} (R : α → α → Prop) (a b c : List α)
    (h1 : List.Forall₂ R a b) (h2 : List.Forall₂ (Relation.ReflTransGen R) b c) :
    List.Forall₂ (Relation.ReflTransGen R) a c := by
  induction h1 generalizing c with
  | nil =>
    cases h2
    exact List.Forall₂.nil
  | cons hab _ ih =>
    cases h2 with
    | cons hbc htail =>
      exact List.Forall₂.cons (Relation.ReflTransGen.head hab hbc) (ih _ htail)

/-- Every list is related to itself by pointwise chains of steps. -/
theorem forall₂_chain_refl {α : Type} (R : α → α → Prop) (a : List α) :
    List.Forall₂ (Relation.ReflTransGen R) a a := by
  induction a with
  | nil => exact List.Forall₂.nil
  | cons x rest ih => exact List.Forall₂.cons Relation.ReflTransGen.refl ih

/-- The 1 -> 2 events do not depend on the generator of the engine nor on
its list of crosslinks, the only members a trial of `KMC_1_2` changes. -/
theorem Step_1_2_trial (E : XlinkLib) (nexp_1_2 : ℚ) (K : XlinkKMC) :
    Step_1_2 E (KMC_1_2_trial E nexp_1_2 K) = Step_1_2 E K :=
  rfl

/-- In one trial of `KMC_1_2` every crosslink undergoes at most one 1 -> 2
event of the engine. -/
theorem KMC_1_2_trial_steps (E : XlinkLib) (nexp_1_2 : ℚ) (K : XlinkKMC) :
    List.Forall₂ (Step_1_2 E K) K.xlinks (KMC_1_2_trial E nexp_1_2 K).xlinks :=
  KMC_1_2_xlinks_steps E { K with rng_ := K.rng_.uniform.2 } (K.rng_.uniform.1 * nexp_1_2)
    K.xlinks 0

/-- Over the trials of `KMC_1_2` every crosslink undergoes a chain of
1 -> 2 events. -/
theorem KMC_1_2_trials_steps (E : XlinkLib) (nexp_1_2 : ℚ) (n : Nat) (K : XlinkKMC) :
    List.Forall₂ (Relation.ReflTransGen (Step_1_2 E K)) K.xlinks
      (KMC_1_2_trials E nexp_1_2 n K).xlinks := by
  induction n generalizing K with
  | zero => exact forall₂_chain_refl _ _
  | succ n ih =>
    unfold KMC_1_2_trials
    have h2 := ih (KMC_1_2_trial E nexp_1_2 K)
    rw [Step_1_2_trial] at h2
    exact forall₂_head_chain (Step_1_2 E K) _ _ _ (KMC_1_2_trial_steps E nexp_1_2 K) h2

/-- C12. `KMC_1_2` never attaches the free head of a Singly bound crosslink
to a neighbour whose rod id equals that of the rod its other head is
attached to: over one call every crosslink undergoes a chain of 1 -> 2
events, each of which attaches the free head to a partner-species neighbour
on another rod, and in one trial at most one such event. `Update_1_2`, a
total function without error exit, adds to the 1 -> 2 total the weights of
the partner-species neighbours on other rods only, and leaves the weight of
every other neighbour as it was. -/
theorem no_self_attachment (E : XlinkLib) (K : XlinkKMC) :
    List.Forall₂ (Relation.ReflTransGen (Step_1_2 E K)) K.xlinks (KMC_1_2 E K).xlinks ∧
    (∀ (ran_loc : ℚ) (l : List Xlink) (loc : ℚ),
      List.Forall₂ (Step_1_2 E K) l (KMC_1_2_xlinks E K ran_loc l loc)) ∧
    (∀ (ran_loc : ℚ) (attc_i free_i : Nat) (l : List Neighbor) (xit : Xlink) (loc : ℚ),
      (KMC_1_2_neighbors E K ran_loc attc_i free_i l xit loc).1 = xit ∨
      ∃ nldx : Neighbor, nldx ∈ l ∧ (K.simples_ nldx.idx_).sid = K.sid2_ ∧
        (K.simples_ nldx.idx_).rid ≠ (K.simples_ (xit.head attc_i).attach.1.toNat).rid ∧
        (KMC_1_2_neighbors E K ran_loc attc_i free_i l xit loc).1 =
          KMC_1_2_attach E K xit free_i nldx) ∧
    (∀ (freehead : XlinkHead) (mrod_attached : Simple) (l : List Neighbor) (n_exp : ℚ),
      (Update_1_2_loop E K freehead mrod_attached l n_exp).2 =
        n_exp + ((l.filter (partner_rod K mrod_attached)).map
          (fun nldx => Update_1_2_weight E K freehead (K.simples_ nldx.idx_))).sum ∧
      (Update_1_2_loop E K freehead mrod_attached l n_exp).1 =
        l.map (fun nldx =>
          if partner_rod K mrod_attached nldx then
            { nldx with kmc_ := Update_1_2_weight E K freehead (K.simples_ nldx.idx_) }
          else nldx)) ∧
    (∀ xit : Xlink,
      0 < K.eps_eff_1_2_ (free_index xit) * K.on_rate_1_2_ (free_index xit) →
      (Update_1_2 E K xit).1.n_exp_1_2 =
        (((K.neighbors_ (K.oid_position_map_ (xit.head (free_index xit)).oid)).filter
            (partner_rod K (K.simples_ (xit.head (attc_index xit)).attach.1.toNat))).map
          (fun nldx => Update_1_2_weight E K (xit.head (free_index xit))
            (K.simples_ nldx.idx_))).sum) := by
  refine ⟨?_, KMC_1_2_xlinks_steps E K, KMC_1_2_neighbors_cases E K,
    Update_1_2_loop_total E K, ?_⟩
  · unfold KMC_1_2
    exact KMC_1_2_trials_steps E _ _ { K with rng_ := (E.poisson _ K.rng_).2 }
  · intro xit hpos
    unfold Update_1_2
    simp only [free_index, attc_index] at hpos ⊢
    rw [if_pos hpos]
    simp only [(Update_1_2_loop_total E K _ _ _ _).1, zero_add]

/-- Witness of C12: the crosslink `xlOne 3` has head 0 on simple 5, the rod
`rodSimple`, and the one neighbour of its free head is that same rod, which
would weigh 10 with the lookup table of `lookupLib`: `Update_1_2` leaves a
1 -> 2 total of 0, and the neighbour loop of `KMC_1_2` leaves the crosslink
as it was, whatever the roll. -/
theorem no_self_attachment_witness :
    (Update_1_2 lookupLib (engine nlBoth [xlOne 3]) (xlOne 3)).1.n_exp_1_2 = 0 ∧
    Update_1_2_weight lookupLib (engine nlBoth [xlOne 3]) (xlOne 3).head1 rodSimple = 10 ∧
    (∀ ran_loc loc : ℚ,
      (KMC_1_2_neighbors lookupLib (engine nlBoth [xlOne 3]) ran_loc 0 1 (nlBoth 1)
        (xlOne 3) loc).1 = xlOne 3) := by
  refine ⟨?_, ?_, ?_⟩
  · rw [(no_self_attachment lookupLib (engine nlBoth [xlOne 3])).2.2.2.2 (xlOne 3)
      (by norm_num [engine])]
    simp [engine, nlBoth, partner_rod, xlOne, xlFree, headOn, headFree, attc_index,
      free_index, Xlink.head]
  · simp [Update_1_2_weight, lookupLib, refXlinkLib, rodSimple, xlOne, xlFree, headFree,
      engine, mag2]
    norm_num
  · intro ran_loc loc
    rcases (no_self_attachment lookupLib (engine nlBoth [xlOne 3])).2.2.1 ran_loc 0 1
      (nlBoth 1) (xlOne 3) loc with h | ⟨nldx, _, _, hrid, _⟩
    · exact h
    · exact absurd rfl hrid

/-- The weighted sum of the loop of `Update_1_2` depends on the neighbours
of the list only, not on their weights. -/
theorem sum_filter_idx (P : Nat → Bool) (W : Nat → ℚ) (l : List Neighbor) :
    ((l.filter (fun n => P n.idx_)).map (fun n => W n.idx_)).sum =
      (((l.map Neighbor.idx_).filter P).map W).sum := by
  induction l with
  | nil => rfl
  | cons n rest ih =>
    simp only [List.filter_cons, List.map_cons]
    split_ifs
    · simp only [List.map_cons, List.sum_cons, ih]
    · exact ih

/-- The loop of `Update_1_2` keeps the neighbours of the list, in order. -/
theorem Update_1_2_loop_idx (E : XlinkLib) (K : XlinkKMC) (freehead : XlinkHead)
    (mrod_attached : Simple) (l : List Neighbor) (n_exp : ℚ) :
    (Update_1_2_loop E K freehead mrod_attached l n_exp).1.map Neighbor.idx_ =
      l.map Neighbor.idx_ := by
  rw [(Update_1_2_loop_total E K freehead mrod_attached l n_exp).2, List.map_map]
  apply List.map_congr_left
  intro n _
  simp only [Function.comp]
  split_ifs <;> rfl

/-- The weight `Update_1_2` computes depends on the engine through its
dimension only and on the head through its position only. -/
theorem Update_1_2_weight_congr (E : XlinkLib) (K K2 : XlinkKMC) (h h2 : XlinkHead)
    (mrod : Simple) (hn : K2.ndim_ = K.ndim_) (hp : h2.position = h.position) :
    Update_1_2_weight E K2 h2 mrod = Update_1_2_weight E K h mrod := by
  unfold Update_1_2_weight
  rw [hn, hp]

/-- The loop of `Update_1_2` run by two engines that read the same data, on
two lists with the same neighbours: same total, and same list when the lists
are the same. -/
theorem Update_1_2_loop_congr (E : XlinkLib) (K K2 : XlinkKMC) (h h2 : XlinkHead)
    (ma : Simple) (l l2 : List Neighbor) (n_exp : ℚ) (hr : SameRates K K2)
    (hp : h2.position = h.position) (hl : l2.map Neighbor.idx_ = l.map Neighbor.idx_) :
    (Update_1_2_loop E K2 h2 ma l2 n_exp).2 = (Update_1_2_loop E K h ma l n_exp).2 ∧
    (l2 = l → (Update_1_2_loop E K2 h2 ma l2 n_exp).1 = (Update_1_2_loop E K h ma l n_exp).1) := by
  obtain ⟨_, _, _, _, _, hn, hs, hsim, _⟩ := hr
  have hw : ∀ n : Neighbor, Update_1_2_weight E K2 h2 (K2.simples_ n.idx_) =
      Update_1_2_weight E K h (K.simples_ n.idx_) := by
    intro n
    rw [hsim]
    exact Update_1_2_weight_congr E K K2 h h2 _ hn hp
  have hpr : partner_rod K2 ma = partner_rod K ma := by
    funext n
    unfold partner_rod
    rw [hsim, hs]
  constructor
  · rw [(Update_1_2_loop_total E K2 h2 ma l2 n_exp).1, (Update_1_2_loop_total E K h ma l n_exp).1]
    simp only [hpr, hw]
    have e1 := sum_filter_idx
      (fun i => decide ((K.simples_ i).sid = K.sid2_) && decide ((K.simples_ i).rid ≠ ma.rid))
      (fun i => Update_1_2_weight E K h (K.simples_ i)) l2
    have e2 := sum_filter_idx
      (fun i => decide ((K.simples_ i).sid = K.sid2_) && decide ((K.simples_ i).rid ≠ ma.rid))
      (fun i => Update_1_2_weight E K h (K.simples_ i)) l
    have hpd : partner_rod K ma = fun n : Neighbor =>
        (decide ((K.simples_ n.idx_).sid = K.sid2_) &&
          decide ((K.simples_ n.idx_).rid ≠ ma.rid)) := by
      funext n
      rfl
    rw [hpd, e1, e2, hl]
  · intro he
    rw [(Update_1_2_loop_total E K2 h2 ma l2 n_exp).2, (Update_1_2_loop_total E K h ma l n_exp).2]
    simp only [hpr, hw, he]

/-- Running `Update_0_1` again, by an engine with the same rates and the
same neighbour lists of the two heads, changes nothing. -/
theorem Update_0_1_again (K K2 : XlinkKMC) (x : Xlink) (hr : SameRates K K2)
    (h0 : K2.neighbors_ (K.oid_position_map_ x.head0.oid) =
      K.neighbors_ (K.oid_position_map_ x.head0.oid))
    (h1 : K2.neighbors_ (K.oid_position_map_ x.head1.oid) =
      K.neighbors_ (K.oid_position_map_ x.head1.oid)) :
    K2.Update_0_1 (K.Update_0_1 x) = K.Update_0_1 x := by
  obtain ⟨e1, _, e3, _, e5, _, _, _, e9⟩ := hr
  simp only [Update_0_1, Update_0_1_head, Xlink.head, e1, e3, e5, e9, h0, h1, if_pos,
    one_ne_zero, if_false]

/-- A crosslink `Update_1_2` leaves alone: the binding affinity of its free
head is not positive. -/
theorem Update_1_2_neg (E : XlinkLib) (K : XlinkKMC) (x : Xlink)
    (h : ¬ 0 < K.eps_eff_1_2_ (free_index x) * K.on_rate_1_2_ (free_index x)) :
    Update_1_2 E K x = (x, K) := by
  unfold Update_1_2
  simp only [gt_iff_lt]
  unfold free_index at h
  rw [if_neg h]

/-- What `Update_1_2` does when the binding affinity of the free head is
positive. -/
theorem Update_1_2_pos (E : XlinkLib) (K : XlinkKMC) (x : Xlink)
    (h : 0 < K.eps_eff_1_2_ (free_index x) * K.on_rate_1_2_ (free_index x)) :
    Update_1_2 E K x =
      (with_n_exp_1_2 x (Update_1_2_run E K x).2,
       { K with neighbors_ := Function.update K.neighbors_
                  (K.oid_position_map_ (x.head (free_index x)).oid) (Update_1_2_run E K x).1 }) := by
  unfold Update_1_2
  simp only [gt_iff_lt]
  unfold free_index at h
  rw [if_pos h]
  rfl

/-- Storing a total in a Singly bound crosslink changes neither which head
is free, nor the attached head, nor more than the total of the free head;
storing the same total again changes nothing. -/
theorem with_n_exp_1_2_facts (x : Xlink) (total : ℚ) :
    free_index (with_n_exp_1_2 x total) = free_index x ∧
    attc_index (with_n_exp_1_2 x total) = attc_index x ∧
    (with_n_exp_1_2 x total).head (free_index x) =
      { (x.head (free_index x)) with n_exp_1_2 := total } ∧
    (with_n_exp_1_2 x total).head (attc_index x) = x.head (attc_index x) ∧
    with_n_exp_1_2 (with_n_exp_1_2 x total) total = with_n_exp_1_2 x total ∧
    (with_n_exp_1_2 x total).bound_state = x.bound_state := by
  cases hb : x.head0.bound <;>
    simp [with_n_exp_1_2, free_index, attc_index, Xlink.head, Xlink.setHead, hb]

/-- The loop of `Update_1_2` as run for a crosslink in which a total has been
stored. -/
theorem Update_1_2_run_stored (E : XlinkLib) (K : XlinkKMC) (x : Xlink) (total : ℚ) :
    Update_1_2_run E K (with_n_exp_1_2 x total) =
      Update_1_2_loop E K { (x.head (free_index x)) with n_exp_1_2 := total }
        (K.simples_ (x.head (attc_index x)).attach.1.toNat)
        (K.neighbors_ (K.oid_position_map_ (x.head (free_index x)).oid)) 0 := by
  obtain ⟨f1, f2, f3, f4, _, _⟩ := with_n_exp_1_2_facts x total
  unfold Update_1_2_run
  rw [f1, f2, f3, f4]

/-- Running `Update_1_2` again on its own result, by an engine that reads
the same data: the crosslink does not change, and the two engines still
read the same data. -/
theorem Update_1_2_again (E : XlinkLib) (U : Nat → Prop) (K K2 : XlinkKMC) (x : Xlink)
    (hs : SameLists U K K2) :
    (Update_1_2 E K2 (Update_1_2 E K x).1).1 = (Update_1_2 E K x).1 ∧
    SameLists U (Update_1_2 E K x).2 (Update_1_2 E K2 (Update_1_2 E K x).1).2 := by
  obtain ⟨hr, hidx, heq⟩ := hs
  have hr2 := hr
  obtain ⟨e1, e2, e3, e4, e5, e6, e7, e8, e9⟩ := hr2
  by_cases h : 0 < K.eps_eff_1_2_ (free_index x) * K.on_rate_1_2_ (free_index x)
  · obtain ⟨f1, f2, f3, f4, f5, _⟩ :=
      with_n_exp_1_2_facts x (Update_1_2_run E K x).2
    have h2 : 0 < K2.eps_eff_1_2_ (free_index (with_n_exp_1_2 x (Update_1_2_run E K x).2)) *
        K2.on_rate_1_2_ (free_index (with_n_exp_1_2 x (Update_1_2_run E K x).2)) := by
      rw [f1, e2, e4]
      exact h
    rw [Update_1_2_pos E K x h, Update_1_2_pos E K2 _ h2]
    have hrun := Update_1_2_loop_congr E K K2 (x.head (free_index x))
      { (x.head (free_index x)) with n_exp_1_2 := (Update_1_2_run E K x).2 }
      (K.simples_ (x.head (attc_index x)).attach.1.toNat)
      (K.neighbors_ (K.oid_position_map_ (x.head (free_index x)).oid))
      (K2.neighbors_ (K.oid_position_map_ (x.head (free_index x)).oid)) 0 hr rfl (hidx _)
    have hrun2 : Update_1_2_run E K2 (with_n_exp_1_2 x (Update_1_2_run E K x).2) =
        Update_1_2_loop E K2
          { (x.head (free_index x)) with n_exp_1_2 := (Update_1_2_run E K x).2 }
          (K.simples_ (x.head (attc_index x)).attach.1.toNat)
          (K2.neighbors_ (K.oid_position_map_ (x.head (free_index x)).oid)) 0 := by
      rw [Update_1_2_run_stored, e8, e9]
    have hT : (Update_1_2_run E K2 (with_n_exp_1_2 x (Update_1_2_run E K x).2)).2 =
        (Update_1_2_run E K x).2 := by
      rw [hrun2]
      exact hrun.1
    refine ⟨?_, ⟨e1, e2, e3, e4, e5, e6, e7, e8, e9⟩, ?_, ?_⟩
    · show with_n_exp_1_2 _ _ = _
      rw [hT, f5]
    · intro i
      show List.map Neighbor.idx_ (Function.update K2.neighbors_ _ _ i) =
        List.map Neighbor.idx_ (Function.update K.neighbors_ _ _ i)
      rw [f1, f3, e9]
      by_cases hi : i = K.oid_position_map_ (x.head (free_index x)).oid
      · subst hi
        rw [Function.update_same, Function.update_same, hrun2]
        unfold Update_1_2_run
        rw [Update_1_2_loop_idx, Update_1_2_loop_idx]
        exact hidx _
      · rw [Function.update_noteq hi, Function.update_noteq hi]
        exact hidx i
    · intro i hU
      show Function.update K2.neighbors_ _ _ i = Function.update K.neighbors_ _ _ i
      rw [f1, f3, e9]
      by_cases hi : i = K.oid_position_map_ (x.head (free_index x)).oid
      · subst hi
        rw [Function.update_same, Function.update_same, hrun2]
        exact hrun.2 (heq _ hU)
      · rw [Function.update_noteq hi, Function.update_noteq hi]
        exact heq i hU
  · have h2 : ¬ 0 < K2.eps_eff_1_2_ (free_index x) * K2.on_rate_1_2_ (free_index x) := by
      rw [e2, e4]
      exact h
    rw [Update_1_2_neg E K x h, Update_1_2_neg E K2 x h2]
    exact ⟨rfl, hr, hidx, heq⟩

/-- `Update_1_2` changes neither the state of the crosslink nor the index
map of the engine. -/
theorem Update_1_2_keeps (E : XlinkLib) (K : XlinkKMC) (x : Xlink) :
    (Update_1_2 E K x).1.bound_state = x.bound_state ∧
    (Update_1_2 E K x).2.oid_position_map_ = K.oid_position_map_ := by
  by_cases h : 0 < K.eps_eff_1_2_ (free_index x) * K.on_rate_1_2_ (free_index x)
  · rw [Update_1_2_pos E K x h]
    exact ⟨(with_n_exp_1_2_facts x _).2.2.2.2.2, rfl⟩
  · rw [Update_1_2_neg E K x h]
    exact ⟨rfl, rfl⟩

/-- One turn of the loop of `PrepKMC` at an unbound crosslink. -/
theorem PrepKMC_loop_cons_unbound (E : XlinkLib) (x : Xlink) (rest : List Xlink) (K : XlinkKMC)
    (a b : ℚ) (h : x.bound_state = .unbound) :
    PrepKMC_loop E (x :: rest) K a b =
      (K.Update_0_1 x :: (PrepKMC_loop E rest K (a + (K.Update_0_1 x).n_exp_0_1) b).1,
       (PrepKMC_loop E rest K (a + (K.Update_0_1 x).n_exp_0_1) b).2) := by
  rw [PrepKMC_loop]
  simp only [h]

/-- One turn of the loop of `PrepKMC` at a Singly bound crosslink. -/
theorem PrepKMC_loop_cons_singly (E : XlinkLib) (x : Xlink) (rest : List Xlink) (K : XlinkKMC)
    (a b : ℚ) (h : x.bound_state = .singly) :
    PrepKMC_loop E (x :: rest) K a b =
      ((Update_1_2 E K x).1 ::
        (PrepKMC_loop E rest (Update_1_2 E K x).2 a (b + (Update_1_2 E K x).1.n_exp_1_2)).1,
       (PrepKMC_loop E rest (Update_1_2 E K x).2 a (b + (Update_1_2 E K x).1.n_exp_1_2)).2) := by
  rw [PrepKMC_loop]
  simp only [h]

/-- One turn of the loop of `PrepKMC` at a Doubly bound crosslink. -/
theorem PrepKMC_loop_cons_doubly (E : XlinkLib) (x : Xlink) (rest : List Xlink) (K : XlinkKMC)
    (a b : ℚ) (h : x.bound_state = .doubly) :
    PrepKMC_loop E (x :: rest) K a b =
      (x :: (PrepKMC_loop E rest K a b).1, (PrepKMC_loop E rest K a b).2) := by
  rw [PrepKMC_loop]
  simp only [h]

/-- Running the loop of `PrepKMC` again on its own crosslinks, by an engine
that reads the same data and has the same neighbour lists of the heads of
the unbound crosslinks: same crosslinks, same totals, and the two engines
still read the same data. -/
theorem PrepKMC_loop_again (E : XlinkLib) (U : Nat → Prop) :
    ∀ (l : List Xlink) (K K2 : XlinkKMC) (a b : ℚ), SameLists U K K2 →
      (∀ x ∈ l, x.bound_state = .unbound →
        U (K.oid_position_map_ x.head0.oid) ∧ U (K.oid_position_map_ x.head1.oid)) →
      (PrepKMC_loop E (PrepKMC_loop E l K a b).1 K2 a b).1 = (PrepKMC_loop E l K a b).1 ∧
      (PrepKMC_loop E (PrepKMC_loop E l K a b).1 K2 a b).2.2 = (PrepKMC_loop E l K a b).2.2 ∧
      SameLists U (PrepKMC_loop E l K a b).2.1
        (PrepKMC_loop E (PrepKMC_loop E l K a b).1 K2 a b).2.1 := by
  intro l
  induction l with
  | nil =>
    intro K K2 a b hs _
    exact ⟨rfl, rfl, hs⟩
  | cons x rest ih =>
    intro K K2 a b hs hU
    have hrest : ∀ y ∈ rest, y.bound_state = .unbound →
        U (K.oid_position_map_ y.head0.oid) ∧ U (K.oid_position_map_ y.head1.oid) :=
      fun y hy => hU y (List.mem_cons_of_mem _ hy)
    cases hb : x.bound_state with
    | unbound =>
      obtain ⟨u0, u1⟩ := hU x (List.mem_cons_self _ _) hb
      have hagain := Update_0_1_again K K2 x hs.1 (hs.2.2 _ u0) (hs.2.2 _ u1)
      have hb2 : (K.Update_0_1 x).bound_state = .unbound := hb
      obtain ⟨i1, i2, i3⟩ := ih K K2 (a + (K.Update_0_1 x).n_exp_0_1) b hs hrest
      rw [PrepKMC_loop_cons_unbound E x rest K a b hb]
      rw [PrepKMC_loop_cons_unbound E _ _ K2 a b hb2, hagain]
      exact ⟨by rw [i1], i2, i3⟩
    | singly =>
      obtain ⟨k1, k2⟩ := Update_1_2_keeps E K x
      obtain ⟨g1, g2⟩ := Update_1_2_again E U K K2 x hs
      have hb2 : (Update_1_2 E K x).1.bound_state = .singly := k1.trans hb
      have hrest2 : ∀ y ∈ rest, y.bound_state = .unbound →
          U ((Update_1_2 E K x).2.oid_position_map_ y.head0.oid) ∧
          U ((Update_1_2 E K x).2.oid_position_map_ y.head1.oid) := by
        rw [k2]
        exact hrest
      obtain ⟨i1, i2, i3⟩ := ih (Update_1_2 E K x).2 (Update_1_2 E K2 (Update_1_2 E K x).1).2
        a (b + (Update_1_2 E K x).1.n_exp_1_2) g2 hrest2
      rw [PrepKMC_loop_cons_singly E x rest K a b hb]
      rw [PrepKMC_loop_cons_singly E _ _ K2 a b hb2, g1]
      exact ⟨by rw [i1], i2, i3⟩
    | doubly =>
      obtain ⟨i1, i2, i3⟩ := ih K K2 a b hs hrest
      rw [PrepKMC_loop_cons_doubly E x rest K a b hb]
      rw [PrepKMC_loop_cons_doubly E _ _ K2 a b hb]
      exact ⟨by rw [i1], i2, i3⟩

/-- `Update_1_2` keeps the flag of the engine, and keeps the data the engine
reads as long as the list of the free head is not one of those in `U`. -/
theorem Update_1_2_lists (E : XlinkLib) (U : Nat → Prop) (K0 K : XlinkKMC) (x : Xlink)
    (hs : SameLists U K0 K)
    (hf : ¬ U (K0.oid_position_map_ (x.head (free_index x)).oid)) :
    SameLists U K0 (Update_1_2 E K x).2 ∧
    (Update_1_2 E K x).2.spec1_is_kmc = K.spec1_is_kmc := by
  by_cases h : 0 < K.eps_eff_1_2_ (free_index x) * K.on_rate_1_2_ (free_index x)
  · rw [Update_1_2_pos E K x h]
    obtain ⟨hr, hidx, heq⟩ := hs
    have e9 : K.oid_position_map_ = K0.oid_position_map_ := hr.2.2.2.2.2.2.2.2
    refine ⟨⟨hr, ?_, ?_⟩, rfl⟩
    · intro i
      show List.map Neighbor.idx_ (Function.update K.neighbors_ _ _ i) = _
      by_cases hi : i = K.oid_position_map_ (x.head (free_index x)).oid
      · subst hi
        rw [Function.update_same]
        unfold Update_1_2_run
        rw [Update_1_2_loop_idx]
        exact hidx _
      · rw [Function.update_noteq hi]
        exact hidx i
    · intro i hU
      show Function.update K.neighbors_ _ _ i = _
      have hi : i ≠ K.oid_position_map_ (x.head (free_index x)).oid := by
        intro hi
        rw [hi, e9] at hU
        exact hf hU
      rw [Function.update_noteq hi]
      exact heq i hU
  · rw [Update_1_2_neg E K x h]
    exact ⟨hs, rfl⟩

/-- The loop of `PrepKMC` keeps the flag of the engine, and keeps the data
the engine reads as long as no list of the free head of a Singly bound
crosslink is one of those in `U`. -/
theorem PrepKMC_loop_lists (E : XlinkLib) (U : Nat → Prop) (K0 : XlinkKMC) :
    ∀ (l : List Xlink) (K : XlinkKMC) (a b : ℚ), SameLists U K0 K →
      (∀ y ∈ l, y.bound_state = .singly →
        ¬ U (K0.oid_position_map_ (y.head (free_index y)).oid)) →
      SameLists U K0 (PrepKMC_loop E l K a b).2.1 ∧
      (PrepKMC_loop E l K a b).2.1.spec1_is_kmc = K.spec1_is_kmc := by
  intro l
  induction l with
  | nil =>
    intro K a b hs _
    exact ⟨hs, rfl⟩
  | cons x rest ih =>
    intro K a b hs hU
    have hrest : ∀ y ∈ rest, y.bound_state = .singly →
        ¬ U (K0.oid_position_map_ (y.head (free_index y)).oid) :=
      fun y hy => hU y (List.mem_cons_of_mem _ hy)
    cases hb : x.bound_state with
    | unbound =>
      rw [PrepKMC_loop_cons_unbound E x rest K a b hb]
      exact ih K _ _ hs hrest
    | singly =>
      obtain ⟨l1, l2⟩ := Update_1_2_lists E U K0 K x hs (hU x (List.mem_cons_self _ _) hb)
      rw [PrepKMC_loop_cons_singly E x rest K a b hb]
      obtain ⟨i1, i2⟩ := ih (Update_1_2 E K x).2 a (b + (Update_1_2 E K x).1.n_exp_1_2) l1 hrest
      exact ⟨i1, i2.trans l2⟩
    | doubly =>
      rw [PrepKMC_loop_cons_doubly E x rest K a b hb]
      exact ih K _ _ hs hrest

/-- An engine reads the same data as itself. -/
theorem SameLists_refl (U : Nat → Prop) (K : XlinkKMC) : SameLists U K K :=
  ⟨⟨rfl, rfl, rfl, rfl, rfl, rfl, rfl, rfl, rfl⟩, fun _ => rfl, fun _ _ => rfl⟩

/-- `PrepKMC` of an engine whose species takes part in the kinetics. -/
theorem PrepKMC_on (E : XlinkLib) (K : XlinkKMC) (hk : K.spec1_is_kmc = true) :
    PrepKMC E K =
      { (PrepKMC_loop E K.xlinks K 0 0).2.1 with
        xlinks := (PrepKMC_loop E K.xlinks K 0 0).1,
        spec_n_exp_0_1 := (PrepKMC_loop E K.xlinks K 0 0).2.2.1,
        spec_n_exp_1_2 := (PrepKMC_loop E K.xlinks K 0 0).2.2.2 } := by
  unfold PrepKMC
  rw [if_neg (by simp [hk])]

/-- `PrepKMC` of an engine whose species takes no part in the kinetics. -/
theorem PrepKMC_off (E : XlinkLib) (K : XlinkKMC) (hk : K.spec1_is_kmc = false) :
    PrepKMC E K = K := by
  unfold PrepKMC
  rw [if_pos (by simp [hk])]

/-- A second `PrepKMC`, by an engine that holds the crosslinks the first
call left, reads the same data as the engine of the first call did and has
the same neighbour lists of the heads of the unbound crosslinks, leaves the
crosslinks and the totals of the first call. -/
theorem PrepKMC_again (E : XlinkLib) (U : Nat → Prop) (K K2 : XlinkKMC)
    (hk : K.spec1_is_kmc = true) (hk2 : K2.spec1_is_kmc = true)
    (hx : K2.xlinks = (PrepKMC_loop E K.xlinks K 0 0).1) (hs : SameLists U K K2)
    (hU : ∀ x ∈ K.xlinks, x.bound_state = .unbound →
      U (K.oid_position_map_ x.head0.oid) ∧ U (K.oid_position_map_ x.head1.oid)) :
    (PrepKMC E K2).xlinks = (PrepKMC E K).xlinks ∧
    (PrepKMC E K2).spec_n_exp_0_1 = (PrepKMC E K).spec_n_exp_0_1 ∧
    (PrepKMC E K2).spec_n_exp_1_2 = (PrepKMC E K).spec_n_exp_1_2 := by
  obtain ⟨i1, i2, _⟩ := PrepKMC_loop_again E U K.xlinks K K2 0 0 hs hU
  rw [PrepKMC_on E K hk, PrepKMC_on E K2 hk2, hx]
  exact ⟨i1, congrArg Prod.fst i2, congrArg Prod.snd i2⟩

/-- C18: calling `PrepKMC` twice in a row leaves the expected-binding values
of every head and crosslink and the two totals of the species as a single
call leaves them: both when the second call reads the neighbour lists as
the provider supplied them, and when it reads the lists as the first call
left them (`Update_1_2` overrides the weights of the lists of the free
heads), the list of a head of an unbound crosslink never being the list of
the free head of a Singly bound one. -/
theorem PrepKMC_twice (E : XlinkLib) (K : XlinkKMC) :
    all_expectations (PrepKMC E { (PrepKMC E K) with neighbors_ := K.neighbors_ }) =
      all_expectations (PrepKMC E K) ∧
    (ListsApart K →
      all_expectations (PrepKMC E (PrepKMC E K)) = all_expectations (PrepKMC E K) ∧
      (PrepKMC E (PrepKMC E K)).xlinks = (PrepKMC E K).xlinks) := by
  cases hk : K.spec1_is_kmc with
  | false =>
    have hoff := PrepKMC_off E K hk
    rw [hoff]
    refine ⟨?_, fun _ => ⟨?_, ?_⟩⟩
    · rw [PrepKMC_off E _ hk]
    · rw [hoff]
    · rw [hoff]
  | true =>
    have hon := PrepKMC_on E K hk
    have hx : (PrepKMC E K).xlinks = (PrepKMC_loop E K.xlinks K 0 0).1 := by rw [hon]
    constructor
    · obtain ⟨l1, l2⟩ := PrepKMC_loop_lists E (fun _ => False) K K.xlinks K 0 0
        (SameLists_refl _ K) (fun _ _ _ h => h)
      have hk2 : (PrepKMC E K).spec1_is_kmc = true := by
        rw [hon]
        exact l2.trans hk
      have hr : SameRates K (PrepKMC E K) := by
        rw [hon]
        exact l1.1
      obtain ⟨a1, a2, a3⟩ := PrepKMC_again E (fun _ => True) K
        { (PrepKMC E K) with neighbors_ := K.neighbors_ } hk hk2 hx
        ⟨hr, fun _ => rfl, fun _ _ => rfl⟩ (fun _ _ _ => ⟨trivial, trivial⟩)
      unfold all_expectations
      rw [a1, a2, a3]
    · intro hapart
      obtain ⟨l1, l2⟩ := PrepKMC_loop_lists E (UnboundIndex K K.xlinks) K K.xlinks K 0 0
        (SameLists_refl _ K) hapart
      have hk2 : (PrepKMC E K).spec1_is_kmc = true := by
        rw [hon]
        exact l2.trans hk
      have hs : SameLists (UnboundIndex K K.xlinks) K (PrepKMC E K) := by
        rw [hon]
        exact l1
      obtain ⟨a1, a2, a3⟩ := PrepKMC_again E (UnboundIndex K K.xlinks) K (PrepKMC E K)
        hk hk2 hx hs
        (fun x hm hb => ⟨⟨x, hm, hb, Or.inl rfl⟩, ⟨x, hm, hb, Or.inr rfl⟩⟩)
      refine ⟨?_, a1⟩
      unfold all_expectations
      rw [a1, a2, a3]

/-- The neighbour lists of the heads of the unbound crosslink of `engineTwo`
(0 and 1) are not the list of the free head of its Singly bound crosslink
(3). -/
theorem engineTwo_apart : ListsApart engineTwo := by
  intro y hy hs
  have hy2 : y = xlFree 0 0 ∨ y = xlOneAt := by
    simpa [engineTwo, engine] using hy
  rcases hy2 with rfl | rfl
  · exact absurd hs (by decide)
  · rintro ⟨x, hx, hu, hi⟩
    have hx2 : x = xlFree 0 0 ∨ x = xlOneAt := by
      simpa [engineTwo, engine] using hx
    rcases hx2 with rfl | rfl
    · revert hi
      decide
    · exact absurd hu (by decide)

/-- What one call of `PrepKMC` leaves in `engineTwo`: 1/10 for each head of
the unbound crosslink, 10 for the free head of the Singly bound one (the rod
of the attached head is skipped, the other rod weighs 10), and that weight
written over the weight 1 of the provider. -/
theorem engineTwo_PrepKMC :
    all_expectations (PrepKMC lookupLib engineTwo) =
      ([(1/5, 0, 1/10, 0, 1/10, 0), (0, 10, 0, 0, 0, 10)], 1/5, 10) ∧
    (PrepKMC lookupLib engineTwo).neighbors_ 3 =
      [{ idx_ := 5, kmc_ := 1 }, { idx_ := 6, kmc_ := 10 }] := by
  constructor
  · simp [all_expectations, expectations, PrepKMC, PrepKMC_loop, engineTwo, engine, xlFree,
      xlOneAt, headFree, headOn, Update_0_1, Update_0_1_head, Update_1_2, Update_1_2_loop,
      Update_1_2_weight, Xlink.head, Xlink.setHead, lookupLib, refXlinkLib, rodSimple, mag2]
    norm_num
  · simp [PrepKMC, PrepKMC_loop, engineTwo, engine, xlFree,
      xlOneAt, headFree, headOn, Update_0_1, Update_0_1_head, Update_1_2, Update_1_2_loop,
      Update_1_2_weight, Xlink.head, Xlink.setHead, lookupLib, refXlinkLib, rodSimple, mag2]
    norm_num

/-- Witness of C18: in `engineTwo` the first call writes the weight 10 over
a weight of the provider, and the second call, reading the lists as the
first left them, leaves the same values: 1/10 for each head of the unbound
crosslink and 1/5 for the crosslink, 10 for the free head of the Singly
bound crosslink and for the crosslink, totals 1/5 and 10. -/
theorem PrepKMC_twice_witness :
    ListsApart engineTwo ∧
    all_expectations (PrepKMC lookupLib (PrepKMC lookupLib engineTwo)) =
      all_expectations (PrepKMC lookupLib engineTwo) ∧
    all_expectations (PrepKMC lookupLib engineTwo) =
      ([(1/5, 0, 1/10, 0, 1/10, 0), (0, 10, 0, 0, 0, 10)], 1/5, 10) ∧
    (PrepKMC lookupLib engineTwo).neighbors_ 3 ≠ engineTwo.neighbors_ 3 :=
  ⟨engineTwo_apart, ((PrepKMC_twice lookupLib engineTwo).2 engineTwo_apart).1,
   engineTwo_PrepKMC.1, by rw [engineTwo_PrepKMC.2]; simp [engineTwo, engine]⟩

/-- The loop of `Update_1_2` does not read the 1 -> 2 affinities and
on-rates of the engine. -/
theorem Update_1_2_loop_rates (E : XlinkLib) (K : XlinkKMC) (e o : Nat → ℚ)
    (freehead : XlinkHead) (mrod_attached : Simple) (l : List Neighbor) (n_exp : ℚ) :
    Update_1_2_loop E { K with eps_eff_1_2_ := e, on_rate_1_2_ := o } freehead mrod_attached
      l n_exp = Update_1_2_loop E K freehead mrod_attached l n_exp := by
  induction l generalizing n_exp with
  | nil => rfl
  | cons nldx rest ih =>
    unfold Update_1_2_loop
    simp only [ih]
    rfl

/-- C29. The 1 -> 2 expected value computed by `Update_1_2` does not depend
on the magnitudes of `eps_eff_1_2_` and `on_rate_1_2_`: two engines that
differ in these parameters only, and in both of which the product for the
free head is positive, leave the same crosslink (same totals of the free
head and of the crosslink) and the same neighbour lists (same weight for
every candidate). -/
theorem Update_1_2_rates_irrelevant (E : XlinkLib) (K : XlinkKMC) (e o : Nat → ℚ)
    (xit : Xlink)
    (h1 : 0 < K.eps_eff_1_2_ (free_index xit) * K.on_rate_1_2_ (free_index xit))
    (h2 : 0 < e (free_index xit) * o (free_index xit)) :
    (Update_1_2 E { K with eps_eff_1_2_ := e, on_rate_1_2_ := o } xit).1 =
      (Update_1_2 E K xit).1 ∧
    (Update_1_2 E { K with eps_eff_1_2_ := e, on_rate_1_2_ := o } xit).2.neighbors_ =
      (Update_1_2 E K xit).2.neighbors_ ∧
    (Update_1_2 E { K with eps_eff_1_2_ := e, on_rate_1_2_ := o } xit).1.n_exp_1_2 =
      (Update_1_2_run E K xit).2 := by
  have hrun : Update_1_2_run E { K with eps_eff_1_2_ := e, on_rate_1_2_ := o } xit =
      Update_1_2_run E K xit := by
    unfold Update_1_2_run
    exact Update_1_2_loop_rates E K e o _ _ _ _
  rw [Update_1_2_pos E K xit h1,
    Update_1_2_pos E { K with eps_eff_1_2_ := e, on_rate_1_2_ := o } xit h2, hrun]
  refine ⟨rfl, rfl, ?_⟩
  cases hb : xit.head0.bound <;>
    simp [with_n_exp_1_2, free_index, Xlink.setHead, hb]

/-- Evaluation of C29 on `engineTwo`, whose affinities 1/2 and on-rates 1
are replaced by 7 and 3: the total of the Singly bound crosslink is 10 in
both engines. -/
theorem Update_1_2_rates_irrelevant_witness :
    (Update_1_2 lookupLib { engineTwo with eps_eff_1_2_ := fun _ => 7, on_rate_1_2_ := fun _ => 3 }
      xlOneAt).1 = (Update_1_2 lookupLib engineTwo xlOneAt).1 ∧
    (Update_1_2 lookupLib engineTwo xlOneAt).1.n_exp_1_2 = 10 := by
  have h := Update_1_2_rates_irrelevant lookupLib engineTwo (fun _ => 7) (fun _ => 3) xlOneAt
    (by norm_num [engineTwo, engine]) (by norm_num)
  refine ⟨h.1, ?_⟩
  simp [Update_1_2, Update_1_2_loop, Update_1_2_weight, engineTwo, engine, xlOneAt, xlFree,
    headFree, headOn, Xlink.head, Xlink.setHead, lookupLib, refXlinkLib, rodSimple, mag2]
  norm_num

end XlinkKMC

namespace Crosslink

/-- C26. Whatever the prior state and the bound flags of the two anchors,
if the crosslink is Singly after `UpdateXlinkState` then anchor 0 is bound
and anchor 1 is unbound. -/
theorem UpdateXlinkState_singly (x : Crosslink)
    (h : x.UpdateXlinkState.state_ = .singly) :
    x.UpdateXlinkState.anchors0.bound_ = true ∧
    x.UpdateXlinkState.anchors1.bound_ = false := by
  revert h
  cases hs : x.state_ <;> cases h0 : x.anchors0.bound_ <;> cases h1 : x.anchors1.bound_ <;>
    simp [UpdateXlinkState, IsDoubly, IsSingly, SetSingly, SetDoubly, SetUnbound,
      Anchor.IsBound, hs, h0, h1]

/-- Evaluation of C26 at `xlSingly`, which stays Singly, and at a Doubly
bound crosslink whose anchor 1 has come unbound, which becomes Singly. -/
theorem UpdateXlinkState_singly_witness :
    (xlSingly (1/2)).UpdateXlinkState.state_ = .singly ∧
    (xlSingly (1/2)).UpdateXlinkState.anchors0.bound_ = true ∧
    (xlSingly (1/2)).UpdateXlinkState.anchors1.bound_ = false ∧
    ({ xlDoubly (1/2) with anchors1 := anchorFree }).UpdateXlinkState.state_ = .singly :=
  ⟨by decide,
   (UpdateXlinkState_singly (xlSingly (1/2)) (by decide)).1,
   (UpdateXlinkState_singly (xlSingly (1/2)) (by decide)).2,
   by decide⟩

end Crosslink

namespace Simulation

/-- The values of `it` and `steps` in `PrintComplete`, for a step index that
is not negative and a positive number of steps. -/
theorem PrintComplete_scale_eq (n_steps i_step : Int) (hn : 0 < n_steps) (hi : 0 ≤ i_step) :
    PrintComplete_scale n_steps i_step =
      (if n_steps > 10000 then (i_step / 100, n_steps / 10000)
       else (i_step * 100, n_steps)) := by
  unfold PrintComplete_scale
  rw [Int.tdiv_eq_ediv hi (by decide), Int.tdiv_eq_ediv (le_of_lt hn) (by decide)]

/-- With `print_complete` set, `PrintComplete` computes no remainder by
zero. -/
theorem PrintComplete_true_ok (n_steps i_step : Int) (hn : 0 < n_steps) (hi : 0 ≤ i_step) :
    ∃ p : Printed, PrintComplete n_steps i_step true = .ok p := by
  simp only [PrintComplete]
  rw [PrintComplete_scale_eq n_steps i_step hn hi]
  have hs : (if n_steps > 10000 then (i_step / 100, n_steps / 10000)
      else (i_step * 100, n_steps)).2 ≠ 0 := by
    split_ifs
    · show n_steps / 10000 ≠ 0
      omega
    · show n_steps ≠ 0
      omega
  simp only [if_true, if_neg hs]
  split_ifs <;> exact ⟨_, rfl⟩

/-- Without `print_complete`, `PrintComplete` computes a remainder by
`steps/10`, which is zero exactly when `steps` is below 10. -/
theorem PrintComplete_false_cases (n_steps i_step : Int) (hn : 0 < n_steps) (hi : 0 ≤ i_step) :
    ((n_steps < 10 ∨ (10000 < n_steps ∧ n_steps < 100000)) →
      PrintComplete n_steps i_step false = .error "remainder by zero" ∧
      PrintComplete_backup n_steps i_step = .error "remainder by zero") ∧
    (¬ (n_steps < 10 ∨ (10000 < n_steps ∧ n_steps < 100000)) →
      (∃ p : Printed, PrintComplete n_steps i_step false = .ok p) ∧
      (∃ p : Printed, PrintComplete_backup n_steps i_step = .ok p)) := by
  simp only [PrintComplete, PrintComplete_backup]
  rw [PrintComplete_scale_eq n_steps i_step hn hi]
  have e : Int.tdiv (if n_steps > 10000 then (i_step / 100, n_steps / 10000)
      else (i_step * 100, n_steps)).2 10 =
      (if n_steps > 10000 then n_steps / 10000 / 10 else n_steps / 10) := by
    split_ifs
    · exact Int.tdiv_eq_ediv (by show 0 ≤ n_steps / 10000; omega) (by decide)
    · exact Int.tdiv_eq_ediv (by show 0 ≤ n_steps; omega) (by decide)
  rw [e]
  constructor
  · intro hc
    have hs : (if n_steps > 10000 then n_steps / 10000 / 10 else n_steps / 10) = 0 := by
      split_ifs <;> omega
    simp only [Bool.false_eq_true, if_false, if_pos hs, and_self]
  · intro hc
    have hs : (if n_steps > 10000 then n_steps / 10000 / 10 else n_steps / 10) ≠ 0 := by
      split_ifs <;> omega
    simp only [Bool.false_eq_true, if_false, if_neg hs]
    constructor <;> split_ifs <;> exact ⟨_, rfl⟩

/-- C30. Failing input: `n_steps = 5`, `i_step = 0`, `print_complete` not
set. Then `steps = 5`, `steps/10 = 0` and `PrintComplete` computes
`it % 0`; the same with `n_steps = 50000`, where `steps = 5`. The version of
simcore_backup does so whatever `print_complete` is. For a positive number
of steps and a step index that is not negative, the remainder by `steps` of
the branch taken when `print_complete` is set is never by zero, and the
remainder by `steps/10` is by zero exactly when `n_steps` is below 10 or
between 10001 and 99999. -/
theorem PrintComplete_remainder_by_zero :
    PrintComplete 5 0 false = .error "remainder by zero" ∧
    PrintComplete 50000 0 false = .error "remainder by zero" ∧
    PrintComplete_backup 5 0 = .error "remainder by zero" ∧
    PrintComplete 5 0 true = .ok (Printed.percent 0) ∧
    PrintComplete 10 0 false = .ok (Printed.fraction 0 10) ∧
    (∀ n_steps i_step : Int, 0 < n_steps → 0 ≤ i_step → i_step < n_steps →
      (∃ p : Printed, PrintComplete n_steps i_step true = .ok p) ∧
      ((n_steps < 10 ∨ (10000 < n_steps ∧ n_steps < 100000)) →
        PrintComplete n_steps i_step false = .error "remainder by zero" ∧
        PrintComplete_backup n_steps i_step = .error "remainder by zero") ∧
      (¬ (n_steps < 10 ∨ (10000 < n_steps ∧ n_steps < 100000)) →
        (∃ p : Printed, PrintComplete n_steps i_step false = .ok p) ∧
        (∃ p : Printed, PrintComplete_backup n_steps i_step = .ok p))) := by
  refine ⟨rfl, rfl, rfl, rfl, rfl, ?_⟩
  intro n_steps i_step hn hi _
  exact ⟨PrintComplete_true_ok n_steps i_step hn hi,
    PrintComplete_false_cases n_steps i_step hn hi⟩

end Simulation

namespace XlinkKMC

/-- C28. Failing input: the engine `engineSingly` with two Singly bound
crosslinks, each with one partner-species neighbour on another rod, after
`PrepKMC` (1 -> 2 totals 10 and 10, total of the species 20), a Poisson
draw of one trial and a uniform draw 0. The one trial of `KMC_1_2` converts
both crosslinks to Doubly bound: the loop over the crosslinks goes on after
the first attachment with `loc` above `ran_loc`. -/
theorem KMC_1_2_trial_converts_two :
    engineSingly.xlinks.map Xlink.bound_state = [.singly, .singly] ∧
    (PrepKMC oneTrialLib engineSingly).xlinks.map Xlink.bound_state = [.singly, .singly] ∧
    (PrepKMC oneTrialLib engineSingly).spec_n_exp_1_2 = 20 ∧
    (oneTrialLib.poisson ((PrepKMC oneTrialLib engineSingly).spec_n_exp_1_2 *
      (PrepKMC oneTrialLib engineSingly).spec_delta)
      (PrepKMC oneTrialLib engineSingly).rng_).1 = 1 ∧
    (KMC_1_2 oneTrialLib (PrepKMC oneTrialLib engineSingly)).xlinks.map Xlink.bound_state =
      [.doubly, .doubly] ∧
    (KMC_1_2 oneTrialLib (PrepKMC oneTrialLib engineSingly)).xlinks.countP
      (fun x => x.bound_state = .doubly) = 2 := by
  have h5 : (KMC_1_2 oneTrialLib (PrepKMC oneTrialLib engineSingly)).xlinks.map
      Xlink.bound_state = [.doubly, .doubly] := by
    simp [KMC_1_2, KMC_1_2_trials, KMC_1_2_trial, KMC_1_2_xlinks, KMC_1_2_neighbors,
      Rng.uniform,
      PrepKMC, PrepKMC_loop, engineSingly, engine, xlOneN, xlFree, headFree, headOn,
      Update_1_2, Update_1_2_loop, Update_1_2_weight, Xlink.head, Xlink.setHead, oneTrialLib,
      lookupLib, refXlinkLib, rodSimple, mag2, constRng]
    norm_num
    simp [KMC_1_2_attach, Xlink.CheckBoundState, Xlink.setHead, Xlink.head, XlinkHead.SetBound,
      XlinkHead.Attach]
  refine ⟨rfl, ?_, ?_, rfl, h5, ?_⟩
  · simp [PrepKMC, PrepKMC_loop, engineSingly, engine, xlOneN, xlFree, headFree, headOn,
      Update_1_2, Xlink.head, Xlink.setHead]
  · simp [PrepKMC, PrepKMC_loop, engineSingly, engine, xlOneN, xlFree, headFree, headOn,
      Update_1_2, Update_1_2_loop, Update_1_2_weight, Xlink.head, Xlink.setHead, oneTrialLib,
      lookupLib, refXlinkLib, rodSimple, mag2]
    norm_num
  · have hc : ∀ l : List Xlink, l.countP (fun x => x.bound_state = .doubly) =
        (l.map Xlink.bound_state).count .doubly := by
      intro l
      induction l with
      | nil => rfl
      | cons x rest ih =>
        simp only [List.countP_cons, List.map_cons, List.count_cons, ih, decide_eq_true_eq,
          beq_iff_eq]
    rw [hc, h5]
    decide

/-- C21. Failing input: the engine `engineCounted`, whose two crosslinks
are Singly bound by head 0 (counts 2 and 0), with detach probability
`on_rate_0_1_[0] * alpha_ * delta = 1/10` per head, a binomial draw in which
both trials succeed (`noff = (2, 0)`) and integer draws 1 and 1. The first
removal detaches the second crosslink; the second removal looks for
crosslink number 1 among the one that is left and detaches nothing: one head
detaches although two were drawn. In general `KMC_1_0` draws `noff[i]` from
the binomial sampler with the success probability
`on_rate_0_1_[i] * alpha_ * delta` and the count `nbound1[i]` of the species,
and draws every index to remove below that same count. -/
theorem KMC_1_0_detaches_fewer :
    engineCounted.xlinks.countP
      (fun x => x.bound_state = .singly ∧ x.head0.bound = true) = 2 ∧
    engineCounted.spec_nbound1 0 = 2 ∧ engineCounted.spec_nbound1 1 = 0 ∧
    KMC_1_0_poff engineCounted 0 = 1 / 10 ∧
    (detachLib.binomial (KMC_1_0_poff engineCounted 0) (engineCounted.spec_nbound1 0)
      engineCounted.rng_).1 = 2 ∧
    (detachLib.binomial (KMC_1_0_poff engineCounted 1) (engineCounted.spec_nbound1 1)
      engineCounted.rng_).1 = 0 ∧
    (KMC_1_0 detachLib 1 engineCounted).map (fun K => K.xlinks.map Xlink.bound_state) =
      some [.singly, .unbound] ∧
    (∀ (E : XlinkLib) (fuel : Nat) (K : XlinkKMC),
      KMC_1_0 E fuel K =
        KMC_1_0_loop E fuel K.spec_nbound1
          (E.binomial (K.on_rate_0_1_ 1 * K.alpha_ * K.spec_delta) (K.spec_nbound1 1)
            (E.binomial (K.on_rate_0_1_ 0 * K.alpha_ * K.spec_delta) (K.spec_nbound1 0)
              K.rng_).2).1
          ((E.binomial (K.on_rate_0_1_ 0 * K.alpha_ * K.spec_delta) (K.spec_nbound1 0)
              K.rng_).1 +
            (E.binomial (K.on_rate_0_1_ 1 * K.alpha_ * K.spec_delta) (K.spec_nbound1 1)
              (E.binomial (K.on_rate_0_1_ 0 * K.alpha_ * K.spec_delta) (K.spec_nbound1 0)
                K.rng_).2).1)
          0
          { K with rng_ :=
              (E.binomial (K.on_rate_0_1_ 1 * K.alpha_ * K.spec_delta) (K.spec_nbound1 1)
                (E.binomial (K.on_rate_0_1_ 0 * K.alpha_ * K.spec_delta) (K.spec_nbound1 0)
                  K.rng_).2).2 }) := by
  refine ⟨?_, rfl, rfl, ?_, rfl, rfl, ?_, fun _ _ _ => rfl⟩
  · simp [engineCounted, engineSingly, engine, xlOneN, xlFree, headOn, headFree]
  · simp [KMC_1_0_poff, engineCounted, engineSingly, engine]
  · simp [KMC_1_0, KMC_1_0_loop, KMC_1_0_find, KMC_1_0_detach, KMC_1_0_randr, KMC_1_0_draw,
      KMC_1_0_poff, detachLib, refXlinkLib, engineCounted, engineSingly, engine, xlOneN,
      xlFree, headOn, headFree, constRng, Rng.uniform, Xlink.head, Xlink.setHead,
      Xlink.CheckBoundState, XlinkHead.SetBound, XlinkHead.Attach, SQR, List.finRange,
      show ¬ ((1 : ℚ) < 0) by norm_num]

end XlinkKMC

namespace Crosslink

/-- C24 fails as stated: a crosslink initialised with the two unbound
anchors `anchorFree` is Singly although anchor 0 is unbound, so that the
state invariant does not hold. -/
theorem Init_invariant_counterexample :
    anchorFree.bound_ = false ∧
    (xlUnbound.Init refParams anchorFree anchorFree).state_ = .singly ∧
    (xlUnbound.Init refParams anchorFree anchorFree).anchors0.bound_ = false ∧
    ¬ (xlUnbound.Init refParams anchorFree anchorFree).Inv := by
  refine ⟨rfl, rfl, rfl, ?_⟩
  intro h
  exact absurd (h.2.1 rfl).1 (by decide)

/-- C24, as the code has it. `Init` ends with `SetSingly`: given that the
two freshly initialised anchors are unbound, the crosslink is Singly with
both anchors unbound immediately after `Init`, and the state invariant does
not hold. It holds once `AttachObjRandom` has bound anchor 0 to a bond,
which leaves the state and anchor 1 as they were. -/
theorem Init_state (x : Crosslink) (p : crosslink_parameters) (anchor1 anchor2 : Anchor)
    (h1 : anchor1.bound_ = false) (h2 : anchor2.bound_ = false) :
    (x.Init p anchor1 anchor2).state_ = .singly ∧
    (x.Init p anchor1 anchor2).anchors0.bound_ = false ∧
    (x.Init p anchor1 anchor2).anchors1.bound_ = false ∧
    ¬ (x.Init p anchor1 anchor2).Inv ∧
    (∀ (obj : Obj) (lambda : ℚ), ∃ y : Crosslink,
      (x.Init p anchor1 anchor2).AttachObjRandom true obj lambda = .ok y ∧
      y.state_ = .singly ∧ y.anchors0.bound_ = true ∧ y.anchors1.bound_ = false ∧ y.Inv) := by
  refine ⟨rfl, h1, h2, ?_, ?_⟩
  · intro h
    have hb := (h.2.1 rfl).1
    have hb2 : (x.Init p anchor1 anchor2).anchors0.bound_ = false := h1
    rw [hb2] at hb
    exact absurd hb (by decide)
  · intro obj lambda
    refine ⟨_, rfl, rfl, rfl, h2, ?_⟩
    refine ⟨fun h => ?_, fun _ => ⟨rfl, h2⟩, fun h => ?_⟩
    · exact bind_state.noConfusion (show bind_state.singly = bind_state.doubly from h)
    · exact bind_state.noConfusion (show bind_state.singly = bind_state.unbound from h)

/-- Evaluation of C24 with the unbound anchors `anchorFree`: after `Init`
and the attachment of anchor 0 to the bond 7 the invariant holds. -/
theorem Init_state_witness :
    anchorFree.bound_ = false ∧
    (xlUnbound.Init refParams anchorFree anchorFree).state_ = .singly ∧
    ∃ y : Crosslink,
      (xlUnbound.Init refParams anchorFree anchorFree).AttachObjRandom true
        { oid := 7, length_ := 10 } 3 = .ok y ∧ y.Inv :=
  have h := Init_state xlUnbound refParams anchorFree anchorFree rfl rfl
  ⟨rfl, h.1,
   (h.2.2.2.2 { oid := 7, length_ := 10 } 3).imp (fun _ hy => ⟨hy.1, hy.2.2.2.2⟩)⟩

end Crosslink

namespace Motor

/-- The value of `f_mag` in `ApplyAnchorForces` is the square of the spring
constant times the squared distance of the motor to its anchor point, over
the first `n_dim_` components. -/
theorem anchor_f_mag_eq (m : Motor) :
    m.anchor_f_mag = m.anchor_.k_spring_ ^ 2 *
      mag2 m.n_dim_ (fun i => m.position_ i - m.anchor_.position_ i) := by
  simp only [anchor_f_mag, mag2, anchor_force, SQR, List.finRange, List.ofFn, Fin.foldr,
    Fin.foldr.loop, List.foldl]
  split_ifs <;> simp_all <;> ring

/-- The branch of `ApplyAnchorForces` taken when the squared force exceeds
the squared maximal force. -/
theorem ApplyAnchorForces_above (L : MotorLib) (m : Motor)
    (h : m.anchor_f_mag > SQR m.f_spring_max_) :
    m.ApplyAnchorForces L =
      DetachBoundary { m with anchor_ := { m.anchor_ with force_ := m.anchor_force } } := by
  unfold ApplyAnchorForces
  simp only []
  rw [if_pos h]

/-- The branch of `ApplyAnchorForces` taken when the squared force does not
exceed the squared maximal force: what it leaves in the members other than
the velocity and the torques. -/
theorem ApplyAnchorForces_below (L : MotorLib) (m : Motor)
    (h : ¬ m.anchor_f_mag > SQR m.f_spring_max_) :
    (m.ApplyAnchorForces L).anchored_ = m.anchored_ ∧
    (m.ApplyAnchorForces L).bond.force_ = (fun i => m.bond.force_ i + m.anchor_force i) ∧
    (m.ApplyAnchorForces L).step_direction_ = m.step_direction_ ∧
    (m.ApplyAnchorForces L).velocity_ =
      m.max_velocity_ * L.exp (-(L.sqrt m.anchor_f_mag / m.f_spring_max_) ^ 4) := by
  unfold ApplyAnchorForces
  simp only []
  rw [if_neg h]
  exact ⟨rfl, rfl, rfl, rfl⟩

/-- C25. `ApplyAnchorForces` detaches an anchored motor exactly when the
squared anchor spring force `k_spring^2 * |r - r_anchor|^2` exceeds
`f_spring_max^2`. In that case `anchored_` becomes false, the velocity is
reset to `max_velocity_` and the bond is left as it was, without added force
or torque; otherwise the motor stays anchored and the anchor force, whose
first `n_dim_` components are `-k_spring * (r - r_anchor)`, is added to the
force of the bond. -/
theorem ApplyAnchorForces_detach (L : MotorLib) (m : Motor) (ha : m.anchored_ = true) :
    ((m.ApplyAnchorForces L).anchored_ = false ↔
      m.anchor_.k_spring_ ^ 2 *
        mag2 m.n_dim_ (fun i => m.position_ i - m.anchor_.position_ i) >
        m.f_spring_max_ * m.f_spring_max_) ∧
    (m.anchor_.k_spring_ ^ 2 *
        mag2 m.n_dim_ (fun i => m.position_ i - m.anchor_.position_ i) >
        m.f_spring_max_ * m.f_spring_max_ →
      (m.ApplyAnchorForces L).anchored_ = false ∧
      (m.ApplyAnchorForces L).velocity_ = m.max_velocity_ ∧
      (m.ApplyAnchorForces L).bond = m.bond) ∧
    (¬ m.anchor_.k_spring_ ^ 2 *
        mag2 m.n_dim_ (fun i => m.position_ i - m.anchor_.position_ i) >
        m.f_spring_max_ * m.f_spring_max_ →
      (m.ApplyAnchorForces L).anchored_ = true ∧
      (m.ApplyAnchorForces L).bond.force_ = (fun i => m.bond.force_ i + m.anchor_force i) ∧
      (∀ i : Fin 3, i.val < m.n_dim_ →
        (m.ApplyAnchorForces L).bond.force_ i =
          m.bond.force_ i + -m.anchor_.k_spring_ * (m.position_ i - m.anchor_.position_ i))) := by
  rw [← anchor_f_mag_eq]
  have habove : m.anchor_f_mag > m.f_spring_max_ * m.f_spring_max_ →
      (m.ApplyAnchorForces L).anchored_ = false ∧
      (m.ApplyAnchorForces L).velocity_ = m.max_velocity_ ∧
      (m.ApplyAnchorForces L).bond = m.bond := by
    intro h
    rw [ApplyAnchorForces_above L m h]
    exact ⟨rfl, rfl, rfl⟩
  have hbelow : ¬ m.anchor_f_mag > m.f_spring_max_ * m.f_spring_max_ →
      (m.ApplyAnchorForces L).anchored_ = true ∧
      (m.ApplyAnchorForces L).bond.force_ = (fun i => m.bond.force_ i + m.anchor_force i) ∧
      (∀ i : Fin 3, i.val < m.n_dim_ →
        (m.ApplyAnchorForces L).bond.force_ i =
          m.bond.force_ i + -m.anchor_.k_spring_ * (m.position_ i - m.anchor_.position_ i)) := by
    intro h
    obtain ⟨b1, b2, _, _⟩ := ApplyAnchorForces_below L m h
    refine ⟨b1.trans ha, b2, ?_⟩
    intro i hi
    rw [b2]
    simp only [anchor_force, if_pos hi]
  refine ⟨⟨?_, fun h => (habove h).1⟩, habove, hbelow⟩
  intro hd
  by_contra h
  rw [(hbelow h).1] at hd
  exact absurd hd (by decide)

/-- Evaluation of C25: the motor at arc length 5 of `bondA`, at the origin,
is detached when anchored at distance 2 (squared force 4 above 1) and stays
anchored at distance 1/2, where the force `(1/2, 0, 0)` is added to the
bond. -/
theorem ApplyAnchorForces_detach_witness :
    (motorAt 5 ![2, 0, 0]).anchored_ = true ∧
    ((motorAt 5 ![2, 0, 0]).ApplyAnchorForces refMotorLib).anchored_ = false ∧
    ((motorAt 5 ![1/2, 0, 0]).ApplyAnchorForces refMotorLib).anchored_ = true ∧
    ((motorAt 5 ![1/2, 0, 0]).ApplyAnchorForces refMotorLib).bond.force_ 0 = 1/2 := by
  have h1 := ApplyAnchorForces_detach refMotorLib (motorAt 5 ![2, 0, 0]) rfl
  have h2 := ApplyAnchorForces_detach refMotorLib (motorAt 5 ![1/2, 0, 0]) rfl
  have e1 : (motorAt 5 ![2, 0, 0]).anchor_.k_spring_ ^ 2 *
      mag2 (motorAt 5 ![2, 0, 0]).n_dim_
        (fun i => (motorAt 5 ![2, 0, 0]).position_ i -
          (motorAt 5 ![2, 0, 0]).anchor_.position_ i) = 4 := by
    simp [motorAt, mag2, SQR, List.finRange]
    norm_num
  have e2 : (motorAt 5 ![1/2, 0, 0]).anchor_.k_spring_ ^ 2 *
      mag2 (motorAt 5 ![1/2, 0, 0]).n_dim_
        (fun i => (motorAt 5 ![1/2, 0, 0]).position_ i -
          (motorAt 5 ![1/2, 0, 0]).anchor_.position_ i) = 1 / 4 := by
    simp [motorAt, mag2, SQR, List.finRange]
    norm_num
  rw [e1] at h1
  rw [e2] at h2
  have g1 := h1.2.1 (by norm_num [motorAt])
  have g2 := h2.2.2 (by norm_num [motorAt])
  refine ⟨rfl, g1.1, g2.1, ?_⟩
  rw [g2.2.2 0 (by decide)]
  simp [motorAt, bondA]

/-- `SwitchBonds` of a bond without the neighbour asked for. -/
theorem SwitchBonds_none (L : MotorLib) (m : Motor) (next_bond : Bool) (dr_mag : ℚ)
    (h : L.GetNeighborDirectedBond m.bond (if next_bond then 1 else 0) = none) :
    m.SwitchBonds L next_bond dr_mag = (false, m) := by
  unfold SwitchBonds
  rw [h]

/-- `SwitchBonds` of a bond with the neighbour asked for reports the
switch. -/
theorem SwitchBonds_some (L : MotorLib) (m : Motor) (next_bond : Bool) (dr_mag : ℚ)
    (db : Bond × Bool)
    (h : L.GetNeighborDirectedBond m.bond (if next_bond then 1 else 0) = some db) :
    (m.SwitchBonds L next_bond dr_mag).1 = true := by
  unfold SwitchBonds
  rw [h]

/-- A call of `SwitchBonds` that reports no switch leaves the motor as it
was. -/
theorem SwitchBonds_false (L : MotorLib) (m : Motor) (next_bond : Bool) (dr_mag : ℚ)
    (h : (m.SwitchBonds L next_bond dr_mag).1 = false) :
    m.SwitchBonds L next_bond dr_mag = (false, m) := by
  cases hn : L.GetNeighborDirectedBond m.bond (if next_bond then 1 else 0) with
  | none => exact SwitchBonds_none L m next_bond dr_mag hn
  | some db =>
    rw [SwitchBonds_some L m next_bond dr_mag db hn] at h
    exact absurd h (by decide)

/-- C27. For a motor with `0 ≤ bond_lambda ≤ bond_length`, a step direction
in {-1, 0, +1} and `velocity * delta ≥ 0`, a call of `Walk` that stays on
the same bond leaves `0 ≤ bond_lambda ≤ bond_length` with the bond length
as it was, and changes `mesh_lambda` by the same amount as `bond_lambda`;
walking past the tail stops at 0 and walking past the head stops at the bond
length; otherwise `bond_lambda` advances by
`step_direction * velocity * delta`. -/
theorem Walk_stays_on_bond (L : MotorLib) (m : Motor)
    (h0 : 0 ≤ m.bond_lambda_) (h1 : m.bond_lambda_ ≤ m.bond_length_)
    (hs : m.step_direction_ = -1 ∨ m.step_direction_ = 0 ∨ m.step_direction_ = 1)
    (hv : 0 ≤ m.velocity_ * m.delta_) (hsame : (m.Walk_run L).1 = true) :
    0 ≤ (m.Walk L).bond_lambda_ ∧ (m.Walk L).bond_lambda_ ≤ (m.Walk L).bond_length_ ∧
    (m.Walk L).bond_length_ = m.bond_length_ ∧ (m.Walk L).bond = m.bond ∧
    (m.Walk L).mesh_lambda_ - m.mesh_lambda_ = (m.Walk L).bond_lambda_ - m.bond_lambda_ ∧
    (m.bond_lambda_ - m.velocity_ * m.delta_ < 0 → m.step_direction_ < 0 →
      (m.Walk L).bond_lambda_ = 0) ∧
    (m.bond_lambda_ + m.velocity_ * m.delta_ > m.bond_length_ → m.step_direction_ > 0 →
      (m.Walk L).bond_lambda_ = m.bond_length_) ∧
    (¬ (m.bond_lambda_ - m.velocity_ * m.delta_ < 0 ∧ m.step_direction_ < 0) →
      ¬ (m.bond_lambda_ + m.velocity_ * m.delta_ > m.bond_length_ ∧ m.step_direction_ > 0) →
      (m.Walk L).bond_lambda_ =
        m.bond_lambda_ + (m.step_direction_ : ℚ) * (m.velocity_ * m.delta_)) := by
  unfold Walk
  unfold Walk_run at hsame ⊢
  simp only [] at hsame ⊢
  by_cases c1 : m.bond_lambda_ - m.velocity_ * m.delta_ < 0 ∧ m.step_direction_ < 0
  · rw [if_pos c1] at hsame ⊢
    have hsw : (m.SwitchBonds L false (m.velocity_ * m.delta_ - m.bond_lambda_)).1 = false := by
      cases hq : (m.SwitchBonds L false (m.velocity_ * m.delta_ - m.bond_lambda_)).1 with
      | false => rfl
      | true =>
        rw [hq] at hsame
        simp at hsame
    have hsw2 := SwitchBonds_false L m false _ hsw
    rw [hsw2]
    simp only [Bool.false_eq_true, if_false, Walk_position]
    have hc2 : ¬ (m.bond_lambda_ + m.velocity_ * m.delta_ > m.bond_length_ ∧
        m.step_direction_ > 0) := by
      intro hc
      have := c1.2
      omega
    refine ⟨le_refl _, le_trans h0 h1, (by first | rfl | trivial), (by first | rfl | trivial), by ring,
      fun _ _ => (by first | rfl | trivial), ?_, ?_⟩
    · intro hgt hpos
      exact absurd ⟨hgt, hpos⟩ hc2
    · intro hn
      exact absurd c1 hn
  · rw [if_neg c1] at hsame ⊢
    by_cases c2 : m.bond_lambda_ + m.velocity_ * m.delta_ > m.bond_length_ ∧
        m.step_direction_ > 0
    · rw [if_pos c2] at hsame ⊢
      have hsw : (m.SwitchBonds L true
          (m.velocity_ * m.delta_ - (m.bond_length_ - m.bond_lambda_))).1 = false := by
        cases hq : (m.SwitchBonds L true
            (m.velocity_ * m.delta_ - (m.bond_length_ - m.bond_lambda_))).1 with
        | false => rfl
        | true =>
          rw [hq] at hsame
          simp at hsame
      have hsw2 := SwitchBonds_false L m true _ hsw
      rw [hsw2]
      simp only [Bool.false_eq_true, if_false, Walk_position]
      refine ⟨le_trans h0 h1, le_refl _, (by first | rfl | trivial), (by first | rfl | trivial), by ring, ?_,
        fun _ _ => (by first | rfl | trivial), ?_⟩
      · intro hlt hneg
        exact absurd ⟨hlt, hneg⟩ c1
      · intro _ hn
        exact absurd c2 hn
    · rw [if_neg c2]
      simp only [Walk_position]
      have hrange : 0 ≤ m.bond_lambda_ + (m.step_direction_ : ℚ) * (m.velocity_ * m.delta_) ∧
          m.bond_lambda_ + (m.step_direction_ : ℚ) * (m.velocity_ * m.delta_) ≤
            m.bond_length_ := by
        rcases hs with hm | hz | hp
        · have hlt : ¬ m.bond_lambda_ - m.velocity_ * m.delta_ < 0 := by
            intro hlt
            exact c1 ⟨hlt, by omega⟩
          rw [hm]
          push_cast
          constructor <;> linarith
        · rw [hz]
          push_cast
          constructor <;> linarith
        · have hgt : ¬ m.bond_lambda_ + m.velocity_ * m.delta_ > m.bond_length_ := by
            intro hgt
            exact c2 ⟨hgt, by omega⟩
          rw [hp]
          push_cast
          constructor <;> linarith
      refine ⟨hrange.1, hrange.2, (by first | rfl | trivial), (by first | rfl | trivial), by ring, ?_, ?_,
        fun _ _ => (by first | rfl | trivial)⟩
      · intro hlt hneg
        exact absurd ⟨hlt, hneg⟩ c1
      · intro hgt hpos
        exact absurd ⟨hgt, hpos⟩ c2

/-- Evaluation of C27 on `bondA`, which has length 10 and no neighbouring
bond: a motor at arc length 19/2 that walks 1 towards the head stops at 10,
and its `mesh_lambda` advances by 1/2 as well. -/
theorem Walk_stays_on_bond_witness :
    ((motorAt (19/2) ![0, 0, 0]).Walk_run refMotorLib).1 = true ∧
    ((motorAt (19/2) ![0, 0, 0]).Walk refMotorLib).bond_lambda_ = 10 ∧
    ((motorAt (19/2) ![0, 0, 0]).Walk refMotorLib).mesh_lambda_ -
      (motorAt (19/2) ![0, 0, 0]).mesh_lambda_ = 10 - 19/2 := by
  have hsame : ((motorAt (19/2) ![0, 0, 0]).Walk_run refMotorLib).1 = true := by
    simp [Walk_run, SwitchBonds, motorAt, refMotorLib]
    norm_num
  have h := Walk_stays_on_bond refMotorLib (motorAt (19/2) ![0, 0, 0])
    (by norm_num [motorAt]) (by norm_num [motorAt]) (Or.inr (Or.inr rfl))
    (by norm_num [motorAt]) hsame
  have hl : ((motorAt (19/2) ![0, 0, 0]).Walk refMotorLib).bond_lambda_ = 10 :=
    h.2.2.2.2.2.2.1 (by norm_num [motorAt]) (by decide)
  refine ⟨hsame, hl, ?_⟩
  rw [h.2.2.2.2.1, hl]
  rfl

end Motor

namespace XlinkKMC

/-- In `KMC_0_1`, an unbound crosslink whose total is the one of
`Update_0_1`, whose heads share one neighbour list of partner species and
the time step of the crosslink, attaches exactly one head when the first
roll is below the total, and none otherwise. -/
theorem KMC_0_1_xlink_threshold (E : XlinkLib) (K : XlinkKMC) (x : Xlink)
    (hu : x.bound_state = .unbound) (hb0 : x.head0.bound = false)
    (hb1 : x.head1.bound = false) (hpos : DBL_EPSILON ≤ x.n_exp_0_1)
    (h0 : 0 ≤ x.rng.stream x.rng.pos)
    (hup : x.n_exp_0_1 = (K.Update_0_1 x).n_exp_0_1)
    (hl : K.neighbors_ (K.oid_position_map_ x.head0.oid) =
      K.neighbors_ (K.oid_position_map_ x.head1.oid))
    (hsid : ∀ n ∈ K.neighbors_ (K.oid_position_map_ x.head0.oid),
      (K.simples_ n.idx_).sid = K.sid2_)
    (hd0 : x.head0.delta = x.delta) (hd1 : x.head1.delta = x.delta) :
    (x.rng.stream x.rng.pos < x.n_exp_0_1 → AttachedOne K x (KMC_0_1_xlink E K x)) ∧
    (x.n_exp_0_1 ≤ x.rng.stream x.rng.pos → Unattached x (KMC_0_1_xlink E K x)) := by
  rw [KMC_0_1_xlink_unfold E K x hu hpos]
  constructor
  · intro hlt
    rw [if_pos hlt]
    have hi : KMC_0_1_head_type K x.rng.uniform.2.uniform.1 < 2 := by
      unfold KMC_0_1_head_type
      split_ifs <;> decide
    have hlist : K.neighbors_ (K.oid_position_map_
        (x.head (KMC_0_1_head_type K x.rng.uniform.2.uniform.1)).oid) =
        K.neighbors_ (K.oid_position_map_ x.head0.oid) := by
      unfold Xlink.head
      split_ifs
      · rfl
      · exact hl.symm
    have hdel : (x.head (KMC_0_1_head_type K x.rng.uniform.2.uniform.1)).delta = x.delta := by
      unfold Xlink.head
      split_ifs
      · exact hd0
      · exact hd1
    have htot := Update_0_1_same_lists K x _ rfl hl.symm _ hdel
    obtain ⟨nldx, hsel⟩ := KMC_0_1_select_some K
      (KMC_0_1_affinity K (x.head (KMC_0_1_head_type K x.rng.uniform.2.uniform.1)))
      (x.rng.stream x.rng.pos) (K.neighbors_ (K.oid_position_map_ x.head0.oid)) 0 hsid h0
      (by rw [zero_add, ← htot, ← hup]; exact hlt)
    obtain ⟨m1, m2⟩ := KMC_0_1_select_mem K _ _ _ _ _ hsel
    obtain ⟨a1, a2, a3, a4⟩ := KMC_0_1_attach_spec E K x _ hi hb0 hb1 nldx
      x.rng.uniform.2.uniform.2
    unfold KMC_0_1_bind
    simp only [hlist, hsel]
    exact ⟨_, nldx, hi, by rw [hlist]; exact m1, m2, a1, a2, a3, a4⟩
  · intro hge
    rw [if_neg (not_lt.mpr hge)]
    exact ⟨rfl, rfl, hu⟩

/-- The total `Update_0_1` gives the crosslink of the binding scenario is
`2 * eps * 0.01`; the update leaves the generator, the state and the heads
unbound. -/
theorem xlScenario_Update_0_1 (eps roll : ℚ) :
    ((engineScenario eps).Update_0_1 (xlScenario roll)).n_exp_0_1 = eps / 50 ∧
    ((engineScenario eps).Update_0_1 (xlScenario roll)).rng = (xlScenario roll).rng ∧
    (xlScenario roll).rng.stream (xlScenario roll).rng.pos = roll := by
  refine ⟨?_, rfl, ?_⟩
  · simp [Update_0_1, Update_0_1_head, Xlink.head, engineScenario, engine, xlScenario, xlFree,
      headFree, nlBoth]
    ring
  · simp [xlScenario, xlFree]

/-- C22, as the code has it. In the scenario of one unbound crosslink with
on-rates 1, alpha 1, affinity `eps` per head, one candidate at distance 0
with weight 1 seen by both heads and `delta = 0.01`, one pass (`Update_0_1`,
then `KMC_0_1`) binds the crosslink exactly when its uniform roll is below
the total `2 * eps * 0.01` that `Update_0_1` computes: the binding
probability is that total, 0.02 when every factor is 1 and 0.01 when the
two affinities add up to 1. -/
theorem scenario_binding_probability (E : XlinkLib) (eps roll : ℚ)
    (he : DBL_EPSILON ≤ eps / 50) (hr : 0 ≤ roll) :
    ((engineScenario eps).Update_0_1 (xlScenario roll)).n_exp_0_1 = eps / 50 ∧
    (roll < eps / 50 →
      AttachedOne (engineScenario eps) ((engineScenario eps).Update_0_1 (xlScenario roll))
        (KMC_0_1_xlink E (engineScenario eps)
          ((engineScenario eps).Update_0_1 (xlScenario roll)))) ∧
    (eps / 50 ≤ roll →
      Unattached ((engineScenario eps).Update_0_1 (xlScenario roll))
        (KMC_0_1_xlink E (engineScenario eps)
          ((engineScenario eps).Update_0_1 (xlScenario roll)))) := by
  obtain ⟨e1, e2, e3⟩ := xlScenario_Update_0_1 eps roll
  have hroll : ((engineScenario eps).Update_0_1 (xlScenario roll)).rng.stream
      ((engineScenario eps).Update_0_1 (xlScenario roll)).rng.pos = roll := by
    rw [e2]
    exact e3
  have h := KMC_0_1_xlink_threshold E (engineScenario eps)
    ((engineScenario eps).Update_0_1 (xlScenario roll)) rfl rfl rfl
    (by rw [e1]; exact he) (by rw [hroll]; exact hr)
    (congrArg Xlink.n_exp_0_1
      (Update_0_1_again (engineScenario eps) (engineScenario eps) (xlScenario roll)
        ⟨rfl, rfl, rfl, rfl, rfl, rfl, rfl, rfl, rfl⟩ rfl rfl)).symm
    rfl
    (by
      intro n _
      simp [engineScenario, engine, rodSimple])
    rfl rfl
  rw [hroll, e1] at h
  exact ⟨e1, h.1, h.2⟩

/-- Evaluation of C22 with every factor 1: the roll 1/100 binds the
crosslink and the roll 1/50 does not. -/
theorem scenario_binding_probability_witness :
    DBL_EPSILON ≤ (1 : ℚ) / 50 ∧
    AttachedOne (engineScenario 1) ((engineScenario 1).Update_0_1 (xlScenario (1/100)))
      (KMC_0_1_xlink refXlinkLib (engineScenario 1)
        ((engineScenario 1).Update_0_1 (xlScenario (1/100)))) ∧
    Unattached ((engineScenario 1).Update_0_1 (xlScenario (1/50)))
      (KMC_0_1_xlink refXlinkLib (engineScenario 1)
        ((engineScenario 1).Update_0_1 (xlScenario (1/50)))) :=
  ⟨by unfold DBL_EPSILON; norm_num,
   (scenario_binding_probability refXlinkLib 1 (1/100) (by unfold DBL_EPSILON; norm_num)
      (by norm_num)).2.1 (by norm_num),
   (scenario_binding_probability refXlinkLib 1 (1/50) (by unfold DBL_EPSILON; norm_num)
      (by norm_num)).2.2 (by norm_num)⟩

/-- Bounds on `1 - exp(-0.01)`: it is below 0.0099995, hence below 0.01, and
within 0.0001 of 0.01. -/
theorem one_sub_exp_bounds :
    1 - Real.exp (-(1/100)) < ((19999/2000000 : ℚ) : ℝ) ∧
    1 - Real.exp (-(1/100)) < ((1/100 : ℚ) : ℝ) ∧
    |((1/100 : ℚ) : ℝ) - (1 - Real.exp (-(1/100)))| ≤ 1/10000 := by
  have h := Real.abs_exp_sub_one_sub_id_le (x := 1/100)
    (by rw [abs_le]; constructor <;> norm_num)
  have hb := abs_le.mp h
  have hpos := Real.exp_pos (1/100)
  have hle : Real.exp (1/100) ≤ 10101/10000 := by linarith [hb.2]
  have hinv : Real.exp (-(1/100)) = (Real.exp (1/100))⁻¹ := Real.exp_neg _
  have hge : (10101/10000 : ℝ)⁻¹ ≤ (Real.exp (1/100))⁻¹ := inv_anti₀ hpos hle
  have h2 := Real.abs_exp_sub_one_sub_id_le (x := -(1/100))
    (by rw [abs_le]; constructor <;> norm_num)
  have hb2 := abs_le.mp h2
  rw [hinv] at *
  norm_num at hge hb2 ⊢
  refine ⟨by linarith, by linarith, ?_⟩
  rw [abs_le]
  constructor <;> linarith [hb2.1, hb2.2]

/-- C22 fails as stated: the binding probability of the scenario is not
`1 - exp(-0.01)`. With affinities 1/2 per head (a total rate of 1) the total
of `Update_0_1` is 0.01 and the roll 0.0099995, which is above
`1 - exp(-0.01)`, binds the crosslink; with every factor 1 the total is 0.02
and the roll 0.01 binds it. -/
theorem scenario_probability_counterexample :
    ((engineScenario (1/2)).Update_0_1 (xlScenario (19999/2000000))).n_exp_0_1 = 1 / 100 ∧
    (xlScenario (19999/2000000)).rng.stream (xlScenario (19999/2000000)).rng.pos =
      19999/2000000 ∧
    1 - Real.exp (-(1/100)) < ((19999/2000000 : ℚ) : ℝ) ∧
    AttachedOne (engineScenario (1/2))
      ((engineScenario (1/2)).Update_0_1 (xlScenario (19999/2000000)))
      (KMC_0_1_xlink refXlinkLib (engineScenario (1/2))
        ((engineScenario (1/2)).Update_0_1 (xlScenario (19999/2000000)))) ∧
    ((engineScenario 1).Update_0_1 (xlScenario (1/100))).n_exp_0_1 = 1 / 50 ∧
    1 - Real.exp (-(1/100)) < ((1/100 : ℚ) : ℝ) ∧
    AttachedOne (engineScenario 1) ((engineScenario 1).Update_0_1 (xlScenario (1/100)))
      (KMC_0_1_xlink refXlinkLib (engineScenario 1)
        ((engineScenario 1).Update_0_1 (xlScenario (1/100)))) := by
  have key : ∀ eps roll : ℚ, DBL_EPSILON ≤ eps / 50 → 0 ≤ roll → roll < eps / 50 →
      AttachedOne (engineScenario eps) ((engineScenario eps).Update_0_1 (xlScenario roll))
        (KMC_0_1_xlink refXlinkLib (engineScenario eps)
          ((engineScenario eps).Update_0_1 (xlScenario roll))) := by
    intro eps roll he hr hlt
    obtain ⟨e1, e2, e3⟩ := xlScenario_Update_0_1 eps roll
    have hroll : ((engineScenario eps).Update_0_1 (xlScenario roll)).rng.stream
        ((engineScenario eps).Update_0_1 (xlScenario roll)).rng.pos = roll := by
      rw [e2]
      exact e3
    refine (KMC_0_1_xlink_threshold refXlinkLib (engineScenario eps)
      ((engineScenario eps).Update_0_1 (xlScenario roll)) rfl rfl rfl
      (by rw [e1]; exact he) (by rw [hroll]; exact hr)
      (congrArg Xlink.n_exp_0_1
        (Update_0_1_again (engineScenario eps) (engineScenario eps) (xlScenario roll)
          ⟨rfl, rfl, rfl, rfl, rfl, rfl, rfl, rfl, rfl⟩ rfl rfl)).symm
      rfl
      (by
        intro n _
        simp [engineScenario, engine, rodSimple])
      rfl rfl).1 ?_
    rw [hroll, e1]
    exact hlt
  refine ⟨?_, (xlScenario_Update_0_1 (1/2) _).2.2, one_sub_exp_bounds.1, ?_, ?_,
    one_sub_exp_bounds.2.1, ?_⟩
  · rw [(xlScenario_Update_0_1 (1/2) _).1]
    norm_num
  · exact key (1/2) (19999/2000000) (by unfold DBL_EPSILON; norm_num) (by norm_num)
      (by norm_num)
  · rw [(xlScenario_Update_0_1 1 _).1]
  · exact key 1 (1/100) (by unfold DBL_EPSILON; norm_num) (by norm_num) (by norm_num)

end XlinkKMC

namespace Crosslink

/-- C4. Failing input: the Doubly bound crosslink `xlDoubly` (spring
constant 1, rest length 0, anchors at distance 1, off-rate 1, time step
1/100, no force dependence, roll 1/2). Its tether force 1 exceeds its
maximal spring force 1/2, and one step (`CalculateTetherForces`, then
`DoublyKMC`) leaves it Doubly bound: the step computes `tether_force_` and
never compares it with `f_spring_max_`, whose value does not change the
result. The motor, for the same force 1 and maximum 1/2, is detached by
`Motor::ApplyAnchorForces`. -/
theorem forced_rupture_missing :
    (xlDoubly (1/2)).state_ = .doubly ∧
    ((xlDoubly (1/2)).CalculateTetherForces (refLib 0 0 0)).tether_force_ = 1 ∧
    (xlDoubly (1/2)).k_spring_ *
        (((xlDoubly (1/2)).CalculateTetherForces (refLib 0 0 0)).length_
          - (xlDoubly (1/2)).rest_length_) = 1 ∧
    (xlDoubly (1/2)).f_spring_max_ = 1 / 2 ∧
    (((xlDoubly (1/2)).CalculateTetherForces (refLib 0 0 0)).DoublyKMC (refLib 0 0 0)).state_
      = .doubly ∧
    (∀ m : ℚ,
      ((({ xlDoubly (1/2) with f_spring_max_ := m }).CalculateTetherForces
        (refLib 0 0 0)).DoublyKMC (refLib 0 0 0)).state_ = .doubly) ∧
    ({ motorAt 5 ![1, 0, 0] with f_spring_max_ := 1/2 }).anchor_f_mag = 1 ∧
    (({ motorAt 5 ![1, 0, 0] with f_spring_max_ := 1/2 }).ApplyAnchorForces
      refMotorLib).anchored_ = false := by
  have hstay : (((xlDoubly (1/2)).CalculateTetherForces (refLib 0 0 0)).DoublyKMC
      (refLib 0 0 0)).state_ = .doubly := by
    rw [DoublyKMC_state, xlDoubly_choice_half, CalculateTetherForces_state]
    simp [xlDoubly]
  have hmag : ({ motorAt 5 ![1, 0, 0] with f_spring_max_ := 1/2 }).anchor_f_mag = 1 := by
    simp [Motor.anchor_f_mag, Motor.anchor_force, motorAt, List.finRange]
  refine ⟨rfl, ?_, ?_, rfl, hstay, ?_, hmag, ?_⟩
  · exact (xlDoubly_tether (1/2)).2.1
  · rw [(xlDoubly_tether (1/2)).1]
    simp [xlDoubly]
  · intro m
    have h := (step_detaches_iff_selected (refLib 0 0 0) (xlDoubly (1/2)) rfl).2.1 m
    rw [h]
    exact hstay
  · rw [Motor.ApplyAnchorForces_above refMotorLib _ (by rw [hmag]; norm_num [motorAt, SQR])]
    rfl

end Crosslink

end Simcore
